import Mathlib

/-!
# Bumper: order lifecycle and batch execution (`src/server.js`)

A shallow embedding of the server of the ETH bumper.

* `ethers.BigNumber` values (amounts in wei) are `Int`.
* Every awaited call to a collaborator (JSON-RPC provider, contracts, MongoDB) takes its
  outcome from an explicit environment record: `Except.ok v` when the promise resolves to `v`,
  `Except.error e` when it rejects with `e`.
* Every function returns, next to its result, the list of collaborator calls it issued, in
  program order (`Call`).
* A collection of the document store is the list of its documents; a `WalletBatch` document
  is identified by its position, a `BumpOrder` document by its `orderId` (unique index).
* The five swap callbacks of a batch run concurrently and share no state; their calls are
  listed wallet by wallet.
-/

namespace Bumper

/-! ## Library values -/

/-- Outcome of an awaited call: the value it resolves to, or the error it rejects with. -/
abbrev Outcome (α : Type) := Except String α

/-- The constant `ethers.utils.parseEther('0.01')`, in wei. -/
def minBalance : Int := 10000000000000000

/-- The constant `ethers.utils.parseEther('0.009')`, in wei. -/
def treasuryFee : Int := 9000000000000000

/-- The constant `ethers.utils.parseEther('0.0001')`, in wei. -/
def gasBuffer : Int := 100000000000000

/-- The constant `batchSize = 5`. -/
def batchSize : Nat := 5

/-- `BigNumber.div`: division truncating toward zero; division by zero throws. -/
def bnDiv (a b : Int) : Outcome Int :=
  if b = 0 then .error "division by zero" else .ok (Int.tdiv a b)

/-- `BigNumber.toNumber`: throws unless the magnitude fits in 53 bits. -/
def toNumber (a : Int) : Outcome Int :=
  if a.natAbs < 2 ^ 53 then .ok a else .error "overflow"

/-- `Math.ceil(n / d)` for a JS number `n` holding an integer below `2 ^ 53` in magnitude and
the divisor `d = batchSize = 5`: the double `n / d` is the correctly rounded quotient; when the
exact quotient is not an integer it is at least `1 / 5` away from the integers around it, the
doubles of that size are at most `1 / 4` apart, so the rounded quotient lies strictly between
the same two integers and `Math.ceil` gives the integer ceiling of the exact quotient. -/
def mathCeilDiv (n : Int) (d : Nat) : Int := (n + ((d : Int) - 1)) / (d : Int)

/-- Left-pads a digit string with `0` up to `width` characters. -/
def zeroPad (width : Nat) (s : List Char) : List Char :=
  List.replicate (width - s.length) '0' ++ s

/-- The first group of `/^([0-9]*[1-9]|0)(0*)/` on a non-empty digit string: the string
without its trailing zeros, or `0` when it holds nothing else. -/
def stripTrailingZeros (s : List Char) : List Char :=
  match (s.reverse.dropWhile (fun c => c == '0')).reverse with
  | [] => ['0']
  | t => t

/-- `ethers.utils.formatEther`: the decimal rendering of a wei amount in ether, with at least
one fractional digit and no trailing zeros. -/
def formatEther (v : Int) : String :=
  let a := v.natAbs
  let fraction := stripTrailingZeros (zeroPad 18 (Nat.repr (a % 10 ^ 18)).toList)
  let whole := (Nat.repr (a / 10 ^ 18)).toList
  String.mk ((if v < 0 then ['-'] else []) ++ whole ++ ['.'] ++ fraction)

/-! ## Data model -/

/-- The `status` enum of `bumpOrderSchema`. -/
inductive OrderStatus
  | pending
  | processing
  | completed
  | failed
deriving DecidableEq, Repr

/-- The `status` enum of `walletBatchSchema`. -/
inductive BatchStatus
  | created
  | funded
  | executed
  | completed
deriving DecidableEq, Repr

/-- A document of `bumpOrderSchema`. Dates are milliseconds since the epoch. -/
structure BumpOrder where
  orderId : String
  depositWallet : String
  privateKey : String
  tokenAddress : String
  totalAmount : String
  remainingAmount : String
  status : OrderStatus
  createdAt : Nat
  completedAt : Option Nat
  currentBatch : Int
  totalBatches : Int
deriving DecidableEq, Repr

/-- An entry of `wallets` in `walletBatchSchema`. -/
structure WalletInfo where
  address : String
  privateKey : String
  used : Bool
deriving DecidableEq, Repr

/-- A document of `walletBatchSchema`. -/
structure WalletBatch where
  orderId : String
  batchNumber : Int
  wallets : List WalletInfo
  status : BatchStatus
deriving DecidableEq, Repr

/-- An `ethers.Wallet`: a signing key and the address derived from it. A wallet rebuilt with
`new ethers.Wallet(privateKey, provider)` from a stored key has the address stored next to
that key, both having been taken from the same `createRandom` wallet. -/
structure Wallet where
  address : String
  privateKey : String
deriving DecidableEq, Repr

/-- The two collections of the document store, each the list of its documents in insertion
order. `orderId` carries a unique index in `bumpOrderSchema`. -/
structure Db where
  orders : List BumpOrder
  batches : List WalletBatch
deriving DecidableEq, Repr

/-- Replaces by `f x` the first element `x` of the list that satisfies `p`. -/
def updateFirst {α : Type} (p : α → Bool) (f : α → α) : List α → List α
  | [] => []
  | x :: xs => if p x then f x :: xs else x :: updateFirst p f xs

/-- `BumpOrder.findOne({ orderId })` on the collection. -/
def Db.findOne (db : Db) (orderId : String) : Option BumpOrder :=
  db.orders.find? fun o => o.orderId == orderId

/-- A successful `order.save()` of a loaded order document: the stored document it was
loaded from, the one `findOne` returns for its `orderId`, takes its fields. -/
def Db.saveOrder (db : Db) (order : BumpOrder) : Db :=
  { db with orders := updateFirst (fun o => o.orderId == order.orderId) (fun _ => order) db.orders }

/-- A successful first `save()` of a new order document: the document is inserted. -/
def Db.insertOrder (db : Db) (order : BumpOrder) : Db :=
  { db with orders := db.orders ++ [order] }

/-- A successful first `walletBatch.save()`: the document is inserted. -/
def Db.insertBatch (db : Db) (b : WalletBatch) : Db :=
  { db with batches := db.batches ++ [b] }

/-- A successful later `walletBatch.save()` of the document at position `idx`. -/
def Db.saveBatch (db : Db) (idx : Nat) (b : WalletBatch) : Db :=
  { db with batches := db.batches.set idx b }

/-- A successful `BumpOrder.updateOne({ orderId }, { status })`. -/
def Db.updateStatus (db : Db) (orderId : String) (st : OrderStatus) : Db :=
  { db with orders :=
      updateFirst (fun o => o.orderId == orderId) (fun o => { o with status := st }) db.orders }

/-- The process configuration: `process.env.TREASURY_ADDRESS` and the value of
`ethers.utils.parseEther(process.env.BUMP_AMOUNT_ETH)`, an error when that call throws. -/
structure Config where
  treasuryAddress : String
  bumpAmount : Outcome Int

/-- The calls issued to the collaborators. -/
inductive Call
  | findOne (orderId : String)
  | insertOrder (order : BumpOrder)
  | saveOrder (order : BumpOrder)
  | updateOne (orderId : String) (status : OrderStatus)
  | saveBatch (batch : WalletBatch)
  | getBalance (address : String)
  | getPair (tokenA tokenB : String)
  | getReserves (pair : String)
  | token0 (pair : String)
  | getGasPrice
  | sendTransaction (sender target : String) (value : Int) (gasLimit : Nat) (gasPrice : Int)
  | disperseEth (sender : String) (recipients : List String) (values : List Int) (value : Int)
  | weth (sender : String)
  | exactInputSingle (sender tokenIn tokenOut : String) (fee : Nat) (recipient : String)
      (deadline : Nat) (amountIn : Int) (amountOutMinimum : Int) (sqrtPriceLimitX96 : Int)
      (value : Int) (gasLimit : Nat) (gasPrice : Int)
  | swapExactETHForTokens (sender : String) (amountOutMin : Int) (path : List String)
      (recipient : String) (deadline : Nat) (value : Int) (gasLimit : Nat) (gasPrice : Int)
  | wait (txHash : String)
  | processBumpOrder (orderId : String)
deriving DecidableEq, Repr

/-- What a function did: the collaborator calls it issued, in order, and how it ended. -/
abbrev Traced (α : Type) := List Call × Outcome α

/-! ## Utility functions -/

/-- The function `generateWalletBatch(count)`; `createRandom i` is the wallet returned by the
`i`-th call of `ethers.Wallet.createRandom()`. -/
def generateWalletBatch (count : Nat) (createRandom : Nat → Wallet) : List WalletInfo :=
  (List.range count).map fun i =>
    let wallet := createRandom i
    { address := wallet.address, privateKey := wallet.privateKey, used := false }

/-- Outcomes of the awaited calls of `fundWalletsWithDisperser`. -/
structure FundEnv where
  disperseEth : Outcome String
  wait : Outcome Unit

/-- The function `fundWalletsWithDisperser(fromWallet, wallets, bumpAmount, gasBuffer)`. -/
def fundWalletsWithDisperser (fromWallet : Wallet) (wallets : List WalletInfo)
    (bumpAmount gasBuffer : Int) (env : FundEnv) : Traced String :=
  let recipients := wallets.map fun w => w.address
  let values := wallets.map fun _ => bumpAmount + gasBuffer
  let totalAmount := values.foldl (fun acc v => acc + v) 0
  let call := Call.disperseEth fromWallet.address recipients values totalAmount
  match env.disperseEth with
  | .error e => ([call], .error e)
  | .ok tx =>
    match env.wait with
    | .error e => ([call, .wait tx], .error e)
    | .ok _ => ([call, .wait tx], .ok tx)

/-- Outcomes of the awaited calls of `sendEthToWallet`. -/
structure TransferEnv where
  gasPrice : Outcome Int
  sendTransaction : Outcome String
  wait : Outcome Unit

/-- The function `sendEthToWallet(fromWallet, toAddress, amount)`. -/
def sendEthToWallet (fromWallet : Wallet) (toAddress : String) (amount : Int)
    (env : TransferEnv) : Traced String :=
  match env.gasPrice with
  | .error e => ([.getGasPrice], .error e)
  | .ok gasPrice =>
    let call := Call.sendTransaction fromWallet.address toAddress amount 21000 gasPrice
    match env.sendTransaction with
    | .error e => ([.getGasPrice, call], .error e)
    | .ok tx =>
      match env.wait with
      | .error e => ([.getGasPrice, call, .wait tx], .error e)
      | .ok _ => ([.getGasPrice, call, .wait tx], .ok tx)

/-- The address of the Uniswap V2 router's `WETH()` as hard-coded in `swapETHForTokensV3`. -/
def wethAddress : String := "0xC02aaA39b223FE8D0A0e5C4F27eAD9083C756Cc2"

/-- Outcomes of the awaited calls of `swapETHForTokensV2`, and the clock `Date.now()`. -/
structure V2Env where
  weth : Outcome String
  now : Nat
  gasPrice : Outcome Int
  swapExactETHForTokens : Outcome String
  wait : Outcome Unit

/-- The function `swapETHForTokensV2(wallet, tokenAddress, ethAmount, recipient)`. -/
def swapETHForTokensV2 (wallet : Wallet) (tokenAddress : String) (ethAmount : Int)
    (recipient : String) (env : V2Env) : Traced String :=
  match env.weth with
  | .error e => ([.weth wallet.address], .error e)
  | .ok wethAddress =>
    let path := [wethAddress, tokenAddress]
    let deadline := env.now / 1000 + 60 * 20
    match env.gasPrice with
    | .error e => ([.weth wallet.address, .getGasPrice], .error e)
    | .ok gasPrice =>
      let call := Call.swapExactETHForTokens wallet.address 0 path recipient deadline
        ethAmount 300000 gasPrice
      match env.swapExactETHForTokens with
      | .error e => ([.weth wallet.address, .getGasPrice, call], .error e)
      | .ok tx =>
        match env.wait with
        | .error e => ([.weth wallet.address, .getGasPrice, call, .wait tx], .error e)
        | .ok _ => ([.weth wallet.address, .getGasPrice, call, .wait tx], .ok tx)

/-- Outcomes of the awaited calls of the `try` block of `swapETHForTokensV3`, the clock
`Date.now()`, and the environment of the fallback. -/
structure V3Env where
  now : Nat
  gasPrice : Outcome Int
  exactInputSingle : Outcome String
  wait : Outcome Unit
  v2 : V2Env

/-- The `try` block of `swapETHForTokensV3`: the swap through the V3 router. -/
def swapV3Try (wallet : Wallet) (tokenAddress : String) (ethAmount : Int)
    (recipient : String) (env : V3Env) : Traced String :=
  let deadline := env.now / 1000 + 60 * 20
  match env.gasPrice with
  | .error e => ([.getGasPrice], .error e)
  | .ok gasPrice =>
    let call := Call.exactInputSingle wallet.address wethAddress tokenAddress 3000 recipient
      deadline ethAmount 0 0 ethAmount 300000 gasPrice
    match env.exactInputSingle with
    | .error e => ([.getGasPrice, call], .error e)
    | .ok tx =>
      match env.wait with
      | .error e => ([.getGasPrice, call, .wait tx], .error e)
      | .ok _ => ([.getGasPrice, call, .wait tx], .ok tx)

/-- The function `swapETHForTokensV3(wallet, tokenAddress, ethAmount, recipient)`: the `try`
block, and in the `catch` the fallback to `swapETHForTokensV2` with the same arguments. -/
def swapETHForTokensV3 (wallet : Wallet) (tokenAddress : String) (ethAmount : Int)
    (recipient : String) (env : V3Env) : Traced String :=
  match swapV3Try wallet tokenAddress ethAmount recipient env with
  | (calls, .ok txHash) => (calls, .ok txHash)
  | (calls, .error _) =>
    let (calls2, result) := swapETHForTokensV2 wallet tokenAddress ethAmount recipient env.v2
    (calls ++ calls2, result)

/-- Outcomes of the awaited calls of `getTokenPrice`; the reserves are the first two
components of `getReserves()`. -/
structure PriceEnv where
  getPair : Outcome String
  getReserves : Outcome (Int × Int)
  token0 : Outcome String

/-- The constant `ethers.constants.AddressZero`. -/
def addressZero : String := "0x0000000000000000000000000000000000000000"

/-- The function `getTokenPrice(tokenAddress)`: whether the token has a funded V2 pair with
WETH; every error is caught and answered `false`. -/
def getTokenPrice (tokenAddress : String) (env : PriceEnv) : List Call × Bool :=
  match env.getPair with
  | .error _ => ([.getPair tokenAddress wethAddress], false)
  | .ok pairAddress =>
    if pairAddress = addressZero then ([.getPair tokenAddress wethAddress], false)
    else
      match env.getReserves with
      | .error _ => ([.getPair tokenAddress wethAddress, .getReserves pairAddress], false)
      | .ok reserves =>
        let calls := [.getPair tokenAddress wethAddress, .getReserves pairAddress,
          .token0 pairAddress]
        match env.token0 with
        | .error _ => (calls, false)
        | .ok token0 =>
          let (reserveToken, reserveWETH) :=
            if token0.toLower = tokenAddress.toLower then (reserves.1, reserves.2)
            else (reserves.2, reserves.1)
          if reserveToken = 0 ∨ reserveWETH = 0 then (calls, false) else (calls, true)

/-! ## API routes -/

/-- The JSON bodies the routes answer with, with the HTTP status of the error answers. -/
inductive Response
  | error (code : Nat) (error : String)
  | created (orderId depositWallet message : String)
  | status (orderId : String) (status : OrderStatus)
      (tokenAddress depositWallet currentBalance totalAmount remainingAmount : String)
      (currentBatch totalBatches : Int) (createdAt : Nat) (completedAt : Option Nat)
  | started (message orderId : String) (totalBatches estimatedBumps : Int)
deriving DecidableEq, Repr

/-- What a route handler did: its answer, the store it leaves, the calls it issued. -/
structure RouteResult where
  response : Response
  db : Db
  trace : List Call
deriving DecidableEq, Repr

/-- Inputs of `POST /api/bump/create` from outside the store: the library predicate
`ethers.utils.isAddress`, the outcomes of `getTokenPrice`, the wallet of
`ethers.Wallet.createRandom()`, the value of `uuidv4()`, the clock, the outcome of `save()`. -/
structure CreateEnv where
  isAddress : String → Bool
  price : PriceEnv
  createRandom : Wallet
  uuid : String
  now : Nat
  save : Outcome Unit

/-- The handler of `POST /api/bump/create`; `tokenAddress` is `req.body.tokenAddress`, `none`
when absent. The unique index on `orderId` rejects a second document with the same value. -/
def postBumpCreate (tokenAddress : Option String) (env : CreateEnv) (db : Db) : RouteResult :=
  match tokenAddress with
  | none => ⟨.error 400 "Valid token address is required", db, []⟩
  | some tokenAddress =>
    if tokenAddress = "" ∨ env.isAddress tokenAddress = false then
      ⟨.error 400 "Valid token address is required", db, []⟩
    else
      let (calls, tokenExists) := getTokenPrice tokenAddress env.price
      if tokenExists = false then ⟨.error 400 "Token not found or not tradeable", db, calls⟩
      else
        let depositWallet := env.createRandom
        let orderId := env.uuid
        let bumpOrder : BumpOrder :=
          { orderId := orderId
            depositWallet := depositWallet.address
            privateKey := depositWallet.privateKey
            tokenAddress := tokenAddress
            totalAmount := "0"
            remainingAmount := "0"
            status := .pending
            createdAt := env.now
            completedAt := none
            currentBatch := 0
            totalBatches := 0 }
        match env.save with
        | .error _ => ⟨.error 500 "Internal server error", db, calls ++ [.insertOrder bumpOrder]⟩
        | .ok _ =>
          if (db.findOne orderId).isSome then
            ⟨.error 500 "Internal server error", db, calls ++ [.insertOrder bumpOrder]⟩
          else
            ⟨.created orderId depositWallet.address "Deposit ETH to this wallet to start bumping",
              db.insertOrder bumpOrder, calls ++ [.insertOrder bumpOrder]⟩

/-- Outcomes of the awaited calls of `GET /api/bump/status/:orderId`. -/
structure StatusEnv where
  findOne : Outcome Unit
  balance : Outcome Int

/-- The handler of `GET /api/bump/status/:orderId`. -/
def getBumpStatus (orderId : String) (env : StatusEnv) (db : Db) : RouteResult :=
  match env.findOne with
  | .error _ => ⟨.error 500 "Internal server error", db, [.findOne orderId]⟩
  | .ok _ =>
    match db.findOne orderId with
    | none => ⟨.error 404 "Order not found", db, [.findOne orderId]⟩
    | some order =>
      let wallet : Wallet := ⟨order.depositWallet, order.privateKey⟩
      match env.balance with
      | .error _ =>
        ⟨.error 500 "Internal server error", db, [.findOne orderId, .getBalance wallet.address]⟩
      | .ok balance =>
        ⟨.status order.orderId order.status order.tokenAddress order.depositWallet
            (formatEther balance) order.totalAmount order.remainingAmount order.currentBatch
            order.totalBatches order.createdAt order.completedAt,
          db, [.findOne orderId, .getBalance wallet.address]⟩

/-- Outcomes of the awaited calls of `POST /api/bump/process/:orderId`. -/
structure BeginEnv where
  findOne : Outcome Unit
  balance : Outcome Int
  transfer : TransferEnv
  save : Outcome Unit

/-- The handler of `POST /api/bump/process/:orderId`. `Math.floor` is applied to a number
that already holds an integer. The call `processBumpOrder(orderId)`, which is not awaited, is
recorded as the last entry of the trace. -/
def postBumpProcess (cfg : Config) (orderId : String) (env : BeginEnv) (db : Db) :
    RouteResult :=
  match env.findOne with
  | .error _ => ⟨.error 500 "Internal server error", db, [.findOne orderId]⟩
  | .ok _ =>
    match db.findOne orderId with
    | none => ⟨.error 404 "Order not found", db, [.findOne orderId]⟩
    | some order =>
      if order.status ≠ .pending then
        ⟨.error 400 "Order is not in pending status", db, [.findOne orderId]⟩
      else
        let depositWallet : Wallet := ⟨order.depositWallet, order.privateKey⟩
        let t1 := [.findOne orderId, .getBalance depositWallet.address]
        match env.balance with
        | .error _ => ⟨.error 500 "Internal server error", db, t1⟩
        | .ok balance =>
          if balance < minBalance then
            ⟨.error 400 "Insufficient balance. Minimum 0.01 ETH required", db, t1⟩
          else
            let remainingAmount := balance - treasuryFee
            if remainingAmount ≤ 0 then
              ⟨.error 400 "Insufficient balance after treasury fee", db, t1⟩
            else
              match sendEthToWallet depositWallet cfg.treasuryAddress treasuryFee
                env.transfer with
              | (calls, .error _) => ⟨.error 500 "Internal server error", db, t1 ++ calls⟩
              | (calls, .ok _) =>
                let order := { order with
                  totalAmount := formatEther balance
                  remainingAmount := formatEther remainingAmount
                  status := .processing }
                match cfg.bumpAmount with
                | .error _ => ⟨.error 500 "Internal server error", db, t1 ++ calls⟩
                | .ok bumpAmount =>
                  match (bnDiv remainingAmount bumpAmount).bind toNumber with
                  | .error _ => ⟨.error 500 "Internal server error", db, t1 ++ calls⟩
                  | .ok totalBumps =>
                    let totalBatches := mathCeilDiv totalBumps batchSize
                    let order := { order with totalBatches := totalBatches }
                    let t2 := t1 ++ calls ++ [.saveOrder order]
                    match env.save with
                    | .error _ => ⟨.error 500 "Internal server error", db, t2⟩
                    | .ok _ =>
                      ⟨.started "Bump order processing started" orderId totalBatches totalBumps,
                        db.saveOrder order, t2 ++ [.processBumpOrder orderId]⟩

/-- What the handler of `POST /api/bump/process/:orderId` does once its `findOne` has
resolved: its answer, the order document it saves, if it gets to save one, and its calls. -/
structure BeginPlan where
  response : Response
  save : Option BumpOrder
  trace : List Call

/-- The handler of `POST /api/bump/process/:orderId` from the point where `findOne` resolves
to `found`; the statements are those of `postBumpProcess`, the store being touched again by
`order.save()` only. -/
def postBumpProcessPlan (cfg : Config) (orderId : String) (env : BeginEnv)
    (found : Option BumpOrder) : BeginPlan :=
  match env.findOne with
  | .error _ => ⟨.error 500 "Internal server error", none, [.findOne orderId]⟩
  | .ok _ =>
    match found with
    | none => ⟨.error 404 "Order not found", none, [.findOne orderId]⟩
    | some order =>
      if order.status ≠ .pending then
        ⟨.error 400 "Order is not in pending status", none, [.findOne orderId]⟩
      else
        let depositWallet : Wallet := ⟨order.depositWallet, order.privateKey⟩
        let t1 := [.findOne orderId, .getBalance depositWallet.address]
        match env.balance with
        | .error _ => ⟨.error 500 "Internal server error", none, t1⟩
        | .ok balance =>
          if balance < minBalance then
            ⟨.error 400 "Insufficient balance. Minimum 0.01 ETH required", none, t1⟩
          else
            let remainingAmount := balance - treasuryFee
            if remainingAmount ≤ 0 then
              ⟨.error 400 "Insufficient balance after treasury fee", none, t1⟩
            else
              match sendEthToWallet depositWallet cfg.treasuryAddress treasuryFee
                env.transfer with
              | (calls, .error _) => ⟨.error 500 "Internal server error", none, t1 ++ calls⟩
              | (calls, .ok _) =>
                let order := { order with
                  totalAmount := formatEther balance
                  remainingAmount := formatEther remainingAmount
                  status := .processing }
                match cfg.bumpAmount with
                | .error _ => ⟨.error 500 "Internal server error", none, t1 ++ calls⟩
                | .ok bumpAmount =>
                  match (bnDiv remainingAmount bumpAmount).bind toNumber with
                  | .error _ => ⟨.error 500 "Internal server error", none, t1 ++ calls⟩
                  | .ok totalBumps =>
                    let totalBatches := mathCeilDiv totalBumps batchSize
                    let order := { order with totalBatches := totalBatches }
                    let t2 := t1 ++ calls ++ [.saveOrder order]
                    match env.save with
                    | .error _ => ⟨.error 500 "Internal server error", none, t2⟩
                    | .ok _ =>
                      ⟨.started "Bump order processing started" orderId totalBatches totalBumps,
                        some order, t2 ++ [.processBumpOrder orderId]⟩

/-- The effect of a plan on the store: the successful `order.save()`, if the plan has one. -/
def BeginPlan.commit (p : BeginPlan) (db : Db) : RouteResult :=
  ⟨p.response, match p.save with
    | some order => db.saveOrder order
    | none => db, p.trace⟩

/-- Two process requests on the same order served concurrently, in the interleaving in which
the `findOne` of each resolves before the other reaches its `order.save()`: both handlers go
on from the order as stored in `db`; the first stores its document, then the second. The
result holds the answer, store and calls of each request. -/
def postBumpProcessRace (cfg : Config) (orderId : String) (envA envB : BeginEnv) (db : Db) :
    RouteResult × RouteResult :=
  let planA := postBumpProcessPlan cfg orderId envA (db.findOne orderId)
  let planB := postBumpProcessPlan cfg orderId envB (db.findOne orderId)
  let a := planA.commit db
  (a, planB.commit a.db)

/-! ## Background processing -/

/-- The swap callback of `processBumpOrder`, mapped over the wallets of a batch: the swap
through `swapETHForTokensV3` with the wallet as sender and recipient; an error is caught and
answered `null`. -/
def swapPromise (tokenAddress : String) (bumpAmount : Int) (walletInfo : WalletInfo)
    (env : V3Env) : List Call × Option String :=
  let wallet : Wallet := ⟨walletInfo.address, walletInfo.privateKey⟩
  match swapETHForTokensV3 wallet tokenAddress bumpAmount wallet.address env with
  | (calls, .ok txHash) => (calls, some txHash)
  | (calls, .error _) => (calls, none)

/-- The `wallets.map(...)` of swap callbacks awaited by `Promise.all`: the calls of all
callbacks and their results, by wallet index. -/
def swapPromises (tokenAddress : String) (bumpAmount : Int) (wallets : List WalletInfo)
    (envs : Nat → V3Env) : List Call × List (Option String) :=
  let results := wallets.enum.map fun (index, walletInfo) =>
    swapPromise tokenAddress bumpAmount walletInfo (envs index)
  ((results.map Prod.fst).flatten, results.map Prod.snd)

/-- Outcomes of the awaited calls of one iteration of the batch loop, and the random wallets
it draws. -/
structure BatchEnv where
  balance : Outcome Int
  createRandom : Nat → Wallet
  saveCreated : Outcome Unit
  fund : FundEnv
  saveFunded : Outcome Unit
  swaps : Nat → V3Env
  saveCompleted : Outcome Unit
  saveOrder : Outcome Unit

/-- The state of `processBumpOrder` during the loop: the loaded `order` document, the local
`currentBatch`, the store and the calls issued so far. -/
structure LoopState where
  order : BumpOrder
  currentBatch : Int
  db : Db
  trace : List Call
deriving DecidableEq, Repr

/-- The body of the `while` loop of `processBumpOrder`: the inner `try` block, whose `catch`
leaves the loop. The flag tells whether the loop goes on (`true`) or is left by `break`. -/
def batchBody (orderId : String) (depositWallet : Wallet) (bumpAmount : Int) (env : BatchEnv)
    (s : LoopState) : LoopState × Bool :=
  let t1 := s.trace ++ [.getBalance depositWallet.address]
  match env.balance with
  | .error _ => ({ s with trace := t1 }, false)
  | .ok balance =>
    let requiredAmount := bumpAmount * batchSize + gasBuffer * batchSize
    if balance < requiredAmount then ({ s with trace := t1 }, false)
    else
      let wallets := generateWalletBatch batchSize env.createRandom
      let walletBatch : WalletBatch :=
        { orderId := orderId, batchNumber := s.currentBatch + 1, wallets := wallets,
          status := .created }
      let t2 := t1 ++ [.saveBatch walletBatch]
      match env.saveCreated with
      | .error _ => ({ s with trace := t2 }, false)
      | .ok _ =>
        let idx := s.db.batches.length
        let db1 := s.db.insertBatch walletBatch
        match fundWalletsWithDisperser depositWallet wallets bumpAmount gasBuffer env.fund with
        | (calls, .error _) => ({ s with db := db1, trace := t2 ++ calls }, false)
        | (calls, .ok _) =>
          let walletBatch := { walletBatch with status := .funded }
          let t3 := t2 ++ calls ++ [.saveBatch walletBatch]
          match env.saveFunded with
          | .error _ => ({ s with db := db1, trace := t3 }, false)
          | .ok _ =>
            let db2 := db1.saveBatch idx walletBatch
            let (swapCalls, _) := swapPromises s.order.tokenAddress bumpAmount wallets env.swaps
            let walletBatch := { walletBatch with status := .completed }
            let t4 := t3 ++ swapCalls ++ [.saveBatch walletBatch]
            match env.saveCompleted with
            | .error _ => ({ s with db := db2, trace := t4 }, false)
            | .ok _ =>
              let db3 := db2.saveBatch idx walletBatch
              let currentBatch := s.currentBatch + 1
              let order := { s.order with currentBatch := currentBatch }
              let t5 := t4 ++ [.saveOrder order]
              match env.saveOrder with
              | .error _ =>
                ({ order := order, currentBatch := currentBatch, db := db3, trace := t5 }, false)
              | .ok _ =>
                ({ order := order, currentBatch := currentBatch, db := db3.saveOrder order,
                   trace := t5 }, true)

/-- The `while (currentBatch < order.totalBatches)` loop of `processBumpOrder`; `envs i` is
the environment of the `i`-th iteration, `iter` the number of iterations already run. -/
def batchLoop (orderId : String) (depositWallet : Wallet) (bumpAmount : Int)
    (envs : Nat → BatchEnv) (iter : Nat) (s : LoopState) : LoopState :=
  if s.currentBatch < s.order.totalBatches then
    match h : batchBody orderId depositWallet bumpAmount (envs iter) s with
    | (s', true) => batchLoop orderId depositWallet bumpAmount envs (iter + 1) s'
    | (s', false) => s'
  else s
termination_by (s.order.totalBatches - s.currentBatch).toNat
decreasing_by
  have key : s'.order.totalBatches = s.order.totalBatches ∧
      s'.currentBatch = s.currentBatch + 1 := by
    unfold batchBody at h
    simp only at h
    repeat' split at h
    all_goals simp only [Prod.mk.injEq, Bool.false_eq_true, and_false] at h
    all_goals (obtain ⟨h1, -⟩ := h; subst h1; exact ⟨rfl, rfl⟩)
  omega

/-- Outcomes of the awaited calls of `processBumpOrder` outside the loop body, the
environments of the loop iterations, and the clock read by `new Date()`. -/
structure ProcessEnv where
  findOne : Outcome Unit
  batches : Nat → BatchEnv
  now : Nat
  finalSave : Outcome Unit
  updateOne : Outcome Unit

/-- What a run of `processBumpOrder` did: the store it leaves, the calls it issued, and the
error its promise rejects with when the `catch` block itself throws. -/
structure ProcessResult where
  db : Db
  trace : List Call
  rejection : Option String
deriving DecidableEq, Repr

/-- The outer `catch` block of `processBumpOrder`: the order is marked `failed`. -/
def processCatch (orderId : String) (env : ProcessEnv) (db : Db) (trace : List Call) :
    ProcessResult :=
  match env.updateOne with
  | .error e => ⟨db, trace ++ [.updateOne orderId .failed], some e⟩
  | .ok _ => ⟨db.updateStatus orderId .failed, trace ++ [.updateOne orderId .failed], none⟩

/-- The statements of `processBumpOrder` after the loop: the order is marked `completed`;
when its write throws, the outer `catch` block runs. -/
def processFinish (orderId : String) (env : ProcessEnv) (s : LoopState) : ProcessResult :=
  let order := { s.order with status := .completed, completedAt := some env.now }
  match env.finalSave with
  | .error _ => processCatch orderId env s.db (s.trace ++ [.saveOrder order])
  | .ok _ => ⟨s.db.saveOrder order, s.trace ++ [.saveOrder order], none⟩

/-- The function `processBumpOrder(orderId)`. -/
def processBumpOrder (cfg : Config) (orderId : String) (env : ProcessEnv) (db : Db) :
    ProcessResult :=
  match env.findOne with
  | .error _ => processCatch orderId env db [.findOne orderId]
  | .ok _ =>
    match db.findOne orderId with
    | none => ⟨db, [.findOne orderId], none⟩
    | some order =>
      if order.status ≠ .processing then ⟨db, [.findOne orderId], none⟩
      else
        let depositWallet : Wallet := ⟨order.depositWallet, order.privateKey⟩
        match cfg.bumpAmount with
        | .error _ => processCatch orderId env db [.findOne orderId]
        | .ok bumpAmount =>
          processFinish orderId env
            (batchLoop orderId depositWallet bumpAmount env.batches 0
              { order := order, currentBatch := order.currentBatch, db := db,
                trace := [.findOne orderId] })

/-! ## Specification helpers -/

/-- Whether a call sends a plain transfer transaction. -/
def Call.isTransfer : Call → Bool
  | .sendTransaction _ _ _ _ _ => true
  | _ => false

/-- Whether a call starts the background run of `processBumpOrder`. -/
def Call.isProcessStart : Call → Bool
  | .processBumpOrder _ => true
  | _ => false

/-- Whether a call reads a balance. -/
def Call.isBalanceRead : Call → Bool
  | .getBalance _ => true
  | _ => false

/-- The order document a successful run of the route writes. -/
def startedOrder (order : BumpOrder) (balance totalBumps : Int) : BumpOrder :=
  { order with
    totalAmount := formatEther balance
    remainingAmount := formatEther (balance - treasuryFee)
    status := .processing
    totalBatches := mathCeilDiv totalBumps batchSize }

/-- The batch document of an iteration starting in state `s`, in the given status. -/
def newBatch (orderId : String) (s : LoopState) (env : BatchEnv) (status : BatchStatus) :
    WalletBatch :=
  { orderId := orderId, batchNumber := s.currentBatch + 1,
    wallets := generateWalletBatch batchSize env.createRandom, status := status }

/-- The store once the batch document of an iteration was written in every status. -/
def completedDb (orderId : String) (s : LoopState) (env : BatchEnv) : Db :=
  ((s.db.insertBatch (newBatch orderId s env .created)).saveBatch s.db.batches.length
    (newBatch orderId s env .funded)).saveBatch s.db.batches.length
    (newBatch orderId s env .completed)

/-- The calls of an iteration that runs to the write of the order, `calls` being those of the
funding. -/
def completedTrace (orderId : String) (depositWallet : Wallet) (bumpAmount : Int)
    (s : LoopState) (env : BatchEnv) (calls : List Call) : List Call :=
  s.trace ++ [.getBalance depositWallet.address, .saveBatch (newBatch orderId s env .created)] ++
    calls ++ [.saveBatch (newBatch orderId s env .funded)] ++
    (swapPromises s.order.tokenAddress bumpAmount
      (generateWalletBatch batchSize env.createRandom) env.swaps).1 ++
    [.saveBatch (newBatch orderId s env .completed),
      .saveOrder { s.order with currentBatch := s.currentBatch + 1 }]

/-- The order seen by the loop of a run that loaded `o`, once the counter reached `c`. -/
def withBatch (o : BumpOrder) (c : Int) : BumpOrder := { o with currentBatch := c }

/-- The relation between the state of the loop and the run it belongs to: a run that loaded
the order `o` from the store `db`. The loaded document differs from `o` by the counter only,
the counter has not passed `totalBatches`, and the order collection is that of `db` with the
document written at some earlier value of the counter. -/
def LoopInv (o : BumpOrder) (db : Db) (s : LoopState) : Prop :=
  s.order = withBatch o s.currentBatch ∧ o.currentBatch ≤ s.currentBatch ∧
    (s.currentBatch ≤ o.totalBatches ∨ s.currentBatch = o.currentBatch) ∧
    ∃ c, o.currentBatch ≤ c ∧ c ≤ s.currentBatch ∧
      s.db.orders = (db.saveOrder (withBatch o c)).orders

/-- The order invariant: the counter of completed batches does not pass the planned number,
and is zero on an order not yet started. -/
def OrderInv (o : BumpOrder) : Prop :=
  o.currentBatch ≤ o.totalBatches ∧ (o.status = .pending → o.currentBatch = 0)

/-- Every stored order satisfies the order invariant. -/
def DbInv (db : Db) : Prop := ∀ o ∈ db.orders, OrderInv o

/-- One step of the system on the store, the requests being served one after the other:
a create request, a status request, a process request, or the background run started by a
process request, which finds its order stored as `processing`. -/
inductive Step (cfg : Config) : Db → Db → Prop
  | create (tokenAddress : Option String) (env : CreateEnv) (db : Db) :
      Step cfg db (postBumpCreate tokenAddress env db).db
  | status (orderId : String) (env : StatusEnv) (db : Db) :
      Step cfg db (getBumpStatus orderId env db).db
  | start (orderId : String) (env : BeginEnv) (db : Db) :
      Step cfg db (postBumpProcess cfg orderId env db).db
  | run (orderId : String) (env : ProcessEnv) (db : Db) (o : BumpOrder) :
      db.findOne orderId = some o → o.status = .processing →
      Step cfg db (processBumpOrder cfg orderId env db).db

/-- The stores the system reaches from the empty store. -/
def Reachable (cfg : Config) (db : Db) : Prop :=
  Relation.ReflTransGen (Step cfg) ⟨[], []⟩ db

/-- The order `orderId` is stored and has left the status `pending`. -/
def NonPending (orderId : String) (db : Db) : Prop :=
  ∃ o, db.findOne orderId = some o ∧ o.status ≠ .pending

/-- The order document as the statements after the loop write it: marked `completed`, with
the completion date. -/
def finishedOrder (o : BumpOrder) (now : Nat) : BumpOrder :=
  { o with status := .completed, completedAt := some now }

/-- Whether a call belongs to a swap: a router call of either protocol. -/
def Call.isSwap : Call → Bool
  | .weth _ => true
  | .exactInputSingle _ _ _ _ _ _ _ _ _ _ _ _ => true
  | .swapExactETHForTokens _ _ _ _ _ _ _ _ => true
  | _ => false

/-- Whether a call goes to the V2 router. -/
def Call.isV2 : Call → Bool
  | .weth _ => true
  | .swapExactETHForTokens _ _ _ _ _ _ _ _ => true
  | _ => false

/-- Whether a call is the disperser's `disperseEth`. -/
def Call.isDisperse : Call → Bool
  | .disperseEth _ _ _ _ => true
  | _ => false

/-- The moves of the order lifecycle: no change, `pending` to `processing`, `processing` to
`completed` or to `failed`. -/
def StatusMove (a b : OrderStatus) : Prop :=
  a = b ∨ (a = .pending ∧ b = .processing) ∨
    (a = .processing ∧ (b = .completed ∨ b = .failed))

/-- What a step of the system may do to a stored order `o`: leave it, start it when it is
`pending`, or, when it is `processing`, rewrite its counter, status and completion date. -/
def OrderMove (o o' : BumpOrder) : Prop :=
  o' = o ∨
    (o.status = .pending ∧ ∃ B totalBumps, o' = startedOrder o B totalBumps) ∨
    (o.status = .processing ∧ ∃ c st ca,
      o' = { withBatch o c with status := st, completedAt := ca } ∧
      (st = .processing ∨ st = .completed ∨ st = .failed))

/-- The fields of an order that the process request plans: the two amounts and the number of
batches. -/
def planned (o : BumpOrder) : String × String × Int :=
  (o.totalAmount, o.remainingAmount, o.totalBatches)

/-- The progress fields of a status answer: status, `currentBatch`, `totalBatches`. -/
def Response.progress : Response → Option (OrderStatus × Int × Int)
  | .status _ st _ _ _ _ _ cb tb _ _ => some (st, cb, tb)
  | _ => none

/-- Whether a call writes to the document store. -/
def Call.isWrite : Call → Bool
  | .insertOrder _ => true
  | .saveOrder _ => true
  | .updateOne _ _ => true
  | .saveBatch _ => true
  | _ => false

/-- An exception is raised in `processBumpOrder` outside the body of the loop: by the read of
the order, by the set-up (the parse of the bump amount), or by the final write. -/
def OutsideFailure (cfg : Config) (env : ProcessEnv) : Prop :=
  (∃ e, env.findOne = .error e) ∨ (∃ e, cfg.bumpAmount = .error e) ∨
    ∃ e, env.finalSave = .error e

/-- Whether a call is the write of a wallet batch in status `funded`: the call that follows
each funding through the disperser that succeeded, and nothing else. -/
def Call.isFundedMark : Call → Bool
  | .saveBatch b => b.status == .funded
  | _ => false

/-- The number of batches funded in the course of the calls of a trace. -/
def fundedBatches (trace : List Call) : Nat := (trace.filter Call.isFundedMark).length

/-- The deposit balance changes through the transfers of the run only, each costing at
least its value: the first balance read of the loop finds at most the balance `B0` read by
the process request less the fee, and the read that follows an iteration whose funding
succeeded finds at most what that iteration read less the value attached to the funding. -/
def BalanceSpent (B0 bumpAmount : Int) (envs : Nat → BatchEnv) : Prop :=
  (∀ B, (envs 0).balance = .ok B → B ≤ B0 - treasuryFee) ∧
    ∀ i B B' tx, (envs i).balance = .ok B → (envs i).fund.disperseEth = .ok tx →
      (envs i).fund.wait = .ok () → (envs (i + 1)).balance = .ok B' →
      B' ≤ B - (bumpAmount * batchSize + gasBuffer * batchSize)

/-! ## Sample inputs -/

/-- A pending order as `POST /api/bump/create` stores it. -/
def exOrder : BumpOrder :=
  { orderId := "o1", depositWallet := "0xdeposit", privateKey := "0xkey",
    tokenAddress := "0xtoken", totalAmount := "0", remainingAmount := "0", status := .pending,
    createdAt := 0, completedAt := none, currentBatch := 0, totalBatches := 0 }

/-- A store holding the sample order alone. -/
def exDb : Db := ⟨[exOrder], []⟩

/-- A configuration with the given bump amount, in wei. -/
def exCfg (bumpAmount : Int) : Config := ⟨"0xtreasury", .ok bumpAmount⟩

/-- A fee transfer that succeeds. -/
def exTransfer : TransferEnv := ⟨.ok 1, .ok "0xfee", .ok ()⟩

/-- A run of the process route in which every call succeeds, the deposit holding `balance`. -/
def exBegin (balance : Int) : BeginEnv := ⟨.ok (), .ok balance, exTransfer, .ok ()⟩

/-- The sample order once started with a deposit of 0.02 ETH and a bump amount of 0.01 ETH:
one batch is planned. -/
def exProcessing : BumpOrder :=
  { exOrder with
    totalAmount := "0.02", remainingAmount := "0.011", status := .processing,
    totalBatches := 1 }

/-- A store holding the started sample order alone. -/
def exDbProcessing : Db := ⟨[exProcessing], []⟩

/-- The deposit wallet of the sample order. -/
def exDeposit : Wallet := ⟨"0xdeposit", "0xkey"⟩

/-- The state in which a run on the started sample order enters the loop. -/
def exLoopState : LoopState :=
  { order := exProcessing, currentBatch := 0, db := exDbProcessing, trace := [.findOne "o1"] }

/-- A V2 swap that succeeds. -/
def exV2 : V2Env := ⟨.ok wethAddress, 0, .ok 1, .ok "0xswap2", .ok ()⟩

/-- A V3 swap that succeeds. -/
def exV3 : V3Env := ⟨0, .ok 1, .ok "0xswap3", .ok (), exV2⟩

/-- A V3 swap that fails in both protocols. -/
def exV3Failing : V3Env :=
  ⟨0, .ok 1, .error "V3 reverted", .ok (),
    ⟨.ok wethAddress, 0, .ok 1, .error "V2 reverted", .ok ()⟩⟩

/-- The random wallets of the sample iterations. -/
def exRandom (i : Nat) : Wallet := ⟨"0xwallet" ++ toString i, "0xsecret" ++ toString i⟩

/-- An iteration in which every call succeeds, except that the swaps of the wallets 1 and 3
fail; the deposit holds `balance`. -/
def exBatch (balance : Int) : BatchEnv :=
  { balance := .ok balance
    createRandom := exRandom
    saveCreated := .ok ()
    fund := ⟨.ok "0xfund", .ok ()⟩
    saveFunded := .ok ()
    swaps := fun i => if i = 1 ∨ i = 3 then exV3Failing else exV3
    saveCompleted := .ok ()
    saveOrder := .ok () }

/-- The iteration `exBatch` with a funding call that reverts. -/
def exBatchUnfunded (balance : Int) : BatchEnv :=
  { exBatch balance with fund := ⟨.error "disperse reverted", .ok ()⟩ }

/-- A run whose calls outside the loop succeed, over the given iterations. -/
def exProcess (batches : Nat → BatchEnv) : ProcessEnv :=
  { findOne := .ok (), batches := batches, now := 77, finalSave := .ok (), updateOne := .ok () }

/-- A run in which the store is down: the read of the order throws, and so does the write of
the `catch` block. -/
def exProcessDown : ProcessEnv :=
  { findOne := .error "store down", batches := fun _ => exBatch 0, now := 77,
    finalSave := .ok (), updateOne := .error "store down" }

/-- The iteration `exBatch` with a write of the incremented counter that throws. -/
def exBatchCounterWriteFails (balance : Int) : BatchEnv :=
  { exBatch balance with saveOrder := .error "write failed" }

/-- A create request for the sample order: every call succeeds. -/
def exCreate : CreateEnv :=
  { isAddress := fun _ => true
    price := ⟨.ok "0xpair", .ok (1, 1), .ok "0xtoken"⟩
    createRandom := exDeposit
    uuid := "o1"
    now := 0
    save := .ok () }

/-! ## Arithmetic of the batch plan -/

theorem floor_div_eq_ediv (r b : Int) (hb : 0 < b) : ⌊(r : ℚ) / (b : ℚ)⌋ = r / b := by
  obtain ⟨n, rfl⟩ := Int.eq_ofNat_of_zero_le hb.le
  exact_mod_cast Rat.floor_intCast_div_natCast r n

theorem mathCeilDiv_eq_ceil (n : Int) (d : Nat) (hd : 0 < d) :
    mathCeilDiv n d = ⌈(n : ℚ) / (d : ℚ)⌉ := by
  have hdq : (0 : ℚ) < (d : ℚ) := by exact_mod_cast hd
  have hdz : (0 : ℤ) < (d : ℤ) := by exact_mod_cast hd
  symm
  rw [Int.ceil_eq_iff]
  unfold mathCeilDiv
  set q : ℤ := (n + ((d : ℤ) - 1)) / (d : ℤ) with hq
  have h1 : (d : ℤ) * q ≤ n + ((d : ℤ) - 1) := Int.mul_ediv_self_le (ne_of_gt hdz)
  have h2 : n + ((d : ℤ) - 1) < (d : ℤ) * q + (d : ℤ) := Int.lt_mul_ediv_self_add hdz
  constructor
  · rw [lt_div_iff₀ hdq]
    have : (q - 1) * (d : ℤ) < n := by nlinarith
    exact_mod_cast this
  · rw [div_le_iff₀ hdq]
    have : n ≤ q * (d : ℤ) := by nlinarith
    exact_mod_cast this

theorem plan_bumps (r b : Int) (hr : 0 < r) (hb : 0 < b) (hfit : r / b < 2 ^ 53) :
    (bnDiv r b).bind toNumber = .ok (r / b) := by
  have hq : 0 ≤ r / b := Int.ediv_nonneg hr.le hb.le
  have htd : Int.tdiv r b = r / b := Int.tdiv_eq_ediv hr.le hb.le
  have hne : b ≠ 0 := ne_of_gt hb
  have hnat : (r / b).natAbs < 9007199254740992 := by
    have h := hfit
    norm_num at h
    omega
  simp [bnDiv, toNumber, hne, htd, hnat, Except.bind]

/-! ## The order collection -/

theorem find_updateFirst_same {α : Type} (p : α → Bool) (y : α) (hy : p y = true) :
    ∀ (l : List α) (x : α), l.find? p = some x →
      (updateFirst p (fun _ => y) l).find? p = some y
  | [], _, h => by simp at h
  | a :: l, x, h => by
    by_cases ha : p a = true
    · simp [updateFirst, ha, hy]
    · have h' : l.find? p = some x := by simpa [List.find?, ha] using h
      simp [updateFirst, ha, List.find?, find_updateFirst_same p y hy l x h']

theorem findOne_orderId (db : Db) (orderId : String) (o : BumpOrder)
    (h : db.findOne orderId = some o) : o.orderId = orderId := by
  have := List.find?_some h
  simpa using this

theorem findOne_saveOrder (db : Db) (orderId : String) (o o' : BumpOrder)
    (h : db.findOne orderId = some o) (hid : o'.orderId = orderId) :
    (db.saveOrder o').findOne orderId = some o' := by
  unfold Db.findOne Db.saveOrder
  simp only [hid]
  exact find_updateFirst_same _ o' (by simp [hid]) db.orders o h

theorem updateFirst_const_then {α : Type} (p : α → Bool) (g : α → α) (x : α)
    (hx : p x = true) :
    ∀ l : List α, updateFirst p g (updateFirst p (fun _ => x) l) =
      updateFirst p (fun _ => g x) l
  | [] => rfl
  | a :: l => by
    by_cases ha : p a = true
    · simp [updateFirst, ha, hx]
    · simp [updateFirst, ha, updateFirst_const_then p g x hx l]

theorem updateFirst_self {α : Type} (p : α → Bool) (x : α) :
    ∀ l : List α, l.find? p = some x → updateFirst p (fun _ => x) l = l
  | [], h => by simp at h
  | a :: l, h => by
    by_cases ha : p a = true
    · have : a = x := by simpa [List.find?, ha] using h
      subst this
      simp [updateFirst, ha]
    · have h' : l.find? p = some x := by simpa [List.find?, ha] using h
      simp [updateFirst, ha, updateFirst_self p x l h']

theorem find_updateFirst_other {α : Type} (p q : α → Bool) (f : α → α)
    (h : ∀ x, p x = true → q x = false ∧ q (f x) = false) :
    ∀ l : List α, (updateFirst p f l).find? q = l.find? q
  | [] => rfl
  | a :: l => by
    by_cases ha : p a = true
    · obtain ⟨h1, h2⟩ := h a ha
      simp [updateFirst, ha, List.find?, h1, h2]
    · by_cases hq : q a = true
      · simp [updateFirst, ha, List.find?, hq]
      · simp [updateFirst, ha, List.find?, hq, find_updateFirst_other p q f h l]

theorem updateFirst_mem {α : Type} (p : α → Bool) (f : α → α) :
    ∀ (l : List α) (y : α), y ∈ updateFirst p f l → y ∈ l ∨ ∃ x ∈ l, y = f x
  | [], y, h => by simp [updateFirst] at h
  | a :: l, y, h => by
    by_cases ha : p a = true
    · simp only [updateFirst, ha, if_true, List.mem_cons] at h
      rcases h with h1 | h1
      · exact Or.inr ⟨a, List.mem_cons_self a l, h1⟩
      · exact Or.inl (List.mem_cons_of_mem a h1)
    · have h2 : y = a ∨ y ∈ updateFirst p f l := by
        simpa [updateFirst, ha] using h
      cases h2 with
      | inl h1 => exact Or.inl (by simp [h1])
      | inr h1 =>
        rcases updateFirst_mem p f l y h1 with h' | ⟨x, hx, hy⟩
        · exact Or.inl (List.mem_cons_of_mem a h')
        · exact Or.inr ⟨x, List.mem_cons_of_mem a hx, hy⟩

theorem findOne_saveOrder_ne (db : Db) (orderId : String) (o : BumpOrder)
    (hne : o.orderId ≠ orderId) : (db.saveOrder o).findOne orderId = db.findOne orderId := by
  unfold Db.findOne Db.saveOrder
  apply find_updateFirst_other
  intro x hx
  have hx' : x.orderId = o.orderId := by simpa using hx
  constructor
  · simp [hx', hne]
  · simp [hne]

theorem saveOrder_saveOrder (db : Db) (o1 o2 : BumpOrder) (hid : o1.orderId = o2.orderId) :
    (db.saveOrder o1).saveOrder o2 = db.saveOrder o2 := by
  unfold Db.saveOrder
  simp only [hid]
  rw [updateFirst_const_then _ _ o1 (by simp [hid])]

theorem saveOrder_updateStatus (db : Db) (o : BumpOrder) (st : OrderStatus) :
    (db.saveOrder o).updateStatus o.orderId st = db.saveOrder { o with status := st } := by
  unfold Db.saveOrder Db.updateStatus
  simp only
  rw [updateFirst_const_then _ _ o (by simp)]

theorem saveOrder_self (db : Db) (orderId : String) (o : BumpOrder)
    (h : db.findOne orderId = some o) : db.saveOrder o = db := by
  have hid := findOne_orderId db orderId o h
  unfold Db.saveOrder
  unfold Db.findOne at h
  rw [hid, updateFirst_self _ o db.orders h]

/-! ## The route `POST /api/bump/process/:orderId` -/

theorem remaining_pos (B : Int) (hmin : minBalance ≤ B) :
    1000000000000000 ≤ B - treasuryFee := by
  unfold minBalance at hmin
  unfold treasuryFee
  omega

theorem postBumpProcess_started (cfg : Config) (orderId : String) (env : BeginEnv) (db : Db)
    (order : BumpOrder) (B b gasPrice totalBumps : Int) (tx : String)
    (hfind : env.findOne = .ok ()) (horder : db.findOne orderId = some order)
    (hpending : order.status = .pending)
    (hbal : env.balance = .ok B) (hmin : minBalance ≤ B)
    (hgas : env.transfer.gasPrice = .ok gasPrice)
    (hsend : env.transfer.sendTransaction = .ok tx) (hwait : env.transfer.wait = .ok ())
    (hcfg : cfg.bumpAmount = .ok b)
    (hplan : (bnDiv (B - treasuryFee) b).bind toNumber = .ok totalBumps)
    (hsave : env.save = .ok ()) :
    postBumpProcess cfg orderId env db =
      ⟨.started "Bump order processing started" orderId (mathCeilDiv totalBumps batchSize)
          totalBumps,
        db.saveOrder (startedOrder order B totalBumps),
        [.findOne orderId, .getBalance order.depositWallet, .getGasPrice,
          .sendTransaction order.depositWallet cfg.treasuryAddress treasuryFee 21000 gasPrice,
          .wait tx, .saveOrder (startedOrder order B totalBumps),
          .processBumpOrder orderId]⟩ := by
  have hrem := remaining_pos B hmin
  have h1 : ¬ B < minBalance := not_lt.mpr hmin
  have h2 : ¬ B - treasuryFee ≤ 0 := by omega
  simp [postBumpProcess, hfind, horder, hpending, hbal, h1, h2, sendEthToWallet, hgas, hsend,
    hwait, hcfg, hplan, hsave, startedOrder]

/-- C1: for every remaining amount `r > 0` and bump amount `b > 0` with `floor(r / b)` below
`2 ^ 53`, the expression of the route evaluates to `estimatedBumps = floor(r / b)`, and
`totalBatches` is `ceil(estimatedBumps / 5)`; a run of the route on a pending order whose
deposit balance, at least the minimum, leaves `r` after the fee, with the fee transfer and the
write of the order succeeding, answers with both values and stores that `totalBatches` on the
order. -/
theorem begin_computes_batch_plan (r b : Int) (hr : 0 < r) (hb : 0 < b)
    (hfit : r / b < 2 ^ 53) :
    (bnDiv r b).bind toNumber = .ok ⌊(r : ℚ) / (b : ℚ)⌋ ∧
    mathCeilDiv ⌊(r : ℚ) / (b : ℚ)⌋ batchSize = ⌈((⌊(r : ℚ) / (b : ℚ)⌋ : ℤ) : ℚ) / 5⌉ ∧
    ∀ (cfg : Config) (orderId : String) (env : BeginEnv) (db : Db) (order : BumpOrder)
      (gasPrice : Int) (tx : String),
      env.findOne = .ok () → db.findOne orderId = some order → order.status = .pending →
      env.balance = .ok (r + treasuryFee) → minBalance ≤ r + treasuryFee →
      env.transfer.gasPrice = .ok gasPrice → env.transfer.sendTransaction = .ok tx →
      env.transfer.wait = .ok () → cfg.bumpAmount = .ok b → env.save = .ok () →
      (postBumpProcess cfg orderId env db).response =
          .started "Bump order processing started" orderId
            ⌈((⌊(r : ℚ) / (b : ℚ)⌋ : ℤ) : ℚ) / 5⌉ ⌊(r : ℚ) / (b : ℚ)⌋ ∧
        ((postBumpProcess cfg orderId env db).db.findOne orderId).map
          (fun o => o.totalBatches) = some ⌈((⌊(r : ℚ) / (b : ℚ)⌋ : ℤ) : ℚ) / 5⌉ := by
  have hfloor := floor_div_eq_ediv r b hb
  have hceil : mathCeilDiv (r / b) batchSize = ⌈((r / b : ℤ) : ℚ) / 5⌉ := by
    have := mathCeilDiv_eq_ceil (r / b) batchSize (by decide)
    simpa [batchSize] using this
  have hplan := plan_bumps r b hr hb hfit
  rw [hfloor]
  refine ⟨hplan, hceil, ?_⟩
  intro cfg orderId env db order gasPrice tx hfind horder hpending hbal hmin hgas hsend hwait
    hcfg hsave
  have hplan' : (bnDiv (r + treasuryFee - treasuryFee) b).bind toNumber = .ok (r / b) := by
    simpa using hplan
  have hrun := postBumpProcess_started cfg orderId env db order (r + treasuryFee) b gasPrice
    (r / b) tx hfind horder hpending hbal hmin hgas hsend hwait hcfg hplan' hsave
  rw [hrun]
  refine ⟨by simp only [hceil], ?_⟩
  have hid : (startedOrder order (r + treasuryFee) (r / b)).orderId = orderId :=
    findOne_orderId db orderId order horder
  rw [findOne_saveOrder db orderId order _ horder hid]
  simp [startedOrder, hceil]

/-- C1 at `r` = 0.41 ETH and `b` = 0.02 ETH: 20 bumps in 4 batches. -/
theorem begin_computes_batch_plan_witness :
    (postBumpProcess (exCfg 20000000000000000) "o1" (exBegin 419000000000000000)
        exDb).response = .started "Bump order processing started" "o1" 4 20 ∧
      ((postBumpProcess (exCfg 20000000000000000) "o1" (exBegin 419000000000000000)
        exDb).db.findOne "o1").map (fun o => o.totalBatches) = some 4 := by
  have h := begin_computes_batch_plan 410000000000000000 20000000000000000 (by norm_num)
    (by norm_num) (by norm_num)
  have hfl : ⌊((410000000000000000 : ℤ) : ℚ) / ((20000000000000000 : ℤ) : ℚ)⌋ = 20 := by
    rw [Int.floor_eq_iff]
    norm_num
  have hce : ⌈((20 : ℤ) : ℚ) / 5⌉ = 4 := by
    rw [Int.ceil_eq_iff]
    norm_num
  rw [hfl, hce] at h
  exact h.2.2 (exCfg 20000000000000000) "o1" (exBegin 419000000000000000) exDb exOrder 1
    "0xfee" rfl rfl rfl rfl (by decide) rfl rfl rfl rfl rfl

/-- C2: on a pending order whose deposit balance reads below 0.01 ETH the route answers with
the insufficient-balance error after reading the order and the balance only: no transfer is
sent, the background run is not started, and the store, hence the order, is unchanged. -/
theorem begin_below_minimum_rejected (cfg : Config) (orderId : String) (env : BeginEnv)
    (db : Db) (order : BumpOrder) (B : Int)
    (hfind : env.findOne = .ok ()) (horder : db.findOne orderId = some order)
    (hpending : order.status = .pending)
    (hbal : env.balance = .ok B) (hlow : B < minBalance) :
    (postBumpProcess cfg orderId env db).response =
        .error 400 "Insufficient balance. Minimum 0.01 ETH required" ∧
      (postBumpProcess cfg orderId env db).trace =
        [.findOne orderId, .getBalance order.depositWallet] ∧
      (∀ c ∈ (postBumpProcess cfg orderId env db).trace,
        c.isTransfer = false ∧ c.isProcessStart = false) ∧
      (postBumpProcess cfg orderId env db).db = db ∧
      (postBumpProcess cfg orderId env db).db.findOne orderId = some order := by
  have hrun : postBumpProcess cfg orderId env db =
      ⟨.error 400 "Insufficient balance. Minimum 0.01 ETH required", db,
        [.findOne orderId, .getBalance order.depositWallet]⟩ := by
    simp [postBumpProcess, hfind, horder, hpending, hbal, hlow]
  rw [hrun]
  refine ⟨rfl, rfl, ?_, rfl, horder⟩
  intro c hc
  simp only [List.mem_cons, List.mem_singleton, List.not_mem_nil, or_false] at hc
  rcases hc with rfl | rfl <;> exact ⟨rfl, rfl⟩

/-- C2 at a balance of 0.0099 ETH. -/
theorem begin_below_minimum_rejected_witness :
    (postBumpProcess (exCfg 20000000000000000) "o1" (exBegin 9900000000000000) exDb).response =
        .error 400 "Insufficient balance. Minimum 0.01 ETH required" ∧
      (postBumpProcess (exCfg 20000000000000000) "o1" (exBegin 9900000000000000) exDb).trace =
        [.findOne "o1", .getBalance "0xdeposit"] ∧
      (postBumpProcess (exCfg 20000000000000000) "o1" (exBegin 9900000000000000) exDb).db =
        exDb := by
  have h := begin_below_minimum_rejected (exCfg 20000000000000000) "o1"
    (exBegin 9900000000000000) exDb exOrder 9900000000000000 rfl rfl rfl rfl (by decide)
  exact ⟨h.1, h.2.1, h.2.2.2.1⟩

theorem begin_never_remaining_error (cfg : Config) (orderId : String) (env : BeginEnv)
    (db : Db) :
    (postBumpProcess cfg orderId env db).response ≠
      .error 400 "Insufficient balance after treasury fee" := by
  unfold postBumpProcess
  cases env.findOne with
  | error e => simp
  | ok u =>
    cases db.findOne orderId with
    | none => simp
    | some order =>
      by_cases hst : order.status = .pending
      · cases env.balance with
        | error e => simp [hst]
        | ok B =>
          by_cases hlt : B < minBalance
          · simp [hst, hlt]
          · have hrem := remaining_pos B (not_lt.mp hlt)
            have h2 : ¬ B - treasuryFee ≤ 0 := by omega
            simp only [hst, hlt, h2, ne_eq, not_true_eq_false, if_false]
            repeat' split
            all_goals simp
      · simp [hst]

theorem begin_not_below_minimum (cfg : Config) (orderId : String) (env : BeginEnv) (db : Db)
    (B : Int) (hbal : env.balance = .ok B) (hmin : minBalance ≤ B) :
    (postBumpProcess cfg orderId env db).response ≠
      .error 400 "Insufficient balance. Minimum 0.01 ETH required" := by
  have h1 : ¬ B < minBalance := not_lt.mpr hmin
  unfold postBumpProcess
  rw [hbal]
  cases env.findOne with
  | error e => simp
  | ok u =>
    cases db.findOne orderId with
    | none => simp
    | some order =>
      by_cases hst : order.status = .pending
      · simp only [hst, h1, ne_eq, not_true_eq_false, if_false]
        repeat' split
        all_goals simp
      · simp [hst]
/-- C3, the claim as stated fails: with a deposit of 0.02 ETH, a fee transfer that succeeds
and a bump amount of 1 wei, the quotient `remaining / bumpAmount` does not fit a JS number,
`toNumber` throws after the fee has been sent, the route answers 500 and the order stays
pending with its amounts untouched. -/
theorem begin_tiny_bump_amount_fails :
    minBalance ≤ 20000000000000000 ∧
      (exBegin 20000000000000000).balance = .ok 20000000000000000 ∧
      (sendEthToWallet ⟨exOrder.depositWallet, exOrder.privateKey⟩ (exCfg 1).treasuryAddress
        treasuryFee (exBegin 20000000000000000).transfer).2 = .ok "0xfee" ∧
      (exCfg 1).bumpAmount = .ok 1 ∧
      (postBumpProcess (exCfg 1) "o1" (exBegin 20000000000000000) exDb).response =
        .error 500 "Internal server error" ∧
      (postBumpProcess (exCfg 1) "o1" (exBegin 20000000000000000) exDb).db.findOne "o1" =
        some exOrder ∧
      (postBumpProcess (exCfg 1) "o1" (exBegin 20000000000000000) exDb).trace =
        [.findOne "o1", .getBalance "0xdeposit", .getGasPrice,
          .sendTransaction "0xdeposit" "0xtreasury" 9000000000000000 21000 1,
          .wait "0xfee"] := by
  refine ⟨by decide, rfl, rfl, rfl, by decide, by decide, by decide⟩

/-- C3, amended: for every pending order and every deposit balance `B` of at least 0.01 ETH,
the remainder `B - 0.009 ETH` is at least 0.001 ETH and neither insufficient-funds answer is
given whatever else happens; if moreover the fee transfer and the write of the order succeed,
the bump amount is positive and `floor((B - 0.009 ETH) / bumpAmount)` is below `2 ^ 53`, the
route succeeds and the stored order has `totalAmount = formatEther(B)`,
`remainingAmount = formatEther(B - 0.009 ETH)` and status `processing`. -/
theorem begin_at_least_minimum_succeeds (cfg : Config) (orderId : String) (env : BeginEnv)
    (db : Db) (order : BumpOrder) (B b gasPrice : Int) (tx : String)
    (hfind : env.findOne = .ok ()) (horder : db.findOne orderId = some order)
    (hpending : order.status = .pending)
    (hbal : env.balance = .ok B) (hmin : minBalance ≤ B)
    (hgas : env.transfer.gasPrice = .ok gasPrice)
    (hsend : env.transfer.sendTransaction = .ok tx) (hwait : env.transfer.wait = .ok ())
    (hcfg : cfg.bumpAmount = .ok b) (hb : 0 < b) (hfit : (B - treasuryFee) / b < 2 ^ 53)
    (hsave : env.save = .ok ()) :
    1000000000000000 ≤ B - treasuryFee ∧
      (∀ (cfg' : Config) (orderId' : String) (env' : BeginEnv) (db' : Db),
        env'.balance = .ok B →
        (postBumpProcess cfg' orderId' env' db').response ≠
            .error 400 "Insufficient balance. Minimum 0.01 ETH required" ∧
          (postBumpProcess cfg' orderId' env' db').response ≠
            .error 400 "Insufficient balance after treasury fee") ∧
      (postBumpProcess cfg orderId env db).response =
        .started "Bump order processing started" orderId
          (mathCeilDiv ((B - treasuryFee) / b) batchSize) ((B - treasuryFee) / b) ∧
      (postBumpProcess cfg orderId env db).db.findOne orderId =
        some { order with
          totalAmount := formatEther B
          remainingAmount := formatEther (B - treasuryFee)
          status := .processing
          totalBatches := mathCeilDiv ((B - treasuryFee) / b) batchSize } := by
  have hrem := remaining_pos B hmin
  have hplan := plan_bumps (B - treasuryFee) b (by omega) hb hfit
  have hrun := postBumpProcess_started cfg orderId env db order B b gasPrice
    ((B - treasuryFee) / b) tx hfind horder hpending hbal hmin hgas hsend hwait hcfg hplan hsave
  refine ⟨hrem, ?_, ?_, ?_⟩
  · intro cfg' orderId' env' db' hbal'
    exact ⟨begin_not_below_minimum cfg' orderId' env' db' B hbal' hmin,
      begin_never_remaining_error cfg' orderId' env' db'⟩
  · rw [hrun]
  · rw [hrun]
    have hid : (startedOrder order B ((B - treasuryFee) / b)).orderId = orderId :=
      findOne_orderId db orderId order horder
    exact findOne_saveOrder db orderId order _ horder hid

/-- C3, amended, at a balance of 0.02 ETH with a bump amount of 0.01 ETH: the order is
stored with `remainingAmount` 0.011. -/
theorem begin_at_least_minimum_succeeds_witness :
    (postBumpProcess (exCfg 10000000000000000) "o1" (exBegin 20000000000000000)
        exDb).response = .started "Bump order processing started" "o1" 1 1 ∧
      (postBumpProcess (exCfg 10000000000000000) "o1" (exBegin 20000000000000000)
        exDb).db.findOne "o1" =
        some { exOrder with
          totalAmount := "0.02", remainingAmount := "0.011", status := .processing,
          totalBatches := 1 } := by
  have h := begin_at_least_minimum_succeeds (exCfg 10000000000000000) "o1"
    (exBegin 20000000000000000) exDb exOrder 20000000000000000 10000000000000000 1 "0xfee"
    rfl rfl rfl rfl (by decide) rfl rfl rfl rfl (by decide) (by decide) rfl
  exact ⟨h.2.2.1, h.2.2.2⟩

/-! ## The batch loop -/

theorem batchLoop_eq (orderId : String) (depositWallet : Wallet) (bumpAmount : Int)
    (envs : Nat → BatchEnv) (iter : Nat) (s : LoopState) :
    batchLoop orderId depositWallet bumpAmount envs iter s =
      if s.currentBatch < s.order.totalBatches then
        if (batchBody orderId depositWallet bumpAmount (envs iter) s).2 = true then
          batchLoop orderId depositWallet bumpAmount envs (iter + 1)
            (batchBody orderId depositWallet bumpAmount (envs iter) s).1
        else (batchBody orderId depositWallet bumpAmount (envs iter) s).1
      else s := by
  rw [batchLoop]
  split
  · split <;> rename_i h <;> simp [h]
  · rfl

theorem batchBody_balance_error (orderId : String) (depositWallet : Wallet) (bumpAmount : Int)
    (env : BatchEnv) (s : LoopState) (e : String) (hbal : env.balance = .error e) :
    batchBody orderId depositWallet bumpAmount env s =
      ({ s with trace := s.trace ++ [.getBalance depositWallet.address] }, false) := by
  simp [batchBody, hbal]

theorem batchBody_insufficient (orderId : String) (depositWallet : Wallet) (bumpAmount : Int)
    (env : BatchEnv) (s : LoopState) (B : Int) (hbal : env.balance = .ok B)
    (hlow : B < bumpAmount * batchSize + gasBuffer * batchSize) :
    batchBody orderId depositWallet bumpAmount env s =
      ({ s with trace := s.trace ++ [.getBalance depositWallet.address] }, false) := by
  simp [batchBody, hbal, hlow]

theorem batchBody_saveCreated_error (orderId : String) (depositWallet : Wallet)
    (bumpAmount : Int) (env : BatchEnv) (s : LoopState) (B : Int) (e : String)
    (hbal : env.balance = .ok B)
    (henough : bumpAmount * batchSize + gasBuffer * batchSize ≤ B)
    (hcreated : env.saveCreated = .error e) :
    batchBody orderId depositWallet bumpAmount env s =
      ({ s with trace := s.trace ++ [.getBalance depositWallet.address,
          .saveBatch (newBatch orderId s env .created)] }, false) := by
  have h : ¬ B < bumpAmount * batchSize + gasBuffer * batchSize := not_lt.mpr henough
  simp [batchBody, hbal, h, hcreated, newBatch]

theorem batchBody_fund_error (orderId : String) (depositWallet : Wallet)
    (bumpAmount : Int) (env : BatchEnv) (s : LoopState) (B : Int) (e : String)
    (calls : List Call)
    (hbal : env.balance = .ok B)
    (henough : bumpAmount * batchSize + gasBuffer * batchSize ≤ B)
    (hcreated : env.saveCreated = .ok ())
    (hfund : fundWalletsWithDisperser depositWallet
      (generateWalletBatch batchSize env.createRandom) bumpAmount gasBuffer env.fund =
        (calls, .error e)) :
    batchBody orderId depositWallet bumpAmount env s =
      ({ s with
          db := s.db.insertBatch (newBatch orderId s env .created)
          trace := s.trace ++ [.getBalance depositWallet.address,
            .saveBatch (newBatch orderId s env .created)] ++ calls }, false) := by
  have h : ¬ B < bumpAmount * batchSize + gasBuffer * batchSize := not_lt.mpr henough
  simp [batchBody, hbal, h, hcreated, hfund, newBatch]

theorem batchBody_saveFunded_error (orderId : String) (depositWallet : Wallet)
    (bumpAmount : Int) (env : BatchEnv) (s : LoopState) (B : Int) (e tx : String)
    (calls : List Call)
    (hbal : env.balance = .ok B)
    (henough : bumpAmount * batchSize + gasBuffer * batchSize ≤ B)
    (hcreated : env.saveCreated = .ok ())
    (hfund : fundWalletsWithDisperser depositWallet
      (generateWalletBatch batchSize env.createRandom) bumpAmount gasBuffer env.fund =
        (calls, .ok tx))
    (hfunded : env.saveFunded = .error e) :
    batchBody orderId depositWallet bumpAmount env s =
      ({ s with
          db := s.db.insertBatch (newBatch orderId s env .created)
          trace := s.trace ++ [.getBalance depositWallet.address,
            .saveBatch (newBatch orderId s env .created)] ++ calls ++
            [.saveBatch (newBatch orderId s env .funded)] }, false) := by
  have h : ¬ B < bumpAmount * batchSize + gasBuffer * batchSize := not_lt.mpr henough
  simp [batchBody, hbal, h, hcreated, hfund, hfunded, newBatch]

theorem batchBody_saveCompleted_error (orderId : String) (depositWallet : Wallet)
    (bumpAmount : Int) (env : BatchEnv) (s : LoopState) (B : Int) (e tx : String)
    (calls : List Call)
    (hbal : env.balance = .ok B)
    (henough : bumpAmount * batchSize + gasBuffer * batchSize ≤ B)
    (hcreated : env.saveCreated = .ok ())
    (hfund : fundWalletsWithDisperser depositWallet
      (generateWalletBatch batchSize env.createRandom) bumpAmount gasBuffer env.fund =
        (calls, .ok tx))
    (hfunded : env.saveFunded = .ok ()) (hcompleted : env.saveCompleted = .error e) :
    batchBody orderId depositWallet bumpAmount env s =
      ({ s with
          db := (s.db.insertBatch (newBatch orderId s env .created)).saveBatch
            s.db.batches.length (newBatch orderId s env .funded)
          trace := s.trace ++ [.getBalance depositWallet.address,
            .saveBatch (newBatch orderId s env .created)] ++ calls ++
            [.saveBatch (newBatch orderId s env .funded)] ++
            (swapPromises s.order.tokenAddress bumpAmount
              (generateWalletBatch batchSize env.createRandom) env.swaps).1 ++
            [.saveBatch (newBatch orderId s env .completed)] }, false) := by
  have h : ¬ B < bumpAmount * batchSize + gasBuffer * batchSize := not_lt.mpr henough
  simp [batchBody, hbal, h, hcreated, hfund, hfunded, hcompleted, newBatch]

theorem batchBody_swapped (orderId : String) (depositWallet : Wallet)
    (bumpAmount : Int) (env : BatchEnv) (s : LoopState) (B : Int) (tx : String)
    (calls : List Call)
    (hbal : env.balance = .ok B)
    (henough : bumpAmount * batchSize + gasBuffer * batchSize ≤ B)
    (hcreated : env.saveCreated = .ok ())
    (hfund : fundWalletsWithDisperser depositWallet
      (generateWalletBatch batchSize env.createRandom) bumpAmount gasBuffer env.fund =
        (calls, .ok tx))
    (hfunded : env.saveFunded = .ok ()) (hcompleted : env.saveCompleted = .ok ()) :
    batchBody orderId depositWallet bumpAmount env s =
      (match env.saveOrder with
        | .error _ =>
          ({ order := { s.order with currentBatch := s.currentBatch + 1 }
             currentBatch := s.currentBatch + 1
             db := completedDb orderId s env
             trace := completedTrace orderId depositWallet bumpAmount s env calls }, false)
        | .ok _ =>
          ({ order := { s.order with currentBatch := s.currentBatch + 1 }
             currentBatch := s.currentBatch + 1
             db := (completedDb orderId s env).saveOrder
               { s.order with currentBatch := s.currentBatch + 1 }
             trace := completedTrace orderId depositWallet bumpAmount s env calls }, true)) := by
  have h : ¬ B < bumpAmount * batchSize + gasBuffer * batchSize := not_lt.mpr henough
  cases hso : env.saveOrder <;>
    simp [batchBody, hbal, h, hcreated, hfund, hfunded, hcompleted, hso, newBatch, completedDb,
      completedTrace]

/-- What an iteration does to the order document, the counter and the order collection. -/
theorem batchBody_cases (orderId : String) (depositWallet : Wallet) (bumpAmount : Int)
    (env : BatchEnv) (s : LoopState) :
    ((batchBody orderId depositWallet bumpAmount env s).2 = false ∧
      (batchBody orderId depositWallet bumpAmount env s).1.order = s.order ∧
      (batchBody orderId depositWallet bumpAmount env s).1.currentBatch = s.currentBatch ∧
      (batchBody orderId depositWallet bumpAmount env s).1.db.orders = s.db.orders) ∨
    ((batchBody orderId depositWallet bumpAmount env s).1.order =
        { s.order with currentBatch := s.currentBatch + 1 } ∧
      (batchBody orderId depositWallet bumpAmount env s).1.currentBatch = s.currentBatch + 1 ∧
      (((batchBody orderId depositWallet bumpAmount env s).2 = false ∧
          (batchBody orderId depositWallet bumpAmount env s).1.db.orders = s.db.orders) ∨
        ((batchBody orderId depositWallet bumpAmount env s).2 = true ∧
          (batchBody orderId depositWallet bumpAmount env s).1.db.orders =
            (s.db.saveOrder { s.order with currentBatch := s.currentBatch + 1 }).orders))) := by
  cases hbal : env.balance with
  | error e => rw [batchBody_balance_error _ _ _ _ _ e hbal]; simp
  | ok B =>
    by_cases hlow : B < bumpAmount * batchSize + gasBuffer * batchSize
    · rw [batchBody_insufficient _ _ _ _ _ B hbal hlow]; simp
    · have henough := not_lt.mp hlow
      cases hcreated : env.saveCreated with
      | error e => rw [batchBody_saveCreated_error _ _ _ _ _ B e hbal henough hcreated]; simp
      | ok u =>
        cases hfund : fundWalletsWithDisperser depositWallet
          (generateWalletBatch batchSize env.createRandom) bumpAmount gasBuffer env.fund with
        | mk calls res =>
          cases res with
          | error e =>
            rw [batchBody_fund_error _ _ _ _ _ B e calls hbal henough hcreated hfund]
            simp [Db.insertBatch]
          | ok tx =>
            cases hfunded : env.saveFunded with
            | error e =>
              rw [batchBody_saveFunded_error _ _ _ _ _ B e tx calls hbal henough hcreated hfund
                hfunded]
              simp [Db.insertBatch]
            | ok u =>
              cases hcompleted : env.saveCompleted with
              | error e =>
                rw [batchBody_saveCompleted_error _ _ _ _ _ B e tx calls hbal henough hcreated
                  hfund hfunded hcompleted]
                simp [Db.insertBatch, Db.saveBatch]
              | ok u =>
                rw [batchBody_swapped _ _ _ _ _ B tx calls hbal henough hcreated hfund hfunded
                  hcompleted]
                cases env.saveOrder <;>
                  simp [completedDb, Db.insertBatch, Db.saveBatch, Db.saveOrder]

theorem batchLoop_invariant (P : LoopState → Prop) (orderId : String) (depositWallet : Wallet)
    (bumpAmount : Int) (envs : Nat → BatchEnv)
    (hstep : ∀ iter s, s.currentBatch < s.order.totalBatches → P s →
      P (batchBody orderId depositWallet bumpAmount (envs iter) s).1) :
    ∀ (n iter : Nat) (s : LoopState), (s.order.totalBatches - s.currentBatch).toNat ≤ n →
      P s → P (batchLoop orderId depositWallet bumpAmount envs iter s) := by
  intro n
  induction n with
  | zero =>
    intro iter s hn hP
    rw [batchLoop_eq]
    have : ¬ s.currentBatch < s.order.totalBatches := by omega
    simp [this, hP]
  | succ n ih =>
    intro iter s hn hP
    rw [batchLoop_eq]
    by_cases hlt : s.currentBatch < s.order.totalBatches
    · simp only [hlt, if_true]
      have hP' := hstep iter s hlt hP
      by_cases hflag : (batchBody orderId depositWallet bumpAmount (envs iter) s).2 = true
      · simp only [hflag, if_true]
        apply ih _ _ _ hP'
        rcases batchBody_cases orderId depositWallet bumpAmount (envs iter) s with
          ⟨h1, -⟩ | ⟨h1, h2, -⟩
        · rw [h1] at hflag
          exact absurd hflag (by simp)
        · rw [h1, h2]
          simp only
          omega
      · simp only [hflag]
        exact hP'
    · simp [hlt, hP]

theorem withBatch_self (o : BumpOrder) : withBatch o o.currentBatch = o := rfl

theorem loopInv_init (db : Db) (orderId : String) (o : BumpOrder)
    (h : db.findOne orderId = some o) (trace : List Call) :
    LoopInv o db { order := o, currentBatch := o.currentBatch, db := db, trace := trace } := by
  refine ⟨rfl, le_refl _, Or.inr rfl, o.currentBatch, le_refl _, le_refl _, ?_⟩
  rw [withBatch_self, saveOrder_self db orderId o h]

theorem loopInv_step (o : BumpOrder) (db : Db) (orderId : String) (depositWallet : Wallet)
    (bumpAmount : Int) (env : BatchEnv) (s : LoopState)
    (hlt : s.currentBatch < s.order.totalBatches) (hinv : LoopInv o db s) :
    LoopInv o db (batchBody orderId depositWallet bumpAmount env s).1 := by
  obtain ⟨hord, hge, hle, c, hc1, hc2, hdb⟩ := hinv
  have htot : s.order.totalBatches = o.totalBatches := by rw [hord]; rfl
  rcases batchBody_cases orderId depositWallet bumpAmount env s with
    ⟨-, h1, h2, h3⟩ | ⟨h1, h2, h3⟩
  · refine ⟨by rw [h1, h2]; exact hord, by rw [h2]; exact hge, by rw [h2]; exact hle, c, hc1,
      by rw [h2]; exact hc2, by rw [h3]; exact hdb⟩
  · have hord' : (batchBody orderId depositWallet bumpAmount env s).1.order =
        withBatch o (s.currentBatch + 1) := by
      rw [h1, hord]; rfl
    refine ⟨by rw [h2]; exact hord', by rw [h2]; omega, by rw [h2]; left; omega, ?_⟩
    rcases h3 with ⟨-, h3⟩ | ⟨-, h3⟩
    · exact ⟨c, hc1, by rw [h2]; omega, by rw [h3]; exact hdb⟩
    · refine ⟨s.currentBatch + 1, by omega, by rw [h2], ?_⟩
      rw [h3]
      have hsame : ({ s.order with currentBatch := s.currentBatch + 1 } : BumpOrder) =
          withBatch o (s.currentBatch + 1) := by rw [hord]; rfl
      rw [hsame]
      have := saveOrder_saveOrder db (withBatch o c) (withBatch o (s.currentBatch + 1)) rfl
      rw [← this]
      unfold Db.saveOrder
      simp only
      rw [hdb]
      rfl

theorem loopInv_batchLoop (o : BumpOrder) (db : Db) (orderId : String)
    (depositWallet : Wallet) (bumpAmount : Int) (envs : Nat → BatchEnv) (iter : Nat)
    (s : LoopState) (hinv : LoopInv o db s) :
    LoopInv o db (batchLoop orderId depositWallet bumpAmount envs iter s) :=
  batchLoop_invariant (LoopInv o db) orderId depositWallet bumpAmount envs
    (fun _ s hlt h => loopInv_step o db orderId depositWallet bumpAmount _ s hlt h)
    _ iter s (le_refl _) hinv

/-! ## The run of `processBumpOrder` -/

theorem saveOrder_orders_congr (db1 db2 : Db) (x : BumpOrder) (h : db1.orders = db2.orders) :
    (db1.saveOrder x).orders = (db2.saveOrder x).orders := by
  unfold Db.saveOrder
  simp only [h]

theorem updateStatus_orders_congr (db1 db2 : Db) (orderId : String) (st : OrderStatus)
    (h : db1.orders = db2.orders) :
    (db1.updateStatus orderId st).orders = (db2.updateStatus orderId st).orders := by
  unfold Db.updateStatus
  simp only [h]

/-- The order collection a run leaves, started on a store `db` holding the order `o`: that
of `db` with `o` rewritten, its counter between the one stored and the one the loop reached,
its status `completed` with the completion date, or `failed`, or as stored. -/
theorem processFinish_orders (o : BumpOrder) (db : Db) (env : ProcessEnv) (s : LoopState)
    (hinv : LoopInv o db s) :
    ∃ c st ca, (processFinish o.orderId env s).db.orders =
        (db.saveOrder { withBatch o c with status := st, completedAt := ca }).orders ∧
      o.currentBatch ≤ c ∧ c ≤ s.currentBatch ∧
      ((st = .completed ∧ ca = some env.now ∧ c = s.currentBatch ∧ env.finalSave = .ok ()) ∨
        (st = .failed ∧ ca = o.completedAt ∧ (∃ e, env.finalSave = .error e) ∧
          env.updateOne = .ok ()) ∨
        (st = o.status ∧ ca = o.completedAt ∧ (∃ e, env.finalSave = .error e) ∧
          ∃ e, env.updateOne = .error e)) := by
  obtain ⟨hord, hge, -, c, hc1, hc2, hdb⟩ := hinv
  cases hsave : env.finalSave with
  | ok u =>
    refine ⟨s.currentBatch, .completed, some env.now, ?_, hge, le_refl _, Or.inl ⟨rfl, rfl, rfl, rfl⟩⟩
    simp only [processFinish, hsave, hord]
    rw [saveOrder_orders_congr s.db (db.saveOrder (withBatch o c)) _ hdb]
    exact congrArg Db.orders (saveOrder_saveOrder db (withBatch o c) _ rfl)
  | error e =>
    cases hupd : env.updateOne with
    | ok u =>
      refine ⟨c, .failed, o.completedAt, ?_, hc1, hc2, Or.inr (Or.inl ⟨rfl, rfl, ⟨e, rfl⟩, rfl⟩)⟩
      simp only [processFinish, hsave, processCatch, hupd]
      rw [updateStatus_orders_congr s.db (db.saveOrder (withBatch o c)) _ _ hdb]
      have := saveOrder_updateStatus db (withBatch o c) .failed
      simp only [withBatch] at this ⊢
      rw [this]
    | error e' =>
      refine ⟨c, o.status, o.completedAt, ?_, hc1, hc2,
        Or.inr (Or.inr ⟨rfl, rfl, ⟨e, rfl⟩, ⟨e', rfl⟩⟩)⟩
      simp only [processFinish, hsave, processCatch, hupd]
      rw [hdb]
      rfl

/-- The store a run of `processBumpOrder` leaves: the store it started on, or that store with
the order marked `failed` when the order or the configuration could not be read, or, for an
order found `processing`, the outcome of the loop and of the final write. -/
theorem processBumpOrder_orders (cfg : Config) (orderId : String) (env : ProcessEnv)
    (db : Db) :
    (processBumpOrder cfg orderId env db).db = db ∨
    (processBumpOrder cfg orderId env db).db = db.updateStatus orderId .failed ∨
    ∃ o c st ca, db.findOne orderId = some o ∧ o.status = .processing ∧
      (processBumpOrder cfg orderId env db).db.orders =
        (db.saveOrder { withBatch o c with status := st, completedAt := ca }).orders ∧
      o.currentBatch ≤ c ∧ (c ≤ o.totalBatches ∨ c = o.currentBatch) ∧
      ((st = .completed ∧ ca = some env.now) ∨ (st = .failed ∧ ca = o.completedAt) ∨
        (st = .processing ∧ ca = o.completedAt)) := by
  unfold processBumpOrder
  cases env.findOne with
  | error e =>
    cases hupd : env.updateOne <;> simp [processCatch, hupd]
  | ok u =>
    cases horder : db.findOne orderId with
    | none => simp
    | some o =>
      by_cases hst : o.status = .processing
      · cases cfg.bumpAmount with
        | error e =>
          cases hupd : env.updateOne <;> simp [processCatch, hupd, hst]
        | ok bumpAmount =>
          right; right
          simp only [hst, ne_eq, not_true_eq_false, if_false]
          have hid := findOne_orderId db orderId o horder
          have hinv := loopInv_batchLoop o db orderId ⟨o.depositWallet, o.privateKey⟩
            bumpAmount env.batches 0 _ (loopInv_init db orderId o horder [.findOne orderId])
          obtain ⟨c, st, ca, h1, h2, h3, h4⟩ := processFinish_orders o db env _ hinv
          rw [hid] at h1
          refine ⟨o, c, st, ca, rfl, hst, h1, h2, ?_, ?_⟩
          · obtain ⟨-, -, hle, -⟩ := hinv
            rcases hle with hle | hle
            · left; omega
            · have : c = o.currentBatch := by omega
              right; exact this
          · rcases h4 with ⟨a, b, -⟩ | ⟨a, b, -⟩ | ⟨a, b, -⟩
            · exact Or.inl ⟨a, b⟩
            · exact Or.inr (Or.inl ⟨a, b⟩)
            · exact Or.inr (Or.inr ⟨by rw [a, hst], b⟩)
      · simp [hst]

/-- The two ways a run of the process route ends: an error answer that leaves the store
alone and does not start the background run, or the success answer after the write of the
started order. -/
theorem postBumpProcess_cases (cfg : Config) (orderId : String) (env : BeginEnv) (db : Db) :
    ((postBumpProcess cfg orderId env db).db = db ∧
      (∃ code msg, (postBumpProcess cfg orderId env db).response = .error code msg) ∧
      ∀ c ∈ (postBumpProcess cfg orderId env db).trace, c.isProcessStart = false) ∨
    ∃ order B b totalBumps, db.findOne orderId = some order ∧ order.status = .pending ∧
      env.findOne = .ok () ∧ env.balance = .ok B ∧ minBalance ≤ B ∧ cfg.bumpAmount = .ok b ∧
      (bnDiv (B - treasuryFee) b).bind toNumber = .ok totalBumps ∧
      (postBumpProcess cfg orderId env db).db = db.saveOrder (startedOrder order B totalBumps) ∧
      (postBumpProcess cfg orderId env db).response =
        .started "Bump order processing started" orderId (mathCeilDiv totalBumps batchSize)
          totalBumps := by
  unfold postBumpProcess
  cases hfind : env.findOne with
  | error e => left; simp [Call.isProcessStart]
  | ok u =>
    cases horder : db.findOne orderId with
    | none => left; simp [Call.isProcessStart]
    | some order =>
      by_cases hst : order.status = .pending
      · cases hbal : env.balance with
        | error e => left; simp [hst, Call.isProcessStart]
        | ok B =>
          by_cases hlt : B < minBalance
          · left; simp [hst, hlt, Call.isProcessStart]
          · have hmin := not_lt.mp hlt
            have hrem := remaining_pos B hmin
            have h2 : ¬ B - treasuryFee ≤ 0 := by omega
            simp only [hst, hlt, h2, ne_eq, not_true_eq_false, if_false]
            cases hgas : env.transfer.gasPrice with
            | error e => left; simp [sendEthToWallet, hgas, Call.isProcessStart]
            | ok gasPrice =>
              cases hsend : env.transfer.sendTransaction with
              | error e => left; simp [sendEthToWallet, hgas, hsend, Call.isProcessStart]
              | ok tx =>
                cases hwait : env.transfer.wait with
                | error e =>
                  left; simp [sendEthToWallet, hgas, hsend, hwait, Call.isProcessStart]
                | ok u' =>
                  cases hcfg : cfg.bumpAmount with
                  | error e =>
                    left; simp [sendEthToWallet, hgas, hsend, hwait, Call.isProcessStart]
                  | ok b =>
                    cases hplan : (bnDiv (B - treasuryFee) b).bind toNumber with
                    | error e =>
                      left
                      simp [sendEthToWallet, hgas, hsend, hwait, hplan, Call.isProcessStart]
                    | ok totalBumps =>
                      cases hsave : env.save with
                      | error e =>
                        left
                        simp [sendEthToWallet, hgas, hsend, hwait, hplan, hsave,
                          Call.isProcessStart]
                      | ok u'' =>
                        right
                        refine ⟨order, B, b, totalBumps, ?_⟩
                        simp [sendEthToWallet, hgas, hsend, hwait, hplan, hsave, startedOrder,
                          hst, hmin]
      · left; simp [hst, Call.isProcessStart]

/-! ## Steps of the system -/

theorem updateFirst_none {α : Type} (p : α → Bool) (f : α → α) :
    ∀ l : List α, l.find? p = none → updateFirst p f l = l
  | [], _ => rfl
  | a :: l, h => by
    have ha : ¬ p a = true := by
      intro ha
      simp [List.find?, ha] at h
    have h' : l.find? p = none := by simpa [List.find?, ha] using h
    simp [updateFirst, ha, updateFirst_none p f l h']

theorem updateStatus_eq (db : Db) (orderId : String) (st : OrderStatus) :
    db.updateStatus orderId st = db ∨
      ∃ o, db.findOne orderId = some o ∧
        db.updateStatus orderId st = db.saveOrder { o with status := st } := by
  cases h : db.findOne orderId with
  | none =>
    left
    unfold Db.updateStatus
    unfold Db.findOne at h
    rw [updateFirst_none _ _ _ h]
  | some o =>
    right
    refine ⟨o, rfl, ?_⟩
    have hid := findOne_orderId db orderId o h
    have h1 := saveOrder_updateStatus db o st
    rw [saveOrder_self db orderId o h] at h1
    rw [← hid]
    exact h1

theorem findOne_congr (db1 db2 : Db) (orderId : String) (h : db1.orders = db2.orders) :
    db1.findOne orderId = db2.findOne orderId := by
  unfold Db.findOne
  rw [h]

theorem nonPending_saveOrder (orderId : String) (db : Db) (x : BumpOrder)
    (h : NonPending orderId db) (hx : x.status ≠ .pending) :
    NonPending orderId (db.saveOrder x) := by
  obtain ⟨o, ho, hst⟩ := h
  by_cases hid : x.orderId = orderId
  · exact ⟨x, findOne_saveOrder db orderId o x ho hid, hx⟩
  · exact ⟨o, by rw [findOne_saveOrder_ne db orderId x hid]; exact ho, hst⟩

theorem nonPending_congr (orderId : String) (db1 db2 : Db) (h : db1.orders = db2.orders)
    (hn : NonPending orderId db2) : NonPending orderId db1 := by
  obtain ⟨o, ho, hst⟩ := hn
  exact ⟨o, by rw [findOne_congr db1 db2 orderId h]; exact ho, hst⟩

theorem nonPending_updateStatus (orderId orderId' : String) (db : Db) (st : OrderStatus)
    (h : NonPending orderId db) (hst : st ≠ .pending) :
    NonPending orderId (db.updateStatus orderId' st) := by
  rcases updateStatus_eq db orderId' st with heq | ⟨o, -, heq⟩
  · rw [heq]; exact h
  · rw [heq]; exact nonPending_saveOrder orderId db _ h hst

theorem findOne_insertOrder (db : Db) (orderId : String) (o x : BumpOrder)
    (h : db.findOne orderId = some o) : (db.insertOrder x).findOne orderId = some o := by
  unfold Db.findOne Db.insertOrder
  unfold Db.findOne at h
  simp [List.find?_append, h]

/-- The store a create request leaves: the store it started on, or that store with a new
pending order whose counters are zero. -/
theorem postBumpCreate_cases (tokenAddress : Option String) (env : CreateEnv) (db : Db) :
    ((postBumpCreate tokenAddress env db).db = db ∧
      ∃ code msg, (postBumpCreate tokenAddress env db).response = .error code msg) ∨
    ∃ o, (postBumpCreate tokenAddress env db).db = db.insertOrder o ∧ o.status = .pending ∧
      o.currentBatch = 0 ∧ o.totalBatches = 0 ∧ db.findOne o.orderId = none ∧
      ∃ msg, (postBumpCreate tokenAddress env db).response =
        .created o.orderId o.depositWallet msg := by
  unfold postBumpCreate
  cases tokenAddress with
  | none => left; simp
  | some tokenAddress =>
    by_cases hbad : tokenAddress = "" ∨ env.isAddress tokenAddress = false
    · left; simp only [hbad, if_true]; simp
    · simp only [hbad, if_false]
      cases hprice : getTokenPrice tokenAddress env.price with
      | mk calls tokenExists =>
        cases tokenExists with
        | false => left; simp
        | true =>
          cases hsave : env.save with
          | error e => left; simp
          | ok u =>
            by_cases hdup : (db.findOne env.uuid).isSome = true
            · left; simp [hdup]
            · right
              simp only [hdup]
              simp at hdup
              exact ⟨_, rfl, rfl, rfl, rfl, hdup, _, rfl⟩

theorem getBumpStatus_db (orderId : String) (env : StatusEnv) (db : Db) :
    (getBumpStatus orderId env db).db = db := by
  unfold getBumpStatus
  repeat' split
  all_goals rfl

theorem step_nonPending (cfg : Config) (orderId : String) (db db' : Db)
    (hstep : Step cfg db db') (h : NonPending orderId db) : NonPending orderId db' := by
  cases hstep with
  | create tokenAddress env =>
    rcases postBumpCreate_cases tokenAddress env db with ⟨heq, -⟩ | ⟨o, heq, -⟩
    · rw [heq]; exact h
    · rw [heq]
      obtain ⟨x, hx, hst⟩ := h
      exact ⟨x, findOne_insertOrder db orderId x o hx, hst⟩
  | status orderId' env => rw [getBumpStatus_db]; exact h
  | start orderId' env =>
    rcases postBumpProcess_cases cfg orderId' env db with
      ⟨heq, -⟩ | ⟨order, B, b, tb, -, -, -, -, -, -, -, heq, -⟩
    · rw [heq]; exact h
    · rw [heq]
      exact nonPending_saveOrder orderId db _ h (by simp [startedOrder])
  | run orderId' env o ho hst =>
    rcases processBumpOrder_orders cfg orderId' env db with
      heq | heq | ⟨o', c, st, ca, -, -, heq, -, -, hcases⟩
    · rw [heq]; exact h
    · rw [heq]; exact nonPending_updateStatus orderId orderId' db .failed h (by simp)
    · apply nonPending_congr orderId _ _ heq
      apply nonPending_saveOrder orderId db _ h
      rcases hcases with ⟨a, -⟩ | ⟨a, -⟩ | ⟨a, -⟩ <;> simp [a]

theorem steps_nonPending (cfg : Config) (orderId : String) (db db' : Db)
    (hsteps : Relation.ReflTransGen (Step cfg) db db') (h : NonPending orderId db) :
    NonPending orderId db' := by
  induction hsteps with
  | refl => exact h
  | tail _ hstep ih => exact step_nonPending cfg orderId _ _ hstep ih

theorem postBumpProcess_nonPending (cfg : Config) (orderId : String) (env : BeginEnv)
    (db : Db) (h : NonPending orderId db) :
    postBumpProcess cfg orderId env db =
      ⟨(match env.findOne with
          | .error _ => .error 500 "Internal server error"
          | .ok _ => .error 400 "Order is not in pending status"),
        db, [.findOne orderId]⟩ := by
  obtain ⟨o, ho, hst⟩ := h
  cases hfind : env.findOne <;> simp [postBumpProcess, hfind, ho, hst]

/-- C4: on a stored order whose status is not `pending` the process route answers with an
error (400 "Order is not in pending status", or 500 when the read of the order throws), its
only call is the read of the order (no balance read, no transfer, no background run), and
the store is unchanged. After a process request that succeeded on an order, whatever steps
the system has taken since, a further process request on that order is rejected the same
way. -/
theorem begin_not_pending_rejected (cfg : Config) (orderId : String) (env : BeginEnv)
    (db : Db) (order : BumpOrder)
    (horder : db.findOne orderId = some order) (hst : order.status ≠ .pending) :
    ((env.findOne = .ok () ∧ (postBumpProcess cfg orderId env db).response =
          .error 400 "Order is not in pending status") ∨
        ((∃ e, env.findOne = .error e) ∧ (postBumpProcess cfg orderId env db).response =
          .error 500 "Internal server error")) ∧
      (postBumpProcess cfg orderId env db).trace = [.findOne orderId] ∧
      (∀ c ∈ (postBumpProcess cfg orderId env db).trace,
        c.isBalanceRead = false ∧ c.isTransfer = false ∧ c.isProcessStart = false) ∧
      (postBumpProcess cfg orderId env db).db = db ∧
      ∀ (env1 : BeginEnv) (db0 db2 : Db) (msg : String) (totalBatches estimatedBumps : Int),
        (postBumpProcess cfg orderId env1 db0).response =
          .started msg orderId totalBatches estimatedBumps →
        Relation.ReflTransGen (Step cfg) (postBumpProcess cfg orderId env1 db0).db db2 →
        ∀ env2 : BeginEnv,
          (∃ code err, (postBumpProcess cfg orderId env2 db2).response = .error code err) ∧
            (postBumpProcess cfg orderId env2 db2).trace = [.findOne orderId] ∧
            (postBumpProcess cfg orderId env2 db2).db = db2 := by
  have hrun := postBumpProcess_nonPending cfg orderId env db ⟨order, horder, hst⟩
  refine ⟨?_, by rw [hrun], ?_, by rw [hrun], ?_⟩
  · rw [hrun]
    cases hfind : env.findOne with
    | error e => exact Or.inr ⟨⟨e, rfl⟩, rfl⟩
    | ok u => exact Or.inl ⟨rfl, rfl⟩
  · rw [hrun]
    intro c hc
    simp only [List.mem_singleton] at hc
    subst hc
    exact ⟨rfl, rfl, rfl⟩
  · intro env1 db0 db2 msg totalBatches estimatedBumps hstarted hsteps env2
    have h1 : NonPending orderId (postBumpProcess cfg orderId env1 db0).db := by
      rcases postBumpProcess_cases cfg orderId env1 db0 with
        ⟨-, ⟨code, err, herr⟩, -⟩ | ⟨o, B, b, tb, ho, -, -, -, -, -, -, heq, -⟩
      · rw [herr] at hstarted
        exact absurd hstarted (by simp)
      · rw [heq]
        exact ⟨startedOrder o B tb,
          findOne_saveOrder db0 orderId o _ ho (findOne_orderId db0 orderId o ho),
          by simp [startedOrder]⟩
    have h2 := steps_nonPending cfg orderId _ db2 hsteps h1
    have hrun2 := postBumpProcess_nonPending cfg orderId env2 db2 h2
    rw [hrun2]
    refine ⟨?_, rfl, rfl⟩
    cases env2.findOne with
    | error e => exact ⟨500, _, rfl⟩
    | ok u => exact ⟨400, _, rfl⟩

/-- C4 on the sample order, a second process request right after the first. -/
theorem begin_not_pending_rejected_witness :
    (postBumpProcess (exCfg 20000000000000000) "o1" (exBegin 419000000000000000)
        (postBumpProcess (exCfg 20000000000000000) "o1" (exBegin 419000000000000000)
          exDb).db).response = .error 400 "Order is not in pending status" ∧
      (postBumpProcess (exCfg 20000000000000000) "o1" (exBegin 419000000000000000)
        (postBumpProcess (exCfg 20000000000000000) "o1" (exBegin 419000000000000000)
          exDb).db).trace = [.findOne "o1"] := by
  have h := begin_not_pending_rejected (exCfg 20000000000000000) "o1"
    (exBegin 419000000000000000)
    (postBumpProcess (exCfg 20000000000000000) "o1" (exBegin 419000000000000000) exDb).db
    { exOrder with
      totalAmount := "0.419", remainingAmount := "0.41", status := .processing,
      totalBatches := 4 }
    (by decide) (by decide)
  refine ⟨?_, h.2.1⟩
  rcases h.1 with ⟨-, h1⟩ | ⟨⟨e, he⟩, -⟩
  · exact h1
  · exact absurd he (by simp [exBegin])

/-! ## One iteration of the loop -/

theorem batchLoop_break (orderId : String) (depositWallet : Wallet) (bumpAmount : Int)
    (envs : Nat → BatchEnv) (iter : Nat) (s s' : LoopState)
    (hloop : s.currentBatch < s.order.totalBatches)
    (hbody : batchBody orderId depositWallet bumpAmount (envs iter) s = (s', false)) :
    batchLoop orderId depositWallet bumpAmount envs iter s = s' := by
  rw [batchLoop_eq]
  simp [hloop, hbody]

theorem batchLoop_continue (orderId : String) (depositWallet : Wallet) (bumpAmount : Int)
    (envs : Nat → BatchEnv) (iter : Nat) (s s' : LoopState)
    (hloop : s.currentBatch < s.order.totalBatches)
    (hbody : batchBody orderId depositWallet bumpAmount (envs iter) s = (s', true)) :
    batchLoop orderId depositWallet bumpAmount envs iter s =
      batchLoop orderId depositWallet bumpAmount envs (iter + 1) s' := by
  rw [batchLoop_eq]
  simp [hloop, hbody]

theorem batchLoop_done (orderId : String) (depositWallet : Wallet) (bumpAmount : Int)
    (envs : Nat → BatchEnv) (iter : Nat) (s : LoopState)
    (hdone : ¬ s.currentBatch < s.order.totalBatches) :
    batchLoop orderId depositWallet bumpAmount envs iter s = s := by
  rw [batchLoop_eq]
  simp [hdone]

theorem processFinish_ok (orderId : String) (env : ProcessEnv) (s : LoopState)
    (hsave : env.finalSave = .ok ()) :
    processFinish orderId env s =
      ⟨s.db.saveOrder (finishedOrder s.order env.now),
        s.trace ++ [.saveOrder (finishedOrder s.order env.now)], none⟩ := by
  simp [processFinish, hsave, finishedOrder]

theorem fund_trace_head (fromWallet : Wallet) (wallets : List WalletInfo)
    (bumpAmount gasBuffer : Int) (env : FundEnv) :
    ∃ rest, (fundWalletsWithDisperser fromWallet wallets bumpAmount gasBuffer env).1 =
      .disperseEth fromWallet.address (wallets.map fun w => w.address)
        (wallets.map fun _ => bumpAmount + gasBuffer)
        ((wallets.map fun _ => bumpAmount + gasBuffer).foldl (fun acc v => acc + v) 0) ::
        rest ∧ ∀ c ∈ rest, ∃ tx, c = .wait tx := by
  unfold fundWalletsWithDisperser
  cases env.disperseEth with
  | error e => exact ⟨[], by simp⟩
  | ok tx => cases env.wait <;> exact ⟨[.wait tx], by simp⟩

/-- C5: in an iteration of the loop, on an order document stored under `orderId`, whose
balance read gives `B`, the amount required is
`bumpAmount * 5 + gasBuffer * 5 = (bumpAmount + gasBuffer) * 5` with `gasBuffer` 0.0001 ETH.
If `B` is below it, the iteration issues the balance read only (no wallet batch is written,
no funding call made), leaves the counter, the order document and the store as they were, and
the loop ends there; the final write then stores the order as `completed` with `completedAt`
set and the counter unchanged. If `B` is at least the required amount, the iteration goes on
to write a wallet batch in status `created` and, once that is written, to call the disperser
for its five wallets. -/
theorem batch_balance_check (orderId : String) (depositWallet : Wallet) (bumpAmount : Int)
    (envs : Nat → BatchEnv) (iter : Nat) (s : LoopState) (B : Int) (penv : ProcessEnv)
    (stored : BumpOrder)
    (hloop : s.currentBatch < s.order.totalBatches)
    (hbal : (envs iter).balance = .ok B)
    (hid : s.order.orderId = orderId) (hstored : s.db.findOne orderId = some stored)
    (hfinal : penv.finalSave = .ok ()) :
    bumpAmount * batchSize + gasBuffer * batchSize = (bumpAmount + gasBuffer) * 5 ∧
      gasBuffer = 100000000000000 ∧
      (B < (bumpAmount + gasBuffer) * 5 →
        batchBody orderId depositWallet bumpAmount (envs iter) s =
            ({ s with trace := s.trace ++ [.getBalance depositWallet.address] }, false) ∧
          batchLoop orderId depositWallet bumpAmount envs iter s =
            { s with trace := s.trace ++ [.getBalance depositWallet.address] } ∧
          (processFinish orderId penv
              (batchLoop orderId depositWallet bumpAmount envs iter s)).db.findOne orderId =
            some (finishedOrder s.order penv.now) ∧
          (processFinish orderId penv
              (batchLoop orderId depositWallet bumpAmount envs iter s)).db.batches =
            s.db.batches ∧
          (processFinish orderId penv
              (batchLoop orderId depositWallet bumpAmount envs iter s)).trace =
            s.trace ++ [.getBalance depositWallet.address,
              .saveOrder (finishedOrder s.order penv.now)]) ∧
      ((bumpAmount + gasBuffer) * 5 ≤ B →
        ∃ rest, (batchBody orderId depositWallet bumpAmount (envs iter) s).1.trace =
            s.trace ++ [.getBalance depositWallet.address,
              .saveBatch (newBatch orderId s (envs iter) .created)] ++ rest ∧
          ((envs iter).saveCreated = .ok () →
            ∃ rest', rest =
              .disperseEth depositWallet.address
                ((generateWalletBatch 5 (envs iter).createRandom).map fun w => w.address)
                (List.replicate 5 (bumpAmount + gasBuffer))
                ((bumpAmount + gasBuffer) * 5) :: rest')) := by
  have hreq : bumpAmount * batchSize + gasBuffer * batchSize = (bumpAmount + gasBuffer) * 5 := by
    simp only [batchSize]
    push_cast
    ring
  refine ⟨hreq, rfl, ?_, ?_⟩
  · intro hlow
    have hbody := batchBody_insufficient orderId depositWallet bumpAmount (envs iter) s B hbal
      (by rw [hreq]; exact hlow)
    have hl := batchLoop_break orderId depositWallet bumpAmount envs iter s _ hloop hbody
    refine ⟨hbody, hl, ?_, ?_, ?_⟩
    · rw [hl, processFinish_ok orderId penv _ hfinal]
      exact findOne_saveOrder s.db orderId stored _ hstored hid
    · rw [hl, processFinish_ok orderId penv _ hfinal]
      rfl
    · rw [hl, processFinish_ok orderId penv _ hfinal]
      simp
  · intro henough
    have henough' : bumpAmount * batchSize + gasBuffer * batchSize ≤ B := by
      rw [hreq]; exact henough
    cases hcreated : (envs iter).saveCreated with
    | error e =>
      rw [batchBody_saveCreated_error _ _ _ _ _ B e hbal henough' hcreated]
      exact ⟨[], by simp, by intro h; simp at h⟩
    | ok u =>
      obtain ⟨frest, hf, -⟩ := fund_trace_head depositWallet
        (generateWalletBatch batchSize (envs iter).createRandom) bumpAmount gasBuffer
        (envs iter).fund
      have hvals : ((generateWalletBatch batchSize (envs iter).createRandom).map
          fun _ => bumpAmount + gasBuffer) = List.replicate 5 (bumpAmount + gasBuffer) := by
        simp [generateWalletBatch, batchSize, List.range, List.range.loop, List.replicate]
      rw [hvals] at hf
      have hsum : (List.replicate 5 (bumpAmount + gasBuffer)).foldl (fun acc v => acc + v) 0 =
          (bumpAmount + gasBuffer) * 5 := by
        simp [List.replicate]
        ring
      rw [hsum] at hf
      have hbs : batchSize = 5 := rfl
      rw [hbs] at hf
      cases hfund : fundWalletsWithDisperser depositWallet
        (generateWalletBatch batchSize (envs iter).createRandom) bumpAmount gasBuffer
        (envs iter).fund with
      | mk calls res =>
        rw [hbs] at hfund
        rw [hfund] at hf
        simp only at hf
        cases res with
        | error e =>
          rw [batchBody_fund_error _ _ _ _ _ B e calls hbal henough' hcreated hfund]
          exact ⟨calls, by simp, fun _ => ⟨frest, hf⟩⟩
        | ok tx =>
          cases hfunded : (envs iter).saveFunded with
          | error e =>
            rw [batchBody_saveFunded_error _ _ _ _ _ B e tx calls hbal henough' hcreated hfund
              hfunded]
            exact ⟨calls ++ [.saveBatch (newBatch orderId s (envs iter) .funded)], by simp,
              fun _ => ⟨frest ++ [.saveBatch (newBatch orderId s (envs iter) .funded)],
                by rw [hf]; rfl⟩⟩
          | ok u' =>
            cases hcompleted : (envs iter).saveCompleted with
            | error e =>
              rw [batchBody_saveCompleted_error _ _ _ _ _ B e tx calls hbal henough' hcreated
                hfund hfunded hcompleted]
              exact ⟨_, by simp only [List.append_assoc]; rfl,
                fun _ => ⟨_, by rw [hf]; rfl⟩⟩
            | ok u'' =>
              rw [batchBody_swapped _ _ _ _ _ B tx calls hbal henough' hcreated hfund hfunded
                hcompleted]
              cases (envs iter).saveOrder <;>
                exact ⟨_, by simp only [completedTrace, List.append_assoc]; rfl,
                  fun _ => ⟨_, by rw [hf]; rfl⟩⟩

/-- C5 on the started sample order: 0.011 ETH left, 0.0505 ETH required. -/
theorem batch_balance_check_witness :
    batchLoop "o1" exDeposit 10000000000000000 (fun _ => exBatch 11000000000000000) 0
        exLoopState =
      { exLoopState with trace := [.findOne "o1", .getBalance "0xdeposit"] } ∧
    (processFinish "o1" (exProcess fun _ => exBatch 11000000000000000)
        (batchLoop "o1" exDeposit 10000000000000000 (fun _ => exBatch 11000000000000000) 0
          exLoopState)).db.findOne "o1" =
      some { exProcessing with status := .completed, completedAt := some 77 } := by
  have h := batch_balance_check "o1" exDeposit 10000000000000000
    (fun _ => exBatch 11000000000000000) 0 exLoopState 11000000000000000
    (exProcess fun _ => exBatch 11000000000000000) exProcessing (by decide) rfl rfl
    (by decide) rfl
  have hlow := h.2.2.1 (by decide)
  exact ⟨hlow.2.1, hlow.2.2.1⟩

theorem fund_trace_no_swap (fromWallet : Wallet) (wallets : List WalletInfo)
    (bumpAmount gasBuffer : Int) (env : FundEnv) :
    ∀ c ∈ (fundWalletsWithDisperser fromWallet wallets bumpAmount gasBuffer env).1,
      c.isSwap = false ∧ ∀ b, c ≠ .saveBatch b := by
  obtain ⟨rest, h, hrest⟩ := fund_trace_head fromWallet wallets bumpAmount gasBuffer env
  rw [h]
  intro c hc
  rcases List.mem_cons.mp hc with rfl | hc
  · exact ⟨rfl, by simp⟩
  · obtain ⟨tx, rfl⟩ := hrest c hc
    exact ⟨rfl, by simp⟩

/-- C6: in an iteration, on an order document stored under `orderId`, whose balance suffices
and whose wallet batch was written, if the funding through the disperser fails, the iteration ends by `break`: the wallet batch stays
stored in status `created`, the calls issued hold no swap and no further write of the batch,
the counter and the order document are unchanged, the loop ends there without starting
another batch, and the final write stores the order as `completed` with that counter. -/
theorem funding_failure_stops_loop (orderId : String) (depositWallet : Wallet)
    (bumpAmount : Int) (envs : Nat → BatchEnv) (iter : Nat) (s : LoopState) (B : Int)
    (e : String) (penv : ProcessEnv) (stored : BumpOrder)
    (hloop : s.currentBatch < s.order.totalBatches)
    (hbal : (envs iter).balance = .ok B)
    (henough : bumpAmount * batchSize + gasBuffer * batchSize ≤ B)
    (hcreated : (envs iter).saveCreated = .ok ())
    (hfund : (fundWalletsWithDisperser depositWallet
      (generateWalletBatch batchSize (envs iter).createRandom) bumpAmount gasBuffer
      (envs iter).fund).2 = .error e)
    (hid : s.order.orderId = orderId) (hstored : s.db.findOne orderId = some stored)
    (hfinal : penv.finalSave = .ok ()) :
    (batchBody orderId depositWallet bumpAmount (envs iter) s).2 = false ∧
      batchLoop orderId depositWallet bumpAmount envs iter s =
        (batchBody orderId depositWallet bumpAmount (envs iter) s).1 ∧
      (batchBody orderId depositWallet bumpAmount (envs iter) s).1.db.batches =
        s.db.batches ++ [newBatch orderId s (envs iter) .created] ∧
      (batchBody orderId depositWallet bumpAmount (envs iter) s).1.db.orders = s.db.orders ∧
      (batchBody orderId depositWallet bumpAmount (envs iter) s).1.currentBatch =
        s.currentBatch ∧
      (batchBody orderId depositWallet bumpAmount (envs iter) s).1.order = s.order ∧
      (∃ added, (batchBody orderId depositWallet bumpAmount (envs iter) s).1.trace =
          s.trace ++ added ∧
        ∀ c ∈ added, c.isSwap = false ∧ ∀ b, c = .saveBatch b → b.status = .created) ∧
      (processFinish orderId penv
          (batchLoop orderId depositWallet bumpAmount envs iter s)).db.findOne orderId =
        some (finishedOrder s.order penv.now) ∧
      (processFinish orderId penv
          (batchLoop orderId depositWallet bumpAmount envs iter s)).db.batches =
        s.db.batches ++ [newBatch orderId s (envs iter) .created] ∧
      (processFinish orderId penv
          (batchLoop orderId depositWallet bumpAmount envs iter s)).trace =
        (batchBody orderId depositWallet bumpAmount (envs iter) s).1.trace ++
          [.saveOrder (finishedOrder s.order penv.now)] := by
  have hnoswap := fund_trace_no_swap depositWallet
    (generateWalletBatch batchSize (envs iter).createRandom) bumpAmount gasBuffer
    (envs iter).fund
  cases hf : fundWalletsWithDisperser depositWallet
    (generateWalletBatch batchSize (envs iter).createRandom) bumpAmount gasBuffer
    (envs iter).fund with
  | mk calls res =>
    rw [hf] at hfund hnoswap
    simp only at hfund hnoswap
    subst hfund
    have hbody := batchBody_fund_error orderId depositWallet bumpAmount (envs iter) s B e calls
      hbal henough hcreated hf
    have hl := batchLoop_break orderId depositWallet bumpAmount envs iter s _ hloop hbody
    rw [hl, hbody, processFinish_ok orderId penv _ hfinal]
    refine ⟨rfl, rfl, rfl, rfl, rfl, rfl, ?_, ?_, rfl, rfl⟩
    · refine ⟨[.getBalance depositWallet.address,
        .saveBatch (newBatch orderId s (envs iter) .created)] ++ calls, by simp, ?_⟩
      intro c hc
      rcases List.mem_append.mp hc with hc | hc
      · simp only [List.mem_cons, List.mem_singleton, List.not_mem_nil, or_false] at hc
        rcases hc with rfl | rfl
        · exact ⟨rfl, by simp⟩
        · refine ⟨rfl, ?_⟩
          intro b hb
          simp only [Call.saveBatch.injEq] at hb
          rw [← hb]
          rfl
      · obtain ⟨h1, h2⟩ := hnoswap c hc
        exact ⟨h1, fun b hb => absurd hb (h2 b)⟩
    · have hstored' : (s.db.insertBatch (newBatch orderId s (envs iter) .created)).findOne
          orderId = some stored := hstored
      exact findOne_saveOrder _ orderId stored _ hstored' hid

/-- C6 on the started sample order, the disperser call reverting. -/
theorem funding_failure_stops_loop_witness :
    (batchLoop "o1" exDeposit 10000000000000000 (fun _ => exBatchUnfunded 60000000000000000) 0
        exLoopState).db.batches =
      [{ orderId := "o1", batchNumber := 1,
         wallets := generateWalletBatch 5 exRandom, status := .created }] ∧
    (processFinish "o1" (exProcess fun _ => exBatchUnfunded 60000000000000000)
        (batchLoop "o1" exDeposit 10000000000000000
          (fun _ => exBatchUnfunded 60000000000000000) 0 exLoopState)).db.findOne "o1" =
      some { exProcessing with status := .completed, completedAt := some 77 } := by
  have h := funding_failure_stops_loop "o1" exDeposit 10000000000000000
    (fun _ => exBatchUnfunded 60000000000000000) 0 exLoopState 60000000000000000
    "disperse reverted" (exProcess fun _ => exBatchUnfunded 60000000000000000) exProcessing
    (by decide) rfl (by decide) rfl rfl rfl (by decide) rfl
  refine ⟨?_, h.2.2.2.2.2.2.2.1⟩
  rw [h.2.1, h.2.2.1]
  rfl

theorem swapPromise_calls (tokenAddress : String) (bumpAmount : Int) (walletInfo : WalletInfo)
    (env : V3Env) :
    (swapPromise tokenAddress bumpAmount walletInfo env).1 =
      (swapETHForTokensV3 ⟨walletInfo.address, walletInfo.privateKey⟩ tokenAddress bumpAmount
        walletInfo.address env).1 := by
  cases h : swapETHForTokensV3 ⟨walletInfo.address, walletInfo.privateKey⟩ tokenAddress
    bumpAmount walletInfo.address env with
  | mk calls res => cases res <;> simp [swapPromise, h]

theorem swapPromise_result (tokenAddress : String) (bumpAmount : Int)
    (walletInfo : WalletInfo) (env : V3Env) :
    (swapPromise tokenAddress bumpAmount walletInfo env).2 =
      (swapETHForTokensV3 ⟨walletInfo.address, walletInfo.privateKey⟩ tokenAddress bumpAmount
        walletInfo.address env).2.toOption := by
  cases h : swapETHForTokensV3 ⟨walletInfo.address, walletInfo.privateKey⟩ tokenAddress
    bumpAmount walletInfo.address env with
  | mk calls res => cases res <;> simp [swapPromise, h, Except.toOption]

theorem swapPromises_batch (tokenAddress : String) (bumpAmount : Int)
    (createRandom : Nat → Wallet) (envs : Nat → V3Env) :
    (swapPromises tokenAddress bumpAmount (generateWalletBatch batchSize createRandom) envs).1 =
        ((List.range 5).map fun i =>
          (swapETHForTokensV3 (createRandom i) tokenAddress bumpAmount (createRandom i).address
            (envs i)).1).flatten ∧
      (swapPromises tokenAddress bumpAmount (generateWalletBatch batchSize createRandom) envs).2 =
        (List.range 5).map fun i =>
          (swapETHForTokensV3 (createRandom i) tokenAddress bumpAmount (createRandom i).address
            (envs i)).2.toOption := by
  simp [swapPromises, generateWalletBatch, batchSize, List.range, List.range.loop, List.enum,
    List.enumFrom, swapPromise_calls, swapPromise_result]

theorem completedDb_batches (orderId : String) (s : LoopState) (env : BatchEnv) :
    (completedDb orderId s env).batches =
      s.db.batches ++ [newBatch orderId s env .completed] := by
  simp [completedDb, Db.insertBatch, Db.saveBatch]

/-- C7: in an iteration, on an order document stored under `orderId`, whose wallet batch was
funded and is written after the swaps, whatever the outcomes of the five swaps (any of them may fail in both protocols), the swap adapter is run once for each of the
five wallets, in order, each failure becoming a `null` result; the outcome of the iteration
does not depend on the swaps: the wallet batch is stored in status `completed`, the counter
and the order document are incremented by exactly 1, and with the write of the order
succeeding the loop goes on with the order stored at the incremented counter. -/
theorem swap_failures_contained (orderId : String) (depositWallet : Wallet)
    (bumpAmount : Int) (env : BatchEnv) (s : LoopState) (B : Int) (tx : String)
    (stored : BumpOrder)
    (hbal : env.balance = .ok B)
    (henough : bumpAmount * batchSize + gasBuffer * batchSize ≤ B)
    (hcreated : env.saveCreated = .ok ())
    (hfund : (fundWalletsWithDisperser depositWallet
      (generateWalletBatch batchSize env.createRandom) bumpAmount gasBuffer env.fund).2 =
        .ok tx)
    (hfunded : env.saveFunded = .ok ()) (hcompleted : env.saveCompleted = .ok ())
    (hid : s.order.orderId = orderId) (hstored : s.db.findOne orderId = some stored) :
    (swapPromises s.order.tokenAddress bumpAmount
        (generateWalletBatch batchSize env.createRandom) env.swaps).1 =
      ((List.range 5).map fun i =>
        (swapETHForTokensV3 (env.createRandom i) s.order.tokenAddress bumpAmount
          (env.createRandom i).address (env.swaps i)).1).flatten ∧
    (swapPromises s.order.tokenAddress bumpAmount
        (generateWalletBatch batchSize env.createRandom) env.swaps).2 =
      ((List.range 5).map fun i =>
        (swapETHForTokensV3 (env.createRandom i) s.order.tokenAddress bumpAmount
          (env.createRandom i).address (env.swaps i)).2.toOption) ∧
    (batchBody orderId depositWallet bumpAmount env s).1.trace =
      s.trace ++ [.getBalance depositWallet.address,
          .saveBatch (newBatch orderId s env .created)] ++
        (fundWalletsWithDisperser depositWallet (generateWalletBatch batchSize env.createRandom)
          bumpAmount gasBuffer env.fund).1 ++
        [.saveBatch (newBatch orderId s env .funded)] ++
        (swapPromises s.order.tokenAddress bumpAmount
          (generateWalletBatch batchSize env.createRandom) env.swaps).1 ++
        [.saveBatch (newBatch orderId s env .completed),
          .saveOrder (withBatch s.order (s.currentBatch + 1))] ∧
    (batchBody orderId depositWallet bumpAmount env s).1.db.batches =
      s.db.batches ++ [newBatch orderId s env .completed] ∧
    (batchBody orderId depositWallet bumpAmount env s).1.currentBatch = s.currentBatch + 1 ∧
    (batchBody orderId depositWallet bumpAmount env s).1.order =
      withBatch s.order (s.currentBatch + 1) ∧
    (env.saveOrder = .ok () →
      (batchBody orderId depositWallet bumpAmount env s).2 = true ∧
        (batchBody orderId depositWallet bumpAmount env s).1.db.findOne orderId =
          some (withBatch s.order (s.currentBatch + 1))) ∧
    ∀ swaps : Nat → V3Env,
      (batchBody orderId depositWallet bumpAmount { env with swaps := swaps } s).2 =
          (batchBody orderId depositWallet bumpAmount env s).2 ∧
        (batchBody orderId depositWallet bumpAmount { env with swaps := swaps } s).1.db =
          (batchBody orderId depositWallet bumpAmount env s).1.db ∧
        (batchBody orderId depositWallet bumpAmount { env with swaps := swaps } s).1.order =
          (batchBody orderId depositWallet bumpAmount env s).1.order ∧
        (batchBody orderId depositWallet bumpAmount { env with swaps := swaps }
          s).1.currentBatch =
          (batchBody orderId depositWallet bumpAmount env s).1.currentBatch := by
  have hsw := swapPromises_batch s.order.tokenAddress bumpAmount env.createRandom env.swaps
  cases hf : fundWalletsWithDisperser depositWallet
    (generateWalletBatch batchSize env.createRandom) bumpAmount gasBuffer env.fund with
  | mk calls res =>
    rw [hf] at hfund
    simp only at hfund
    subst hfund
    have hbody := batchBody_swapped orderId depositWallet bumpAmount env s B tx calls hbal
      henough hcreated hf hfunded hcompleted
    have hbody' : ∀ swaps : Nat → V3Env,
        batchBody orderId depositWallet bumpAmount { env with swaps := swaps } s = _ :=
      fun swaps => batchBody_swapped orderId depositWallet bumpAmount { env with swaps := swaps }
        s B tx calls hbal henough hcreated hf hfunded hcompleted
    refine ⟨hsw.1, hsw.2, ?_, ?_, ?_, ?_, ?_, ?_⟩
    · rw [hbody]
      cases env.saveOrder <;> simp [completedTrace, withBatch]
    · rw [hbody]
      cases env.saveOrder <;> simp [completedDb_batches, Db.saveOrder]
    · rw [hbody]
      cases env.saveOrder <;> rfl
    · rw [hbody]
      cases env.saveOrder <;> rfl
    · intro hso
      rw [hbody, hso]
      refine ⟨rfl, ?_⟩
      have hstored' : (completedDb orderId s env).findOne orderId = some stored := hstored
      exact findOne_saveOrder _ orderId stored _ hstored' hid
    · intro swaps
      rw [hbody, hbody' swaps]
      cases env.saveOrder <;> exact ⟨rfl, rfl, rfl, rfl⟩

/-- C7 on the started sample order, two of the five swaps failing in both protocols. -/
theorem swap_failures_contained_witness :
    (swapPromises "0xtoken" 10000000000000000 (generateWalletBatch 5 exRandom)
        (exBatch 60000000000000000).swaps).2 =
      [some "0xswap3", none, some "0xswap3", none, some "0xswap3"] ∧
    (batchBody "o1" exDeposit 10000000000000000 (exBatch 60000000000000000)
        exLoopState).1.db.batches =
      [{ orderId := "o1", batchNumber := 1,
         wallets := generateWalletBatch 5 exRandom, status := .completed }] ∧
    (batchBody "o1" exDeposit 10000000000000000 (exBatch 60000000000000000)
        exLoopState).1.db.findOne "o1" = some { exProcessing with currentBatch := 1 } := by
  have h := swap_failures_contained "o1" exDeposit 10000000000000000
    (exBatch 60000000000000000) exLoopState 60000000000000000 "0xfund" exProcessing
    rfl (by decide) rfl rfl rfl rfl rfl (by decide)
  refine ⟨?_, h.2.2.2.1, (h.2.2.2.2.2.2.1 rfl).2⟩
  have h2 : (swapPromises "0xtoken" 10000000000000000 (generateWalletBatch 5 exRandom)
      (exBatch 60000000000000000).swaps).2 = _ := h.2.1
  rw [h2]
  decide

/-! ## The adapters -/

theorem swapV3Try_no_v2 (wallet : Wallet) (tokenAddress : String) (ethAmount : Int)
    (recipient : String) (env : V3Env) :
    ∀ c ∈ (swapV3Try wallet tokenAddress ethAmount recipient env).1, c.isV2 = false := by
  unfold swapV3Try
  cases env.gasPrice with
  | error e => simp [Call.isV2]
  | ok g =>
    cases env.exactInputSingle with
    | error e => simp [Call.isV2]
    | ok tx => cases env.wait <;> simp [Call.isV2]

theorem swapV2_weth_once (wallet : Wallet) (tokenAddress : String) (ethAmount : Int)
    (recipient : String) (env : V2Env) :
    ∃ rest, (swapETHForTokensV2 wallet tokenAddress ethAmount recipient env).1 =
        .weth wallet.address :: rest ∧
      (∀ c ∈ rest, c = .getGasPrice ∨ (∃ tx, c = .wait tx) ∨
        ∃ weth deadline gasPrice, c = .swapExactETHForTokens wallet.address 0
          [weth, tokenAddress] recipient deadline ethAmount 300000 gasPrice) ∧
      (rest.filter Call.isV2).length ≤ 1 := by
  unfold swapETHForTokensV2
  cases env.weth with
  | error e => exact ⟨[], by simp⟩
  | ok w =>
    cases env.gasPrice with
    | error e => exact ⟨[.getGasPrice], by simp [Call.isV2]⟩
    | ok g =>
      cases env.swapExactETHForTokens with
      | error e => exact ⟨_, rfl, by simp, by simp [Call.isV2]⟩
      | ok tx => cases env.wait <;> exact ⟨_, rfl, by simp, by simp [Call.isV2]⟩

theorem swap_fallback_counts (wallet : Wallet) (tokenAddress : String) (ethAmount : Int)
    (recipient : String) (env : V3Env) :
    (∀ c ∈ (swapV3Try wallet tokenAddress ethAmount recipient env).1, c.isV2 = false) ∧
    (∀ txHash, (swapV3Try wallet tokenAddress ethAmount recipient env).2 = .ok txHash →
      swapETHForTokensV3 wallet tokenAddress ethAmount recipient env =
          ((swapV3Try wallet tokenAddress ethAmount recipient env).1, .ok txHash) ∧
        ((swapETHForTokensV3 wallet tokenAddress ethAmount recipient env).1.filter
          Call.isV2).length = 0) ∧
    (∀ e, (swapV3Try wallet tokenAddress ethAmount recipient env).2 = .error e →
      swapETHForTokensV3 wallet tokenAddress ethAmount recipient env =
          ((swapV3Try wallet tokenAddress ethAmount recipient env).1 ++
            (swapETHForTokensV2 wallet tokenAddress ethAmount recipient env.v2).1,
            (swapETHForTokensV2 wallet tokenAddress ethAmount recipient env.v2).2) ∧
        ((swapETHForTokensV3 wallet tokenAddress ethAmount recipient env).1.filter
          fun c => c == .weth wallet.address).length = 1 ∧
        ((swapETHForTokensV3 wallet tokenAddress ethAmount recipient env).1.filter
          Call.isV2).length ≤ 2 ∧
        ∀ c ∈ (swapETHForTokensV3 wallet tokenAddress ethAmount recipient env).1,
          ∀ sender amountOutMin path target deadline value gasLimit gasPrice,
            c = .swapExactETHForTokens sender amountOutMin path target deadline value gasLimit
              gasPrice →
            sender = wallet.address ∧ path.getLast? = some tokenAddress ∧
              target = recipient ∧ value = ethAmount) := by
  have hv3 := swapV3Try_no_v2 wallet tokenAddress ethAmount recipient env
  have hfilter : ((swapV3Try wallet tokenAddress ethAmount recipient env).1.filter
      Call.isV2) = [] := by
    rw [List.filter_eq_nil_iff]
    intro c hc
    simp [hv3 c hc]
  have hfilterW : ((swapV3Try wallet tokenAddress ethAmount recipient env).1.filter
      fun c => c == .weth wallet.address) = [] := by
    rw [List.filter_eq_nil_iff]
    intro c hc
    have := hv3 c hc
    intro heq
    have hc' : c = .weth wallet.address := by simpa using heq
    rw [hc'] at this
    simp [Call.isV2] at this
  refine ⟨hv3, ?_, ?_⟩
  · intro txHash h
    cases hr : swapV3Try wallet tokenAddress ethAmount recipient env with
    | mk calls res =>
      rw [hr] at h hfilter
      simp only at h hfilter
      subst h
      simp [swapETHForTokensV3, hr, hfilter]
  · intro e h
    obtain ⟨rest, hrest, hparams, hcount⟩ :=
      swapV2_weth_once wallet tokenAddress ethAmount recipient env.v2
    cases hr : swapV3Try wallet tokenAddress ethAmount recipient env with
    | mk calls res =>
      rw [hr] at h hfilter hfilterW hv3
      simp only at h hfilter hfilterW hv3
      subst h
      have hrun : swapETHForTokensV3 wallet tokenAddress ethAmount recipient env =
          (calls ++ (swapETHForTokensV2 wallet tokenAddress ethAmount recipient env.v2).1,
            (swapETHForTokensV2 wallet tokenAddress ethAmount recipient env.v2).2) := by
        simp [swapETHForTokensV3, hr]
      rw [hrun]
      refine ⟨rfl, ?_, ?_, ?_⟩
      · have hw : (rest.filter fun c => c == Call.weth wallet.address) = [] := by
          rw [List.filter_eq_nil_iff]
          intro c hc heq
          have hc' : c = .weth wallet.address := by simpa using heq
          subst hc'
          rcases hparams _ hc with h1 | ⟨tx, h1⟩ | ⟨w, d, g, h1⟩ <;> simp at h1
        simp [hrest, hfilterW, hw]
      · simp only [List.filter_append, hfilter, hrest, List.nil_append]
        simp only [List.filter_cons, Call.isV2, if_true, List.length_cons]
        omega
      · intro c hc sender amountOutMin path target deadline value gasLimit gasPrice heq
        subst heq
        simp only [List.mem_append] at hc
        rcases hc with hc | hc
        · have := hv3 _ hc
          simp [Call.isV2] at this
        · rw [hrest] at hc
          rcases List.mem_cons.mp hc with hc | hc
          · simp at hc
          · rcases hparams _ hc with h1 | ⟨tx, h1⟩ | ⟨w, d, g, h1⟩
            · simp at h1
            · simp at h1
            · simp only [Call.swapExactETHForTokens.injEq] at h1
              obtain ⟨h1, -, h3, h4, -, h6, -⟩ := h1
              subst h1 h3 h4 h6
              simp

theorem swapV3_runs (wallet : Wallet) (tokenAddress : String) (ethAmount : Int)
    (recipient : String) (env : V3Env) :
    (∀ g txHash, env.gasPrice = .ok g → env.exactInputSingle = .ok txHash →
      env.wait = .ok () →
      swapV3Try wallet tokenAddress ethAmount recipient env =
        ([.getGasPrice,
          .exactInputSingle wallet.address wethAddress tokenAddress 3000 recipient
            (env.now / 1000 + 60 * 20) ethAmount 0 0 ethAmount 300000 g,
          .wait txHash], .ok txHash)) ∧
    (∀ g tx e, env.gasPrice = .ok g → env.exactInputSingle = .ok tx →
      env.wait = .error e →
      swapV3Try wallet tokenAddress ethAmount recipient env =
        ([.getGasPrice,
          .exactInputSingle wallet.address wethAddress tokenAddress 3000 recipient
            (env.now / 1000 + 60 * 20) ethAmount 0 0 ethAmount 300000 g,
          .wait tx], .error e)) ∧
    (∀ g e, env.gasPrice = .ok g → env.exactInputSingle = .error e →
      swapV3Try wallet tokenAddress ethAmount recipient env =
        ([.getGasPrice,
          .exactInputSingle wallet.address wethAddress tokenAddress 3000 recipient
            (env.now / 1000 + 60 * 20) ethAmount 0 0 ethAmount 300000 g], .error e)) ∧
    (∀ e, env.gasPrice = .error e →
      swapV3Try wallet tokenAddress ethAmount recipient env = ([.getGasPrice], .error e)) := by
  refine ⟨?_, ?_, ?_, ?_⟩
  · intro g txHash h1 h2 h3
    simp [swapV3Try, h1, h2, h3]
  · intro g tx e h1 h2 h3
    simp [swapV3Try, h1, h2, h3]
  · intro g e h1 h2
    simp [swapV3Try, h1, h2]
  · intro e h1
    simp [swapV3Try, h1]

theorem swapV3_fallback (wallet : Wallet) (tokenAddress : String) (ethAmount : Int)
    (recipient : String) (env : V3Env) (calls : List Call) (e : String)
    (h : swapV3Try wallet tokenAddress ethAmount recipient env = (calls, .error e)) :
    swapETHForTokensV3 wallet tokenAddress ethAmount recipient env =
      (calls ++ (swapETHForTokensV2 wallet tokenAddress ethAmount recipient env.v2).1,
        (swapETHForTokensV2 wallet tokenAddress ethAmount recipient env.v2).2) := by
  simp [swapETHForTokensV3, h]

theorem swapV2_runs (wallet : Wallet) (tokenAddress : String) (ethAmount : Int)
    (recipient : String) (env : V2Env) :
    (∀ w g tx, env.weth = .ok w → env.gasPrice = .ok g →
      env.swapExactETHForTokens = .ok tx → env.wait = .ok () →
      swapETHForTokensV2 wallet tokenAddress ethAmount recipient env =
        ([.weth wallet.address, .getGasPrice,
          .swapExactETHForTokens wallet.address 0 [w, tokenAddress] recipient
            (env.now / 1000 + 60 * 20) ethAmount 300000 g,
          .wait tx], .ok tx)) ∧
    (∀ w g, env.weth = .ok w → env.gasPrice = .ok g →
      ∃ rest, (swapETHForTokensV2 wallet tokenAddress ethAmount recipient env).1 =
          .weth wallet.address :: .getGasPrice ::
            .swapExactETHForTokens wallet.address 0 [w, tokenAddress] recipient
              (env.now / 1000 + 60 * 20) ethAmount 300000 g :: rest ∧
        ∀ c ∈ rest, c.isV2 = false) ∧
    (∀ tx, (swapETHForTokensV2 wallet tokenAddress ethAmount recipient env).2 = .ok tx →
      env.swapExactETHForTokens = .ok tx ∧ env.wait = .ok () ∧
        (∃ w, env.weth = .ok w) ∧ ∃ g, env.gasPrice = .ok g) := by
  refine ⟨?_, ?_, ?_⟩
  · intro w g tx h1 h2 h3 h4
    simp [swapETHForTokensV2, h1, h2, h3, h4]
  · intro w g h1 h2
    unfold swapETHForTokensV2
    rw [h1, h2]
    cases env.swapExactETHForTokens with
    | error e => exact ⟨[], rfl, by simp⟩
    | ok tx => cases env.wait <;> exact ⟨_, rfl, by simp [Call.isV2]⟩
  · intro tx
    unfold swapETHForTokensV2
    cases env.weth with
    | error e => simp
    | ok w =>
      cases env.gasPrice with
      | error e => simp
      | ok g =>
        cases env.swapExactETHForTokens with
        | error e => simp
        | ok tx' =>
          cases env.wait with
          | error e => simp
          | ok u => simp

/-- C8: the swap adapter makes the V3 attempt first: its first call reads the gas price of
the V3 transaction and, the price read, its next call is `exactInputSingle` on the V3 router,
with the wallet as sender, WETH as input, the token as output, the fee tier 3000, the
recipient, the amount as input and value, and no minimum output; no call to the V2 router
comes before. If the V3 transaction is sent and mined, the adapter returns its hash and
issues no other call. If the V3 attempt fails (at the gas price, at the call or at the
wait), the adapter runs `swapETHForTokensV2` once, with the same wallet, token, amount and
recipient, after the V3 calls, and ends as that run ends: with its hash, or with its error.
That run asks the V2 router for `WETH()` once and, the address and the gas price read, sends
one `swapExactETHForTokens` with those arguments; it returns a hash only if that swap is
sent and mined. -/
theorem swap_falls_back_once (wallet : Wallet) (tokenAddress : String) (ethAmount : Int)
    (recipient : String) (env : V3Env) :
    (∃ rest, (swapETHForTokensV3 wallet tokenAddress ethAmount recipient env).1 =
        .getGasPrice :: rest ∧
      (∀ g, env.gasPrice = .ok g → ∃ rest', rest =
        .exactInputSingle wallet.address wethAddress tokenAddress 3000 recipient
          (env.now / 1000 + 60 * 20) ethAmount 0 0 ethAmount 300000 g :: rest') ∧
      (∀ e, env.gasPrice = .error e →
        rest = (swapETHForTokensV2 wallet tokenAddress ethAmount recipient env.v2).1)) ∧
    (∀ g txHash, env.gasPrice = .ok g → env.exactInputSingle = .ok txHash →
      env.wait = .ok () →
      swapETHForTokensV3 wallet tokenAddress ethAmount recipient env =
        ([.getGasPrice,
          .exactInputSingle wallet.address wethAddress tokenAddress 3000 recipient
            (env.now / 1000 + 60 * 20) ethAmount 0 0 ethAmount 300000 g,
          .wait txHash], .ok txHash)) ∧
    (∀ g e, env.gasPrice = .ok g → env.exactInputSingle = .error e →
      swapETHForTokensV3 wallet tokenAddress ethAmount recipient env =
        (.getGasPrice ::
          .exactInputSingle wallet.address wethAddress tokenAddress 3000 recipient
            (env.now / 1000 + 60 * 20) ethAmount 0 0 ethAmount 300000 g ::
          (swapETHForTokensV2 wallet tokenAddress ethAmount recipient env.v2).1,
          (swapETHForTokensV2 wallet tokenAddress ethAmount recipient env.v2).2)) ∧
    (∀ g tx e, env.gasPrice = .ok g → env.exactInputSingle = .ok tx →
      env.wait = .error e →
      swapETHForTokensV3 wallet tokenAddress ethAmount recipient env =
        (.getGasPrice ::
          .exactInputSingle wallet.address wethAddress tokenAddress 3000 recipient
            (env.now / 1000 + 60 * 20) ethAmount 0 0 ethAmount 300000 g ::
          .wait tx ::
          (swapETHForTokensV2 wallet tokenAddress ethAmount recipient env.v2).1,
          (swapETHForTokensV2 wallet tokenAddress ethAmount recipient env.v2).2)) ∧
    (∀ e, env.gasPrice = .error e →
      swapETHForTokensV3 wallet tokenAddress ethAmount recipient env =
        (.getGasPrice ::
          (swapETHForTokensV2 wallet tokenAddress ethAmount recipient env.v2).1,
          (swapETHForTokensV2 wallet tokenAddress ethAmount recipient env.v2).2)) ∧
    (∀ w g tx, env.v2.weth = .ok w → env.v2.gasPrice = .ok g →
      env.v2.swapExactETHForTokens = .ok tx → env.v2.wait = .ok () →
      swapETHForTokensV2 wallet tokenAddress ethAmount recipient env.v2 =
        ([.weth wallet.address, .getGasPrice,
          .swapExactETHForTokens wallet.address 0 [w, tokenAddress] recipient
            (env.v2.now / 1000 + 60 * 20) ethAmount 300000 g,
          .wait tx], .ok tx)) ∧
    (∀ w g, env.v2.weth = .ok w → env.v2.gasPrice = .ok g →
      ∃ rest, (swapETHForTokensV2 wallet tokenAddress ethAmount recipient env.v2).1 =
          .weth wallet.address :: .getGasPrice ::
            .swapExactETHForTokens wallet.address 0 [w, tokenAddress] recipient
              (env.v2.now / 1000 + 60 * 20) ethAmount 300000 g :: rest ∧
        ∀ c ∈ rest, c.isV2 = false) ∧
    (∀ tx, (swapETHForTokensV2 wallet tokenAddress ethAmount recipient env.v2).2 = .ok tx →
      env.v2.swapExactETHForTokens = .ok tx ∧ env.v2.wait = .ok () ∧
        (∃ w, env.v2.weth = .ok w) ∧ ∃ g, env.v2.gasPrice = .ok g) ∧
    (∀ c ∈ (swapV3Try wallet tokenAddress ethAmount recipient env).1, c.isV2 = false) ∧
    (∀ txHash, (swapV3Try wallet tokenAddress ethAmount recipient env).2 = .ok txHash →
      swapETHForTokensV3 wallet tokenAddress ethAmount recipient env =
          ((swapV3Try wallet tokenAddress ethAmount recipient env).1, .ok txHash) ∧
        ((swapETHForTokensV3 wallet tokenAddress ethAmount recipient env).1.filter
          Call.isV2).length = 0) ∧
    (∀ e, (swapV3Try wallet tokenAddress ethAmount recipient env).2 = .error e →
      swapETHForTokensV3 wallet tokenAddress ethAmount recipient env =
          ((swapV3Try wallet tokenAddress ethAmount recipient env).1 ++
            (swapETHForTokensV2 wallet tokenAddress ethAmount recipient env.v2).1,
            (swapETHForTokensV2 wallet tokenAddress ethAmount recipient env.v2).2) ∧
        ((swapETHForTokensV3 wallet tokenAddress ethAmount recipient env).1.filter
          fun c => c == .weth wallet.address).length = 1 ∧
        ((swapETHForTokensV3 wallet tokenAddress ethAmount recipient env).1.filter
          Call.isV2).length ≤ 2 ∧
        ∀ c ∈ (swapETHForTokensV3 wallet tokenAddress ethAmount recipient env).1,
          ∀ sender amountOutMin path target deadline value gasLimit gasPrice,
            c = .swapExactETHForTokens sender amountOutMin path target deadline value gasLimit
              gasPrice →
            sender = wallet.address ∧ path.getLast? = some tokenAddress ∧
              target = recipient ∧ value = ethAmount) := by
  obtain ⟨hok, hwait, hcall, hgas⟩ := swapV3_runs wallet tokenAddress ethAmount recipient env
  obtain ⟨h2ok, h2part, h2res⟩ :=
    swapV2_runs wallet tokenAddress ethAmount recipient env.v2
  have hS : ∀ g txHash, env.gasPrice = .ok g → env.exactInputSingle = .ok txHash →
      env.wait = .ok () →
      swapETHForTokensV3 wallet tokenAddress ethAmount recipient env =
        ([.getGasPrice,
          .exactInputSingle wallet.address wethAddress tokenAddress 3000 recipient
            (env.now / 1000 + 60 * 20) ethAmount 0 0 ethAmount 300000 g,
          .wait txHash], .ok txHash) := by
    intro g txHash h1 h2 h3
    simp [swapETHForTokensV3, hok g txHash h1 h2 h3]
  have hC := fun g e h1 h2 =>
    swapV3_fallback wallet tokenAddress ethAmount recipient env _ e (hcall g e h1 h2)
  have hW := fun g tx e h1 h2 h3 =>
    swapV3_fallback wallet tokenAddress ethAmount recipient env _ e (hwait g tx e h1 h2 h3)
  have hG := fun e h1 =>
    swapV3_fallback wallet tokenAddress ethAmount recipient env _ e (hgas e h1)
  refine ⟨?_, hS, hC, hW, hG, h2ok, h2part, h2res,
    swap_fallback_counts wallet tokenAddress ethAmount recipient env⟩
  cases hg : env.gasPrice with
  | error e =>
    rw [hG e hg]
    exact ⟨_, rfl, fun g h => by simp at h, fun _ _ => rfl⟩
  | ok g =>
    cases hx : env.exactInputSingle with
    | error e =>
      rw [hC g e hg hx]
      exact ⟨_, rfl, fun g' h => ⟨_, by cases h; rfl⟩, fun e' h => by simp at h⟩
    | ok tx =>
      cases hw : env.wait with
      | error e =>
        rw [hW g tx e hg hx hw]
        exact ⟨_, rfl, fun g' h => ⟨_, by cases h; rfl⟩, fun e' h => by simp at h⟩
      | ok u =>
        rw [hS g tx hg hx hw]
        exact ⟨_, rfl, fun g' h => ⟨_, by cases h; rfl⟩, fun e' h => by simp at h⟩

/-- C8 on a swap whose V3 call reverts and whose V2 call succeeds. -/
theorem swap_falls_back_once_witness :
    swapETHForTokensV3 exDeposit "0xtoken" 5 "0xdeposit"
        { exV3 with exactInputSingle := .error "V3 reverted" } =
      ([.getGasPrice,
        .exactInputSingle "0xdeposit" wethAddress "0xtoken" 3000 "0xdeposit" 1200 5 0 0 5 300000 1,
        .weth "0xdeposit", .getGasPrice,
        .swapExactETHForTokens "0xdeposit" 0 [wethAddress, "0xtoken"] "0xdeposit" 1200 5
          300000 1,
        .wait "0xswap2"], .ok "0xswap2") := by
  have h := (swap_falls_back_once exDeposit "0xtoken" 5 "0xdeposit"
    { exV3 with exactInputSingle := .error "V3 reverted" }).2.2.1 1 "V3 reverted" rfl rfl
  rw [h]
  rfl

theorem foldl_add_replicate (c : Int) : ∀ (n : Nat) (acc : Int),
    (List.replicate n c).foldl (fun acc v => acc + v) acc = acc + n * c
  | 0, acc => by simp
  | n + 1, acc => by
    rw [List.replicate_succ, List.foldl_cons, foldl_add_replicate c n]
    push_cast
    ring

theorem generateWalletBatch_length (count : Nat) (createRandom : Nat → Wallet) :
    (generateWalletBatch count createRandom).length = count := by
  simp [generateWalletBatch]

/-- C9: for every list of `n` wallets the funding adapter issues one `disperseEth` call, as
its first call, followed by nothing but the wait for that transaction; its recipients are
the `n` addresses in order, its values are `n` copies of `bumpAmount + gasBuffer`, and the
value attached is their sum, `n * (bumpAmount + gasBuffer)`. For the five wallets of a batch
this is the amount `bumpAmount * 5 + gasBuffer * 5` the loop requires before funding. -/
theorem disperser_single_call (fromWallet : Wallet) (wallets : List WalletInfo)
    (bumpAmount gasBuffer' : Int) (env : FundEnv) (createRandom : Nat → Wallet) :
    (∃ rest, (fundWalletsWithDisperser fromWallet wallets bumpAmount gasBuffer' env).1 =
        .disperseEth fromWallet.address (wallets.map fun w => w.address)
          (List.replicate wallets.length (bumpAmount + gasBuffer'))
          (wallets.length * (bumpAmount + gasBuffer')) :: rest ∧
      ∀ c ∈ rest, ∃ tx, c = .wait tx) ∧
    ((fundWalletsWithDisperser fromWallet wallets bumpAmount gasBuffer' env).1.filter
      Call.isDisperse).length = 1 ∧
    (List.replicate wallets.length (bumpAmount + gasBuffer')).sum =
      wallets.length * (bumpAmount + gasBuffer') ∧
    (List.replicate wallets.length (bumpAmount + gasBuffer')).length = wallets.length ∧
    (generateWalletBatch batchSize createRandom).length = 5 ∧
    (((generateWalletBatch batchSize createRandom).length : Int)) * (bumpAmount + gasBuffer) =
      bumpAmount * batchSize + gasBuffer * batchSize := by
  obtain ⟨rest, h, hrest⟩ := fund_trace_head fromWallet wallets bumpAmount gasBuffer' env
  have hvals : (wallets.map fun _ => bumpAmount + gasBuffer') =
      List.replicate wallets.length (bumpAmount + gasBuffer') := by
    simp [List.map_const']
  have hsum := foldl_add_replicate (bumpAmount + gasBuffer') wallets.length 0
  rw [hvals, hsum, zero_add] at h
  refine ⟨⟨rest, h, hrest⟩, ?_, ?_, by simp, ?_, ?_⟩
  · rw [h]
    have hnil : rest.filter Call.isDisperse = [] := by
      rw [List.filter_eq_nil_iff]
      intro c hc
      obtain ⟨tx, rfl⟩ := hrest c hc
      simp [Call.isDisperse]
    simp [List.filter_cons, Call.isDisperse, hnil]
  · simp [List.sum_replicate]
    ring
  · exact generateWalletBatch_length batchSize createRandom
  · rw [generateWalletBatch_length]
    ring

/-- C9 on the five wallets of a sample batch. -/
theorem disperser_single_call_witness :
    ((fundWalletsWithDisperser exDeposit (generateWalletBatch 5 exRandom) 10000000000000000
        gasBuffer ⟨.ok "0xfund", .ok ()⟩).1.filter Call.isDisperse).length = 1 ∧
      (List.replicate (generateWalletBatch 5 exRandom).length
        (10000000000000000 + gasBuffer)).sum =
        (generateWalletBatch 5 exRandom).length * (10000000000000000 + gasBuffer) :=
  ⟨(disperser_single_call exDeposit (generateWalletBatch 5 exRandom) 10000000000000000
      gasBuffer ⟨.ok "0xfund", .ok ()⟩ exRandom).2.1,
    (disperser_single_call exDeposit (generateWalletBatch 5 exRandom) 10000000000000000
      gasBuffer ⟨.ok "0xfund", .ok ()⟩ exRandom).2.2.1⟩

/-! ## The order invariant -/

theorem mem_of_findOne (db : Db) (orderId : String) (o : BumpOrder)
    (h : db.findOne orderId = some o) : o ∈ db.orders :=
  List.mem_of_find?_eq_some h

theorem dbInv_saveOrder (db : Db) (x : BumpOrder) (h : DbInv db) (hx : OrderInv x) :
    DbInv (db.saveOrder x) := by
  intro o ho
  rcases updateFirst_mem _ _ db.orders o ho with h1 | ⟨_, -, h1⟩
  · exact h o h1
  · rw [h1]; exact hx

theorem dbInv_congr (db1 db2 : Db) (h : db1.orders = db2.orders) (hinv : DbInv db2) :
    DbInv db1 := by
  intro o ho
  rw [h] at ho
  exact hinv o ho

theorem dbInv_updateStatus (db : Db) (orderId : String) (st : OrderStatus) (h : DbInv db)
    (hst : st ≠ .pending) : DbInv (db.updateStatus orderId st) := by
  rcases updateStatus_eq db orderId st with heq | ⟨o, ho, heq⟩
  · rw [heq]; exact h
  · rw [heq]
    apply dbInv_saveOrder db _ h
    have hinv := h o (mem_of_findOne db orderId o ho)
    exact ⟨hinv.1, fun hp => absurd hp hst⟩

theorem dbInv_create (tokenAddress : Option String) (env : CreateEnv) (db : Db)
    (h : DbInv db) : DbInv (postBumpCreate tokenAddress env db).db := by
  rcases postBumpCreate_cases tokenAddress env db with ⟨heq, -⟩ | ⟨o, heq, -, h0, h1, -⟩
  · rw [heq]; exact h
  · rw [heq]
    intro x hx
    simp only [Db.insertOrder, List.mem_append, List.mem_singleton] at hx
    rcases hx with hx | rfl
    · exact h x hx
    · exact ⟨by rw [h0, h1], fun _ => h0⟩

theorem plan_nonneg (r b totalBumps : Int) (hr : 0 < r) (hb : 0 < b)
    (hplan : (bnDiv r b).bind toNumber = .ok totalBumps) :
    0 ≤ mathCeilDiv totalBumps batchSize := by
  have hne : b ≠ 0 := ne_of_gt hb
  have hq : 0 ≤ Int.tdiv r b := Int.tdiv_nonneg hr.le hb.le
  have htb : totalBumps = Int.tdiv r b := by
    simp only [bnDiv, hne, if_false, Except.bind, toNumber] at hplan
    split at hplan
    · simp only [Except.ok.injEq] at hplan
      exact hplan.symm
    · simp at hplan
  unfold mathCeilDiv batchSize
  rw [htb]
  apply Int.ediv_nonneg <;> omega

theorem dbInv_begin (cfg : Config) (hb : ∀ b, cfg.bumpAmount = .ok b → 0 < b)
    (orderId : String) (env : BeginEnv) (db : Db) (h : DbInv db) :
    DbInv (postBumpProcess cfg orderId env db).db := by
  rcases postBumpProcess_cases cfg orderId env db with
    ⟨heq, -⟩ | ⟨o, B, b, tb, ho, hpend, -, -, hmin, hcfg, hplan, heq, -⟩
  · rw [heq]; exact h
  · rw [heq]
    apply dbInv_saveOrder db _ h
    have hinv := h o (mem_of_findOne db orderId o ho)
    have hrem := remaining_pos B hmin
    have hnn := plan_nonneg (B - treasuryFee) b tb (by omega) (hb b hcfg) hplan
    refine ⟨?_, fun hp => by simp [startedOrder] at hp⟩
    have h0 : o.currentBatch = 0 := hinv.2 hpend
    simp only [startedOrder, h0]
    exact hnn

theorem dbInv_run (cfg : Config) (orderId : String) (env : ProcessEnv) (db : Db)
    (h : DbInv db) : DbInv (processBumpOrder cfg orderId env db).db := by
  rcases processBumpOrder_orders cfg orderId env db with
    heq | heq | ⟨o, c, st, ca, ho, hst, heq, hc1, hc2, hcases⟩
  · rw [heq]; exact h
  · rw [heq]; exact dbInv_updateStatus db orderId .failed h (by simp)
  · apply dbInv_congr _ _ heq
    apply dbInv_saveOrder db _ h
    have hinv := h o (mem_of_findOne db orderId o ho)
    constructor
    · simp only [withBatch]
      rcases hc2 with hc2 | hc2
      · exact hc2
      · rw [hc2]; exact hinv.1
    · intro hp
      simp only at hp
      rcases hcases with ⟨a, -⟩ | ⟨a, -⟩ | ⟨a, -⟩ <;> rw [a] at hp <;> simp at hp

theorem dbInv_step (cfg : Config) (hb : ∀ b, cfg.bumpAmount = .ok b → 0 < b) (db db' : Db)
    (hstep : Step cfg db db') (h : DbInv db) : DbInv db' := by
  cases hstep with
  | create tokenAddress env => exact dbInv_create tokenAddress env db h
  | status orderId env => rw [getBumpStatus_db]; exact h
  | start orderId env => exact dbInv_begin cfg hb orderId env db h
  | run orderId env o ho hst => exact dbInv_run cfg orderId env db h

theorem dbInv_reachable (cfg : Config) (hb : ∀ b, cfg.bumpAmount = .ok b → 0 < b) (db : Db)
    (hreach : Reachable cfg db) : DbInv db := by
  unfold Reachable at hreach
  induction hreach with
  | refl => intro o ho; simp at ho
  | tail _ hstep ih => exact dbInv_step cfg hb _ _ hstep ih

/-- The counter grows in an iteration exactly when the wallet batch of the iteration ends
stored in status `completed`. -/
theorem batchBody_counter_iff (orderId : String) (depositWallet : Wallet) (bumpAmount : Int)
    (env : BatchEnv) (s : LoopState) :
    (batchBody orderId depositWallet bumpAmount env s).1.currentBatch = s.currentBatch + 1 ↔
      (batchBody orderId depositWallet bumpAmount env s).1.db.batches =
        s.db.batches ++ [newBatch orderId s env .completed] := by
  have hne : s.currentBatch ≠ s.currentBatch + 1 := by omega
  cases hbal : env.balance with
  | error e => rw [batchBody_balance_error _ _ _ _ _ e hbal]; simp [hne]
  | ok B =>
    by_cases hlow : B < bumpAmount * batchSize + gasBuffer * batchSize
    · rw [batchBody_insufficient _ _ _ _ _ B hbal hlow]; simp [hne]
    · have henough := not_lt.mp hlow
      cases hcreated : env.saveCreated with
      | error e =>
        rw [batchBody_saveCreated_error _ _ _ _ _ B e hbal henough hcreated]; simp [hne]
      | ok u =>
        cases hfund : fundWalletsWithDisperser depositWallet
          (generateWalletBatch batchSize env.createRandom) bumpAmount gasBuffer env.fund with
        | mk calls res =>
          cases res with
          | error e =>
            rw [batchBody_fund_error _ _ _ _ _ B e calls hbal henough hcreated hfund]
            simp [Db.insertBatch, newBatch, hne]
          | ok tx =>
            cases hfunded : env.saveFunded with
            | error e =>
              rw [batchBody_saveFunded_error _ _ _ _ _ B e tx calls hbal henough hcreated hfund
                hfunded]
              simp [Db.insertBatch, newBatch, hne]
            | ok u =>
              cases hcompleted : env.saveCompleted with
              | error e =>
                rw [batchBody_saveCompleted_error _ _ _ _ _ B e tx calls hbal henough hcreated
                  hfund hfunded hcompleted]
                simp [Db.insertBatch, Db.saveBatch, newBatch, hne]
              | ok u =>
                rw [batchBody_swapped _ _ _ _ _ B tx calls hbal henough hcreated hfund hfunded
                  hcompleted]
                cases env.saveOrder <;> simp [completedDb_batches, Db.saveOrder]

/-- C10: with a positive bump amount configured, `currentBatch <= totalBatches` holds on
every stored order of every store the system reaches: a create request stores the new order
with both counters zero, and create requests, process requests and background runs keep the
invariant. Inside the loop the body runs only while `currentBatch < totalBatches`; an
iteration keeps the invariant on the order document and on the store, leaves `totalBatches`
alone, and either leaves the counter or adds exactly 1 to it, the latter exactly when the
wallet batch of the iteration ends stored as `completed`. -/
theorem currentBatch_le_totalBatches (cfg : Config)
    (hb : ∀ b, cfg.bumpAmount = .ok b → 0 < b) :
    (∀ db, Reachable cfg db → ∀ o ∈ db.orders, o.currentBatch ≤ o.totalBatches) ∧
    (∀ tokenAddress env db orderId depositWallet msg,
      (postBumpCreate tokenAddress env db).response = .created orderId depositWallet msg →
      ∃ o, (postBumpCreate tokenAddress env db).db.findOne orderId = some o ∧
        o.currentBatch = 0 ∧ o.totalBatches = 0) ∧
    (∀ tokenAddress env db, DbInv db → DbInv (postBumpCreate tokenAddress env db).db) ∧
    (∀ orderId env db, DbInv db → DbInv (postBumpProcess cfg orderId env db).db) ∧
    (∀ orderId env db, DbInv db → DbInv (processBumpOrder cfg orderId env db).db) ∧
    (∀ orderId depositWallet bumpAmount envs iter s,
      ¬ s.currentBatch < s.order.totalBatches →
      batchLoop orderId depositWallet bumpAmount envs iter s = s) ∧
    (∀ orderId depositWallet bumpAmount env s,
      s.currentBatch < s.order.totalBatches → s.order.currentBatch = s.currentBatch →
      s.order.status = .processing → DbInv s.db →
      DbInv (batchBody orderId depositWallet bumpAmount env s).1.db ∧
        (batchBody orderId depositWallet bumpAmount env s).1.order.currentBatch =
          (batchBody orderId depositWallet bumpAmount env s).1.currentBatch ∧
        (batchBody orderId depositWallet bumpAmount env s).1.order.status = .processing ∧
        (batchBody orderId depositWallet bumpAmount env s).1.order.totalBatches =
          s.order.totalBatches ∧
        (batchBody orderId depositWallet bumpAmount env s).1.currentBatch ≤
          (batchBody orderId depositWallet bumpAmount env s).1.order.totalBatches ∧
        ((batchBody orderId depositWallet bumpAmount env s).1.currentBatch = s.currentBatch ∨
          (batchBody orderId depositWallet bumpAmount env s).1.currentBatch =
            s.currentBatch + 1) ∧
        ((batchBody orderId depositWallet bumpAmount env s).1.currentBatch =
            s.currentBatch + 1 ↔
          (batchBody orderId depositWallet bumpAmount env s).1.db.batches =
            s.db.batches ++ [newBatch orderId s env .completed])) := by
  refine ⟨?_, ?_, ?_, ?_, ?_, ?_, ?_⟩
  · intro db hreach o ho
    exact (dbInv_reachable cfg hb db hreach o ho).1
  · intro tokenAddress env db orderId depositWallet msg hresp
    rcases postBumpCreate_cases tokenAddress env db with
      ⟨-, code, err, herr⟩ | ⟨o, heq, -, h0, h1, hnew, msg', hcreated⟩
    · rw [herr] at hresp
      exact absurd hresp (by simp)
    · rw [hcreated] at hresp
      simp only [Response.created.injEq] at hresp
      obtain ⟨hid, -, -⟩ := hresp
      refine ⟨o, ?_, h0, h1⟩
      rw [heq, ← hid]
      unfold Db.findOne Db.insertOrder
      unfold Db.findOne at hnew
      simp [List.find?_append, hnew]
  · intro tokenAddress env db h
    exact dbInv_create tokenAddress env db h
  · intro orderId env db h
    exact dbInv_begin cfg hb orderId env db h
  · intro orderId env db h
    exact dbInv_run cfg orderId env db h
  · intro orderId depositWallet bumpAmount envs iter s hdone
    exact batchLoop_done orderId depositWallet bumpAmount envs iter s hdone
  · intro orderId depositWallet bumpAmount env s hloop hcur hst hdb
    have hiff := batchBody_counter_iff orderId depositWallet bumpAmount env s
    rcases batchBody_cases orderId depositWallet bumpAmount env s with
      ⟨-, h1, h2, h3⟩ | ⟨h1, h2, h3⟩
    · refine ⟨?_, by rw [h1, h2]; exact hcur, by rw [h1]; exact hst, by rw [h1],
        by rw [h1, h2]; omega, Or.inl h2, hiff⟩
      intro o ho
      rw [h3] at ho
      exact hdb o ho
    · have hnew : OrderInv { s.order with currentBatch := s.currentBatch + 1 } :=
        ⟨by simp only; omega, fun hp => by simp [hst] at hp⟩
      refine ⟨?_, by rw [h1, h2], by rw [h1]; exact hst, by rw [h1],
        by rw [h1, h2]; simp only; omega, Or.inr h2, hiff⟩
      rcases h3 with ⟨-, h3⟩ | ⟨-, h3⟩
      · intro o ho
        rw [h3] at ho
        exact hdb o ho
      · exact dbInv_congr _ _ h3 (dbInv_saveOrder s.db _ hdb hnew)

/-- C10 on the sample order: after the process request that starts it, and after the first
iteration of its run. -/
theorem currentBatch_le_totalBatches_witness :
    (postBumpProcess (exCfg 10000000000000000) "o1" (exBegin 20000000000000000)
        exDb).db.orders.all (fun o => decide (o.currentBatch ≤ o.totalBatches)) = true ∧
    (batchBody "o1" exDeposit 10000000000000000 (exBatch 60000000000000000)
        exLoopState).1.currentBatch = 1 := by
  have hb : ∀ b, (exCfg 10000000000000000).bumpAmount = .ok b → 0 < b := by
    intro b h
    simp only [exCfg, Except.ok.injEq] at h
    omega
  have hdb : DbInv exDb := by
    intro o ho
    simp only [exDb, List.mem_singleton] at ho
    subst ho
    exact ⟨by decide, fun _ => rfl⟩
  have hdb' : DbInv exDbProcessing := by
    intro o ho
    simp only [exDbProcessing, List.mem_singleton] at ho
    subst ho
    exact ⟨by decide, by decide⟩
  have h := currentBatch_le_totalBatches (exCfg 10000000000000000) hb
  constructor
  · rw [List.all_eq_true]
    intro o ho
    have := (h.2.2.2.1 "o1" (exBegin 20000000000000000) exDb hdb o ho).1
    simpa using this
  · have hstep := h.2.2.2.2.2.2 "o1" exDeposit 10000000000000000 (exBatch 60000000000000000)
      exLoopState (by decide) rfl rfl hdb'
    exact hstep.2.2.2.2.2.2.mpr (by decide)

/-! ## The lifecycle of the status -/

theorem findOne_saveOrder_eq (db : Db) (x : BumpOrder) (orderId : String) :
    (db.saveOrder x).findOne orderId =
      if x.orderId = orderId then (db.findOne orderId).map (fun _ => x)
      else db.findOne orderId := by
  by_cases hid : x.orderId = orderId
  · simp only [hid, if_true]
    cases h : db.findOne orderId with
    | none =>
      have : db.saveOrder x = db := by
        unfold Db.saveOrder
        unfold Db.findOne at h
        rw [hid, updateFirst_none _ _ _ h]
      rw [this, h]
      rfl
    | some o => rw [findOne_saveOrder db orderId o x h hid]; rfl
  · simp only [hid, if_false]
    exact findOne_saveOrder_ne db orderId x hid

theorem findOne_insertOrder_none (db : Db) (orderId : String) (x : BumpOrder)
    (h : db.findOne orderId = none) :
    (db.insertOrder x).findOne orderId = if x.orderId = orderId then some x else none := by
  unfold Db.findOne Db.insertOrder
  unfold Db.findOne at h
  by_cases hid : x.orderId = orderId <;> simp [List.find?_append, h, hid]

theorem orderMove_saveOrder (db : Db) (x o : BumpOrder) (orderId : String)
    (ho : db.findOne orderId = some o)
    (hx : ∀ o1, db.findOne x.orderId = some o1 → OrderMove o1 x) :
    ∃ o', (db.saveOrder x).findOne orderId = some o' ∧ OrderMove o o' := by
  rw [findOne_saveOrder_eq]
  by_cases hid : x.orderId = orderId
  · simp only [hid, if_true, ho, Option.map_some']
    exact ⟨x, rfl, hx o (by rw [hid]; exact ho)⟩
  · simp only [hid, if_false]
    exact ⟨o, ho, Or.inl rfl⟩

theorem step_orderMove (cfg : Config) (db db' : Db) (hstep : Step cfg db db')
    (orderId : String) (o : BumpOrder) (ho : db.findOne orderId = some o) :
    ∃ o', db'.findOne orderId = some o' ∧ OrderMove o o' := by
  cases hstep with
  | create tokenAddress env =>
    rcases postBumpCreate_cases tokenAddress env db with ⟨heq, -⟩ | ⟨x, heq, -⟩
    · rw [heq]; exact ⟨o, ho, Or.inl rfl⟩
    · rw [heq]; exact ⟨o, findOne_insertOrder db orderId o x ho, Or.inl rfl⟩
  | status orderId' env => rw [getBumpStatus_db]; exact ⟨o, ho, Or.inl rfl⟩
  | start orderId' env =>
    rcases postBumpProcess_cases cfg orderId' env db with
      ⟨heq, -⟩ | ⟨order, B, b, tb, hfound, hpend, -, -, -, -, -, heq, -⟩
    · rw [heq]; exact ⟨o, ho, Or.inl rfl⟩
    · rw [heq]
      apply orderMove_saveOrder db _ o orderId ho
      intro o1 ho1
      have hid := findOne_orderId db orderId' order hfound
      have : (startedOrder order B tb).orderId = orderId' := hid
      rw [this, hfound] at ho1
      simp only [Option.some.injEq] at ho1
      subst ho1
      exact Or.inr (Or.inl ⟨hpend, B, tb, rfl⟩)
  | run orderId' env _ o1 ho1 hst =>
    have hid1 := findOne_orderId db orderId' o1 ho1
    rcases processBumpOrder_orders cfg orderId' env db with
      heq | heq | ⟨o2, c, st, ca, ho2, -, heq, -, -, hcases⟩
    · rw [heq]; exact ⟨o, ho, Or.inl rfl⟩
    · rw [heq]
      rcases updateStatus_eq db orderId' .failed with heq' | ⟨o2, ho2, heq'⟩
      · rw [heq']; exact ⟨o, ho, Or.inl rfl⟩
      · rw [heq']
        rw [ho1] at ho2
        simp only [Option.some.injEq] at ho2
        subst ho2
        apply orderMove_saveOrder db _ o orderId ho
        intro o3 ho3
        have : ({ o1 with status := OrderStatus.failed } : BumpOrder).orderId = orderId' := hid1
        rw [this, ho1] at ho3
        simp only [Option.some.injEq] at ho3
        subst ho3
        exact Or.inr (Or.inr ⟨hst, o1.currentBatch, .failed, o1.completedAt, rfl,
          Or.inr (Or.inr rfl)⟩)
    · rw [ho1] at ho2
      simp only [Option.some.injEq] at ho2
      subst ho2
      rw [findOne_congr _ _ orderId heq]
      apply orderMove_saveOrder db _ o orderId ho
      intro o3 ho3
      have : ({ withBatch o1 c with status := st, completedAt := ca } : BumpOrder).orderId =
          orderId' := hid1
      rw [this, ho1] at ho3
      simp only [Option.some.injEq] at ho3
      subst ho3
      refine Or.inr (Or.inr ⟨hst, c, st, ca, rfl, ?_⟩)
      rcases hcases with ⟨a, -⟩ | ⟨a, -⟩ | ⟨a, -⟩
      · exact Or.inr (Or.inl a)
      · exact Or.inr (Or.inr a)
      · exact Or.inl a

theorem step_new_pending (cfg : Config) (db db' : Db) (hstep : Step cfg db db')
    (orderId : String) (hnone : db.findOne orderId = none) :
    db'.findOne orderId = none ∨
      ∃ o', db'.findOne orderId = some o' ∧ o'.status = .pending ∧ o'.currentBatch = 0 ∧
        o'.totalBatches = 0 := by
  cases hstep with
  | create tokenAddress env =>
    rcases postBumpCreate_cases tokenAddress env db with ⟨heq, -⟩ | ⟨x, heq, hp, h0, h1, -⟩
    · rw [heq]; exact Or.inl hnone
    · rw [heq, findOne_insertOrder_none db orderId x hnone]
      by_cases hid : x.orderId = orderId
      · simp only [hid, if_true]
        exact Or.inr ⟨x, rfl, hp, h0, h1⟩
      · simp only [hid, if_false]
        exact Or.inl trivial
  | status orderId' env => rw [getBumpStatus_db]; exact Or.inl hnone
  | start orderId' env =>
    left
    rcases postBumpProcess_cases cfg orderId' env db with
      ⟨heq, -⟩ | ⟨order, B, b, tb, hfound, -, -, -, -, -, -, heq, -⟩
    · rw [heq]; exact hnone
    · rw [heq, findOne_saveOrder_eq]
      split
      · rw [hnone]; rfl
      · exact hnone
  | run orderId' env _ o1 ho1 hst =>
    left
    rcases processBumpOrder_orders cfg orderId' env db with
      heq | heq | ⟨o2, c, st, ca, ho2, -, heq, -⟩
    · rw [heq]; exact hnone
    · rw [heq]
      rcases updateStatus_eq db orderId' .failed with heq' | ⟨o2, ho2, heq'⟩
      · rw [heq']; exact hnone
      · rw [heq', findOne_saveOrder_eq]
        split
        · rw [hnone]; rfl
        · exact hnone
    · rw [findOne_congr _ _ orderId heq, findOne_saveOrder_eq]
      split
      · rw [hnone]; rfl
      · exact hnone

theorem orderMove_statusMove (o o' : BumpOrder) (h : OrderMove o o') :
    StatusMove o.status o'.status := by
  rcases h with rfl | ⟨hp, B, tb, rfl⟩ | ⟨hp, c, st, ca, rfl, hst⟩
  · exact Or.inl rfl
  · exact Or.inr (Or.inl ⟨hp, rfl⟩)
  · rcases hst with rfl | rfl | rfl
    · exact Or.inl hp
    · exact Or.inr (Or.inr ⟨hp, Or.inl rfl⟩)
    · exact Or.inr (Or.inr ⟨hp, Or.inr rfl⟩)

theorem steps_status (cfg : Config) (db db' : Db)
    (hsteps : Relation.ReflTransGen (Step cfg) db db') (orderId : String) (o : BumpOrder)
    (ho : db.findOne orderId = some o) :
    ∃ o', db'.findOne orderId = some o' ∧
      (o.status ≠ .pending → o'.status ≠ .pending) ∧
      (o.status = .completed → o'.status = .completed) ∧
      (o.status = .failed → o'.status = .failed) := by
  induction hsteps with
  | refl => exact ⟨o, ho, fun h => h, fun h => h, fun h => h⟩
  | tail _ hstep ih =>
    obtain ⟨o1, ho1, h1, h2, h3⟩ := ih
    obtain ⟨o2, ho2, hmove⟩ := step_orderMove cfg _ _ hstep orderId o1 ho1
    have hs := orderMove_statusMove o1 o2 hmove
    refine ⟨o2, ho2, ?_, ?_, ?_⟩
    · intro hne hp
      have hne1 := h1 hne
      rcases hs with h | ⟨h, -⟩ | ⟨-, h | h⟩
      · rw [h] at hne1; exact hne1 hp
      · exact hne1 h
      · rw [h] at hp; exact absurd hp (by decide)
      · rw [h] at hp; exact absurd hp (by decide)
    · intro hc
      have hc1 := h2 hc
      rcases hs with h | ⟨h, -⟩ | ⟨h, -⟩
      · rw [← h]; exact hc1
      · rw [hc1] at h; exact absurd h (by decide)
      · rw [hc1] at h; exact absurd h (by decide)
    · intro hf
      have hf1 := h3 hf
      rcases hs with h | ⟨h, -⟩ | ⟨h, -⟩
      · rw [← h]; exact hf1
      · rw [hf1] at h; exact absurd h (by decide)
      · rw [hf1] at h; exact absurd h (by decide)

/-- C11: over the steps of the system (create requests, status requests, process requests
and background runs, served one after the other), an order is stored by a create request as
`pending` and appears in no other way; each step leaves the status of a stored order or
moves it from `pending` to `processing`, or from `processing` to `completed` or `failed`;
hence an order that has left `pending` never returns to it, so that it enters `processing`
at most once, and an order that is `completed` or `failed` keeps that status for ever. -/
theorem status_lifecycle (cfg : Config) :
    (∀ tokenAddress env db orderId depositWallet msg,
      (postBumpCreate tokenAddress env db).response = .created orderId depositWallet msg →
      ∃ o, (postBumpCreate tokenAddress env db).db.findOne orderId = some o ∧
        o.status = .pending) ∧
    (∀ db db' orderId, Step cfg db db' → db.findOne orderId = none →
      db'.findOne orderId = none ∨
        ∃ o', db'.findOne orderId = some o' ∧ o'.status = .pending) ∧
    (∀ db db' orderId o, Step cfg db db' → db.findOne orderId = some o →
      ∃ o', db'.findOne orderId = some o' ∧ StatusMove o.status o'.status) ∧
    (∀ db db' orderId o, Relation.ReflTransGen (Step cfg) db db' →
      db.findOne orderId = some o →
      ∃ o', db'.findOne orderId = some o' ∧
        (o.status ≠ .pending → o'.status ≠ .pending) ∧
        (o.status = .completed → o'.status = .completed) ∧
        (o.status = .failed → o'.status = .failed)) ∧
    (∀ db1 db2 db3 db4 orderId o1 o2 o3 o4, Step cfg db1 db2 →
      Relation.ReflTransGen (Step cfg) db2 db3 → Step cfg db3 db4 →
      db1.findOne orderId = some o1 → db2.findOne orderId = some o2 →
      db3.findOne orderId = some o3 → db4.findOne orderId = some o4 →
      o1.status = .pending → o2.status = .processing →
      ¬ (o3.status = .pending ∧ o4.status = .processing)) := by
  refine ⟨?_, ?_, ?_, ?_, ?_⟩
  · intro tokenAddress env db orderId depositWallet msg hresp
    rcases postBumpCreate_cases tokenAddress env db with
      ⟨-, code, err, herr⟩ | ⟨o, heq, hp, -, -, hnew, msg', hcreated⟩
    · rw [herr] at hresp
      exact absurd hresp (by simp)
    · rw [hcreated] at hresp
      simp only [Response.created.injEq] at hresp
      obtain ⟨hid, -, -⟩ := hresp
      refine ⟨o, ?_, hp⟩
      rw [heq, ← hid, findOne_insertOrder_none db o.orderId o hnew]
      simp
  · intro db db' orderId hstep hnone
    rcases step_new_pending cfg db db' hstep orderId hnone with h | ⟨o', h, hp, -⟩
    · exact Or.inl h
    · exact Or.inr ⟨o', h, hp⟩
  · intro db db' orderId o hstep ho
    obtain ⟨o', ho', hmove⟩ := step_orderMove cfg db db' hstep orderId o ho
    exact ⟨o', ho', orderMove_statusMove o o' hmove⟩
  · intro db db' orderId o hsteps ho
    exact steps_status cfg db db' hsteps orderId o ho
  · intro db1 db2 db3 db4 orderId o1 o2 o3 o4 _ hsteps _ _ h2 h3 _ _ hproc hboth
    obtain ⟨o3', h3', hne, -⟩ := steps_status cfg db2 db3 hsteps orderId o2 h2
    rw [h3] at h3'
    simp only [Option.some.injEq] at h3'
    subst h3'
    exact hne (by rw [hproc]; decide) hboth.1

/-- C11 on the sample order: the process request moves it from `pending` to `processing`. -/
theorem status_lifecycle_witness :
    ∃ o', (postBumpProcess (exCfg 10000000000000000) "o1" (exBegin 20000000000000000)
        exDb).db.findOne "o1" = some o' ∧ StatusMove exOrder.status o'.status :=
  (status_lifecycle (exCfg 10000000000000000)).2.2.1 exDb _ "o1" exOrder
    (Step.start "o1" (exBegin 20000000000000000) exDb) (by decide)

/-! ## The planned fields -/

theorem orderMove_planned (o o' : BumpOrder) (h : OrderMove o o')
    (hne : o.status ≠ .pending) : planned o' = planned o := by
  rcases h with rfl | ⟨hp, -⟩ | ⟨-, c, st, ca, rfl, -⟩
  · rfl
  · exact absurd hp hne
  · rfl

theorem steps_planned (cfg : Config) (db db' : Db)
    (hsteps : Relation.ReflTransGen (Step cfg) db db') (orderId : String) (o : BumpOrder)
    (ho : db.findOne orderId = some o) (hne : o.status ≠ .pending) :
    ∃ o', db'.findOne orderId = some o' ∧ o'.status ≠ .pending ∧ planned o' = planned o := by
  induction hsteps with
  | refl => exact ⟨o, ho, hne, rfl⟩
  | tail _ hstep ih =>
    obtain ⟨o1, ho1, hne1, hp1⟩ := ih
    obtain ⟨o2, ho2, hmove⟩ := step_orderMove cfg _ _ hstep orderId o1 ho1
    refine ⟨o2, ho2, ?_, by rw [orderMove_planned o1 o2 hmove hne1, hp1]⟩
    obtain ⟨o3, ho3, h3⟩ := steps_nonPending cfg orderId _ _
      (Relation.ReflTransGen.single hstep) ⟨o1, ho1, hne1⟩
    rw [ho2] at ho3
    simp only [Option.some.injEq] at ho3
    subst ho3
    exact h3

theorem batchBody_planned (orderId : String) (depositWallet : Wallet) (bumpAmount : Int)
    (env : BatchEnv) (s : LoopState)
    (hlink : ∀ o, s.db.findOne s.order.orderId = some o → planned o = planned s.order) :
    planned (batchBody orderId depositWallet bumpAmount env s).1.order = planned s.order ∧
      (batchBody orderId depositWallet bumpAmount env s).1.order.orderId = s.order.orderId ∧
      ∀ id o, s.db.findOne id = some o →
        ∃ o', (batchBody orderId depositWallet bumpAmount env s).1.db.findOne id = some o' ∧
          planned o' = planned o := by
  rcases batchBody_cases orderId depositWallet bumpAmount env s with
    ⟨-, h1, -, h3⟩ | ⟨h1, -, h3⟩
  · refine ⟨by rw [h1], by rw [h1], ?_⟩
    intro id o ho
    exact ⟨o, by rw [findOne_congr _ s.db id h3]; exact ho, rfl⟩
  · refine ⟨by rw [h1]; rfl, by rw [h1], ?_⟩
    intro id o ho
    rcases h3 with ⟨-, h3⟩ | ⟨-, h3⟩
    · exact ⟨o, by rw [findOne_congr _ s.db id h3]; exact ho, rfl⟩
    · rw [findOne_congr _ _ id h3, findOne_saveOrder_eq]
      by_cases hid : s.order.orderId = id
      · simp only [hid, if_true, ho, Option.map_some']
        refine ⟨_, rfl, ?_⟩
        rw [hlink o (by rw [hid]; exact ho)]
        rfl
      · simp only [hid, if_false]
        exact ⟨o, ho, rfl⟩

theorem getBumpStatus_trace (orderId : String) (env : StatusEnv) (db : Db) :
    ∀ c ∈ (getBumpStatus orderId env db).trace, c.isWrite = false := by
  unfold getBumpStatus
  cases env.findOne with
  | error e => simp [Call.isWrite]
  | ok u =>
    cases db.findOne orderId with
    | none => simp [Call.isWrite]
    | some o => cases env.balance <;> simp [Call.isWrite]

theorem getBumpStatus_progress (orderId : String) (env : StatusEnv) (db : Db) :
    (getBumpStatus orderId env db).response.progress = none ∨
      ∃ o, db.findOne orderId = some o ∧
        (getBumpStatus orderId env db).response.progress =
          some (o.status, o.currentBatch, o.totalBatches) := by
  unfold getBumpStatus
  cases env.findOne with
  | error e => left; simp [Response.progress]
  | ok u =>
    cases h : db.findOne orderId with
    | none => left; simp [Response.progress]
    | some o =>
      cases env.balance with
      | error e => left; simp [Response.progress]
      | ok b => right; exact ⟨o, rfl, by simp [Response.progress]⟩

theorem getBumpStatus_ok (orderId : String) (env : StatusEnv) (db : Db) (o : BumpOrder)
    (b : Int) (hfind : env.findOne = .ok ()) (ho : db.findOne orderId = some o)
    (hbal : env.balance = .ok b) :
    (getBumpStatus orderId env db).response =
      .status o.orderId o.status o.tokenAddress o.depositWallet (formatEther b) o.totalAmount
        o.remainingAmount o.currentBatch o.totalBatches o.createdAt o.completedAt := by
  simp [getBumpStatus, hfind, ho, hbal]

theorem batchBody_link (orderId : String) (depositWallet : Wallet) (bumpAmount : Int)
    (env : BatchEnv) (s : LoopState)
    (hlink : ∀ o, s.db.findOne s.order.orderId = some o → planned o = planned s.order) :
    ∀ o, (batchBody orderId depositWallet bumpAmount env s).1.db.findOne
        (batchBody orderId depositWallet bumpAmount env s).1.order.orderId = some o →
      planned o = planned (batchBody orderId depositWallet bumpAmount env s).1.order := by
  rcases batchBody_cases orderId depositWallet bumpAmount env s with
    ⟨-, h1, -, h3⟩ | ⟨h1, -, h3⟩
  · intro o ho
    rw [h1, findOne_congr _ s.db _ h3] at ho
    rw [h1]
    exact hlink o ho
  · intro o ho
    rw [h1] at ho ⊢
    rcases h3 with ⟨-, h3⟩ | ⟨-, h3⟩
    · rw [findOne_congr _ s.db _ h3] at ho
      exact hlink o ho
    · rw [findOne_congr _ _ _ h3, findOne_saveOrder_eq] at ho
      simp only [if_true] at ho
      cases hs : s.db.findOne s.order.orderId with
      | none =>
        rw [hs] at ho
        simp at ho
      | some o1 =>
        rw [hs] at ho
        simp only [Option.map_some', Option.some.injEq] at ho
        rw [← ho]

theorem processFinish_planned (orderId : String) (env : ProcessEnv) (s : LoopState)
    (hlink : ∀ o, s.db.findOne s.order.orderId = some o → planned o = planned s.order)
    (id : String) (o : BumpOrder) (ho : s.db.findOne id = some o) :
    ∃ o', (processFinish orderId env s).db.findOne id = some o' ∧ planned o' = planned o := by
  unfold processFinish
  cases env.finalSave with
  | ok u =>
    simp only
    rw [findOne_saveOrder_eq]
    by_cases hid : s.order.orderId = id
    · simp only [hid, if_true, ho, Option.map_some']
      refine ⟨_, rfl, ?_⟩
      rw [hlink o (by rw [hid]; exact ho)]
      rfl
    · simp only [hid, if_false]
      exact ⟨o, ho, rfl⟩
  | error e =>
    simp only [processCatch]
    cases env.updateOne with
    | error e' => exact ⟨o, ho, rfl⟩
    | ok u =>
      simp only
      rcases updateStatus_eq s.db orderId .failed with heq | ⟨o2, ho2, heq⟩
      · rw [heq]; exact ⟨o, ho, rfl⟩
      · rw [heq, findOne_saveOrder_eq]
        have hid2 := findOne_orderId s.db orderId o2 ho2
        by_cases hid : o2.orderId = id
        · simp only [hid, if_true, ho, Option.map_some']
          refine ⟨_, rfl, ?_⟩
          rw [hid2] at hid
          rw [hid, ho] at ho2
          simp only [Option.some.injEq] at ho2
          rw [ho2]
          rfl
        · simp only [hid, if_false]
          exact ⟨o, ho, rfl⟩

/-- C12: once a process request has stored them, the planned fields of the order
(`totalAmount`, `remainingAmount`, `totalBatches`) stay as stored whatever steps the system
takes afterwards; an iteration of the loop and the statements after the loop leave them alone
on the order document and on every stored order; a status request leaves the store as it is
and issues no write, and two status requests in a row that both answer give the same status,
`currentBatch` and `totalBatches`. -/
theorem planned_fields_frozen (cfg : Config) :
    (∀ orderId env db msg totalBatches estimatedBumps,
      (postBumpProcess cfg orderId env db).response =
        .started msg orderId totalBatches estimatedBumps →
      ∃ o, (postBumpProcess cfg orderId env db).db.findOne orderId = some o ∧
        o.totalBatches = totalBatches ∧
        ∀ db2, Relation.ReflTransGen (Step cfg) (postBumpProcess cfg orderId env db).db db2 →
          ∃ o2, db2.findOne orderId = some o2 ∧ o2.totalAmount = o.totalAmount ∧
            o2.remainingAmount = o.remainingAmount ∧ o2.totalBatches = o.totalBatches) ∧
    (∀ orderId depositWallet bumpAmount env s,
      (∀ o, s.db.findOne s.order.orderId = some o → planned o = planned s.order) →
      planned (batchBody orderId depositWallet bumpAmount env s).1.order = planned s.order ∧
        (∀ id o, s.db.findOne id = some o →
          ∃ o', (batchBody orderId depositWallet bumpAmount env s).1.db.findOne id = some o' ∧
            planned o' = planned o) ∧
        ∀ o, (batchBody orderId depositWallet bumpAmount env s).1.db.findOne
            (batchBody orderId depositWallet bumpAmount env s).1.order.orderId = some o →
          planned o = planned (batchBody orderId depositWallet bumpAmount env s).1.order) ∧
    (∀ orderId env s,
      (∀ o, s.db.findOne s.order.orderId = some o → planned o = planned s.order) →
      ∀ id o, s.db.findOne id = some o →
        ∃ o', (processFinish orderId env s).db.findOne id = some o' ∧
          planned o' = planned o) ∧
    (∀ orderId env db, (getBumpStatus orderId env db).db = db ∧
      ∀ c ∈ (getBumpStatus orderId env db).trace, c.isWrite = false) ∧
    (∀ orderId env1 env2 db p1 p2,
      (getBumpStatus orderId env1 db).response.progress = some p1 →
      (getBumpStatus orderId env2 (getBumpStatus orderId env1 db).db).response.progress =
        some p2 →
      p1 = p2) := by
  refine ⟨?_, ?_, ?_, ?_, ?_⟩
  · intro orderId env db msg totalBatches estimatedBumps hstarted
    rcases postBumpProcess_cases cfg orderId env db with
      ⟨-, ⟨code, err, herr⟩, -⟩ | ⟨o, B, b, tb, ho, -, -, -, -, -, -, heq, hresp⟩
    · rw [herr] at hstarted
      exact absurd hstarted (by simp)
    · rw [hresp] at hstarted
      simp only [Response.started.injEq] at hstarted
      obtain ⟨-, -, htb, -⟩ := hstarted
      have hfound : (postBumpProcess cfg orderId env db).db.findOne orderId =
          some (startedOrder o B tb) := by
        rw [heq]
        exact findOne_saveOrder db orderId o _ ho (findOne_orderId db orderId o ho)
      refine ⟨startedOrder o B tb, hfound, htb, ?_⟩
      intro db2 hsteps
      obtain ⟨o2, ho2, -, hp⟩ := steps_planned cfg _ db2 hsteps orderId _ hfound
        (by simp [startedOrder])
      simp only [planned, Prod.mk.injEq] at hp
      exact ⟨o2, ho2, hp.1, hp.2.1, hp.2.2⟩
  · intro orderId depositWallet bumpAmount env s hlink
    have h := batchBody_planned orderId depositWallet bumpAmount env s hlink
    exact ⟨h.1, h.2.2, batchBody_link orderId depositWallet bumpAmount env s hlink⟩
  · intro orderId env s hlink id o ho
    exact processFinish_planned orderId env s hlink id o ho
  · intro orderId env db
    exact ⟨getBumpStatus_db orderId env db, getBumpStatus_trace orderId env db⟩
  · intro orderId env1 env2 db p1 p2 h1 h2
    rw [getBumpStatus_db] at h2
    rcases getBumpStatus_progress orderId env1 db with h | ⟨o, ho, h⟩
    · rw [h] at h1
      exact absurd h1 (by simp)
    · rcases getBumpStatus_progress orderId env2 db with h' | ⟨o', ho', h'⟩
      · rw [h'] at h2
        exact absurd h2 (by simp)
      · rw [ho] at ho'
        simp only [Option.some.injEq] at ho'
        subst ho'
        rw [h] at h1
        rw [h'] at h2
        simp only [Option.some.injEq] at h1 h2
        rw [← h1, ← h2]

/-- C12 on the started sample order: two status requests in a row, the balance read giving
0.011 ETH to the first and 0.005 ETH to the second, answer with the same progress. -/
theorem planned_fields_frozen_witness :
    (getBumpStatus "o1" ⟨.ok (), .ok 11000000000000000⟩ exDbProcessing).response.progress =
        some (.processing, 0, 1) ∧
      (getBumpStatus "o1" ⟨.ok (), .ok 5000000000000000⟩
        (getBumpStatus "o1" ⟨.ok (), .ok 11000000000000000⟩
          exDbProcessing).db).response.progress = some (.processing, 0, 1) := by
  have h1 : (getBumpStatus "o1" ⟨.ok (), .ok 11000000000000000⟩
      exDbProcessing).response.progress = some (.processing, 0, 1) := by decide
  have h2 : (getBumpStatus "o1" ⟨.ok (), .ok 5000000000000000⟩
      (getBumpStatus "o1" ⟨.ok (), .ok 11000000000000000⟩
        exDbProcessing).db).response.progress =
      some ((getBumpStatus "o1" ⟨.ok (), .ok 5000000000000000⟩
        exDbProcessing).response.progress.getD (.pending, 0, 0)) := by decide
  refine ⟨h1, ?_⟩
  rw [h2, ← (planned_fields_frozen (exCfg 10000000000000000)).2.2.2.2 "o1"
    ⟨.ok (), .ok 11000000000000000⟩ ⟨.ok (), .ok 5000000000000000⟩ exDbProcessing _ _ h1 h2]

/-! ## How a run ends -/

theorem updateStatus_found (db : Db) (orderId : String) (o : BumpOrder) (st : OrderStatus)
    (ho : db.findOne orderId = some o) :
    db.updateStatus orderId st = db.saveOrder { o with status := st } := by
  have hid := findOne_orderId db orderId o ho
  have h1 := saveOrder_updateStatus db o st
  rw [saveOrder_self db orderId o ho] at h1
  rw [← hid]
  exact h1

theorem findOne_updateStatus_self (db : Db) (orderId : String) (o : BumpOrder)
    (st : OrderStatus) (ho : db.findOne orderId = some o) :
    (db.updateStatus orderId st).findOne orderId = some { o with status := st } := by
  rw [updateStatus_found db orderId o st ho]
  exact findOne_saveOrder db orderId o _ ho (findOne_orderId db orderId o ho)

theorem loopInv_stored (o : BumpOrder) (db : Db) (orderId : String) (s : LoopState)
    (ho : db.findOne orderId = some o) (hinv : LoopInv o db s) :
    s.order.orderId = orderId ∧ s.order.status = o.status ∧
      s.order.currentBatch = s.currentBatch ∧ s.order.totalBatches = o.totalBatches ∧
      ∃ c, s.db.findOne orderId = some (withBatch o c) ∧ o.currentBatch ≤ c ∧
        c ≤ s.currentBatch := by
  obtain ⟨hord, -, -, c, hc1, hc2, hdb⟩ := hinv
  have hid := findOne_orderId db orderId o ho
  refine ⟨by rw [hord]; exact hid, by rw [hord]; rfl, by rw [hord]; rfl, by rw [hord]; rfl,
    c, ?_, hc1, hc2⟩
  rw [findOne_congr _ _ orderId hdb]
  exact findOne_saveOrder db orderId o _ ho hid

/-- How a run on an order stored as `processing` ends: with the order `failed` when an
exception was raised outside the loop body and the write of the `catch` block succeeded, left
`processing` with the promise rejected when that write threw too, and `completed` with the
completion date when no exception was raised outside the loop body. -/
theorem processBumpOrder_terminal (cfg : Config) (orderId : String) (env : ProcessEnv)
    (db : Db) (o : BumpOrder) (ho : db.findOne orderId = some o)
    (hst : o.status = .processing) :
    ∃ o', (processBumpOrder cfg orderId env db).db.findOne orderId = some o' ∧
      (OutsideFailure cfg env → env.updateOne = .ok () → o'.status = .failed) ∧
      (OutsideFailure cfg env → ∀ e, env.updateOne = .error e →
        o'.status = .processing ∧ (processBumpOrder cfg orderId env db).rejection = some e) ∧
      (¬ OutsideFailure cfg env → o'.status = .completed ∧ o'.completedAt = some env.now ∧
        (processBumpOrder cfg orderId env db).rejection = none) := by
  have hcatch : ∀ (db' : Db) (x : BumpOrder) (trace : List Call),
      db'.findOne orderId = some x → x.status = .processing →
      ∃ o', (processCatch orderId env db' trace).db.findOne orderId = some o' ∧
      (env.updateOne = .ok () → o'.status = .failed) ∧
      (∀ e, env.updateOne = .error e →
        o'.status = .processing ∧ (processCatch orderId env db' trace).rejection = some e) := by
    intro db' x trace hx hxs
    unfold processCatch
    cases hupd : env.updateOne with
    | error e' =>
      refine ⟨x, hx, fun h => by simp at h, ?_⟩
      intro e he
      simp only [Except.error.injEq] at he
      subst he
      exact ⟨hxs, rfl⟩
    | ok u =>
      exact ⟨_, findOne_updateStatus_self db' orderId x .failed hx, fun _ => rfl,
        fun e he => by simp at he⟩
  unfold processBumpOrder
  cases hfind : env.findOne with
  | error e =>
    obtain ⟨o', h1, h2, h3⟩ := hcatch db o [.findOne orderId] ho hst
    refine ⟨o', h1, fun _ => h2, fun _ => h3, ?_⟩
    intro hno
    exact absurd (Or.inl ⟨e, hfind⟩) hno
  | ok u =>
    simp only [ho, hst, ne_eq, not_true_eq_false, if_false]
    cases hcfg : cfg.bumpAmount with
    | error e =>
      obtain ⟨o', h1, h2, h3⟩ := hcatch db o [.findOne orderId] ho hst
      refine ⟨o', h1, fun _ => h2, fun _ => h3, ?_⟩
      intro hno
      exact absurd (Or.inr (Or.inl ⟨e, hcfg⟩)) hno
    | ok bumpAmount =>
      simp only
      have hinv := loopInv_batchLoop o db orderId ⟨o.depositWallet, o.privateKey⟩
        bumpAmount env.batches 0 _ (loopInv_init db orderId o ho [.findOne orderId])
      generalize batchLoop orderId ⟨o.depositWallet, o.privateKey⟩ bumpAmount env.batches 0
        { order := o, currentBatch := o.currentBatch, db := db, trace := [.findOne orderId] } =
        s at hinv ⊢
      obtain ⟨hsid, -, -, -, c, hstored, -, -⟩ := loopInv_stored o db orderId s ho hinv
      unfold processFinish
      cases hsave : env.finalSave with
      | error e =>
        simp only
        obtain ⟨o', h1, h2, h3⟩ := hcatch s.db (withBatch o c)
          (s.trace ++ [.saveOrder (finishedOrder s.order env.now)]) hstored hst
        refine ⟨o', h1, fun _ => h2, fun _ => h3, ?_⟩
        intro hno
        exact absurd (Or.inr (Or.inr ⟨e, hsave⟩)) hno
      | ok u' =>
        simp only
        refine ⟨_, findOne_saveOrder s.db orderId _ _ hstored hsid, ?_, ?_,
          fun _ => by simp⟩
        · intro hout
          rcases hout with ⟨e, he⟩ | ⟨e, he⟩ | ⟨e, he⟩
          · rw [hfind] at he; simp at he
          · rw [hcfg] at he; simp at he
          · rw [hsave] at he; simp at he
        · intro hout
          rcases hout with ⟨e, he⟩ | ⟨e, he⟩ | ⟨e, he⟩
          · rw [hfind] at he; simp at he
          · rw [hcfg] at he; simp at he
          · rw [hsave] at he; simp at he

/-- An iteration goes on to the next one only when none of its calls threw and the balance
sufficed. -/
theorem batchBody_true (orderId : String) (depositWallet : Wallet) (bumpAmount : Int)
    (env : BatchEnv) (s : LoopState)
    (h : (batchBody orderId depositWallet bumpAmount env s).2 = true) :
    ∃ B tx, env.balance = .ok B ∧ bumpAmount * batchSize + gasBuffer * batchSize ≤ B ∧
      env.saveCreated = .ok () ∧
      (fundWalletsWithDisperser depositWallet (generateWalletBatch batchSize env.createRandom)
        bumpAmount gasBuffer env.fund).2 = .ok tx ∧
      env.saveFunded = .ok () ∧ env.saveCompleted = .ok () ∧ env.saveOrder = .ok () := by
  cases hbal : env.balance with
  | error e => rw [batchBody_balance_error _ _ _ _ _ e hbal] at h; simp at h
  | ok B =>
    by_cases hlow : B < bumpAmount * batchSize + gasBuffer * batchSize
    · rw [batchBody_insufficient _ _ _ _ _ B hbal hlow] at h; simp at h
    · have henough := not_lt.mp hlow
      cases hcreated : env.saveCreated with
      | error e =>
        rw [batchBody_saveCreated_error _ _ _ _ _ B e hbal henough hcreated] at h; simp at h
      | ok u =>
        cases hfund : fundWalletsWithDisperser depositWallet
          (generateWalletBatch batchSize env.createRandom) bumpAmount gasBuffer env.fund with
        | mk calls res =>
          cases res with
          | error e =>
            rw [batchBody_fund_error _ _ _ _ _ B e calls hbal henough hcreated hfund] at h
            simp at h
          | ok tx =>
            cases hfunded : env.saveFunded with
            | error e =>
              rw [batchBody_saveFunded_error _ _ _ _ _ B e tx calls hbal henough hcreated hfund
                hfunded] at h
              simp at h
            | ok u =>
              cases hcompleted : env.saveCompleted with
              | error e =>
                rw [batchBody_saveCompleted_error _ _ _ _ _ B e tx calls hbal henough hcreated
                  hfund hfunded hcompleted] at h
                simp at h
              | ok u =>
                rw [batchBody_swapped _ _ _ _ _ B tx calls hbal henough hcreated hfund hfunded
                  hcompleted] at h
                cases hso : env.saveOrder with
                | error e => rw [hso] at h; simp at h
                | ok u => exact ⟨B, tx, rfl, henough, rfl, rfl, rfl, rfl, rfl⟩

/-- C13, the claim as stated fails: in a run on the started sample order in which the read of
the order throws, an exception raised outside the loop body, and the write of the `catch`
block throws too, the order is not stored as `failed`: it stays `processing`, and the promise
of the run is rejected. -/
theorem failure_unrecorded_when_catch_write_throws :
    exDbProcessing.findOne "o1" = some exProcessing ∧
      exProcessing.status = .processing ∧
      exProcessDown.findOne = .error "store down" ∧
      (processBumpOrder (exCfg 10000000000000000) "o1" exProcessDown
        exDbProcessing).db.findOne "o1" = some exProcessing ∧
      (processBumpOrder (exCfg 10000000000000000) "o1" exProcessDown
        exDbProcessing).rejection = some "store down" := by
  refine ⟨by decide, by decide, rfl, by decide, by decide⟩

/-- C13, amended: when the write of the `catch` block succeeds, a run on an order stored as
`processing` ends with the order stored as `failed` if and only if an exception was raised
outside the loop body (by the read of the order, by the set-up, or by the final write), and
ends with it stored as `completed` otherwise, whatever happens in the iterations. An
iteration in which any call throws ends by `break`, and the loop stops there with the state
that iteration left. -/
theorem failed_iff_outside_failure (cfg : Config) (orderId : String) (env : ProcessEnv)
    (db : Db) (o : BumpOrder) (ho : db.findOne orderId = some o)
    (hst : o.status = .processing) (hupd : env.updateOne = .ok ()) :
    (∃ o', (processBumpOrder cfg orderId env db).db.findOne orderId = some o' ∧
      (o'.status = .failed ↔ OutsideFailure cfg env) ∧
      (o'.status = .completed ↔ ¬ OutsideFailure cfg env)) ∧
    (∀ orderId' depositWallet bumpAmount benv s,
      (batchBody orderId' depositWallet bumpAmount benv s).2 = true →
      ∃ B tx, benv.balance = .ok B ∧ bumpAmount * batchSize + gasBuffer * batchSize ≤ B ∧
        benv.saveCreated = .ok () ∧
        (fundWalletsWithDisperser depositWallet
          (generateWalletBatch batchSize benv.createRandom) bumpAmount gasBuffer
          benv.fund).2 = .ok tx ∧
        benv.saveFunded = .ok () ∧ benv.saveCompleted = .ok () ∧ benv.saveOrder = .ok ()) ∧
    (∀ orderId' depositWallet bumpAmount envs iter s,
      s.currentBatch < s.order.totalBatches →
      (batchBody orderId' depositWallet bumpAmount (envs iter) s).2 = false →
      batchLoop orderId' depositWallet bumpAmount envs iter s =
        (batchBody orderId' depositWallet bumpAmount (envs iter) s).1) := by
  refine ⟨?_, ?_, ?_⟩
  · obtain ⟨o', h1, h2, -, h4⟩ := processBumpOrder_terminal cfg orderId env db o ho hst
    refine ⟨o', h1, ?_, ?_⟩
    · constructor
      · intro hf
        by_contra hno
        have := (h4 hno).1
        rw [this] at hf
        exact absurd hf (by decide)
      · intro hout
        exact h2 hout hupd
    · constructor
      · intro hc hout
        have := h2 hout hupd
        rw [this] at hc
        exact absurd hc (by decide)
      · intro hno
        exact (h4 hno).1
  · intro orderId' depositWallet bumpAmount benv s h
    exact batchBody_true orderId' depositWallet bumpAmount benv s h
  · intro orderId' depositWallet bumpAmount envs iter s hloop hflag
    exact batchLoop_break orderId' depositWallet bumpAmount envs iter s _ hloop
      (Prod.ext rfl hflag)

/-- C13, amended, on the started sample order: the read of the order throws, the write of the
`catch` block succeeds, the order ends `failed`. -/
theorem failed_iff_outside_failure_witness :
    ((processBumpOrder (exCfg 10000000000000000) "o1"
        { exProcessDown with updateOne := .ok () } exDbProcessing).db.findOne "o1").map
      (fun o => o.status) = some .failed := by
  obtain ⟨⟨o', h1, h2, -⟩, -⟩ := failed_iff_outside_failure (exCfg 10000000000000000) "o1"
    { exProcessDown with updateOne := .ok () } exDbProcessing exProcessing (by decide)
    (by decide) rfl
  rw [h1, Option.map_some', h2.mpr (Or.inl ⟨"store down", rfl⟩)]

theorem processBumpOrder_sample (bumpAmount : Int) (env : ProcessEnv)
    (hfind : env.findOne = .ok ()) :
    processBumpOrder (exCfg bumpAmount) "o1" env exDbProcessing =
      processFinish "o1" env (batchLoop "o1" exDeposit bumpAmount env.batches 0 exLoopState) := by
  have ho : exDbProcessing.findOne "o1" = some exProcessing := by decide
  have hst : exProcessing.status = .processing := rfl
  simp only [processBumpOrder, hfind, ho, hst, ne_eq, not_true_eq_false, if_false, exCfg]
  rfl

/-- C14, the claim as stated fails: in a run on the started sample order whose first
iteration completes its batch and then fails to write the incremented counter, a write of
the order's state has failed, yet the loop only stops and the final write stores the order as
`completed` (with the incremented counter), not as `failed`. -/
theorem counter_write_failure_ends_completed :
    ((exProcess fun _ => exBatchCounterWriteFails 60000000000000000).batches 0).saveOrder =
        .error "write failed" ∧
      (processBumpOrder (exCfg 10000000000000000) "o1"
        (exProcess fun _ => exBatchCounterWriteFails 60000000000000000)
        exDbProcessing).db.findOne "o1" =
        some { exProcessing with
          status := .completed, completedAt := some 77, currentBatch := 1 } := by
  refine ⟨rfl, ?_⟩
  rw [processBumpOrder_sample _ _ rfl]
  have hflag : (batchBody "o1" exDeposit 10000000000000000
      (exBatchCounterWriteFails 60000000000000000) exLoopState).2 = false := by decide
  rw [batchLoop_break "o1" exDeposit 10000000000000000 _ 0 exLoopState
    (batchBody "o1" exDeposit 10000000000000000
      (exBatchCounterWriteFails 60000000000000000) exLoopState).1 (by decide)
    (Prod.ext rfl hflag)]
  decide

theorem batchBody_stored (orderId : String) (depositWallet : Wallet) (bumpAmount : Int)
    (env : BatchEnv) (s : LoopState) (stored : BumpOrder)
    (hid : s.order.orderId = orderId) (hstored : s.db.findOne orderId = some stored) :
    (batchBody orderId depositWallet bumpAmount env s).1.order.orderId = orderId ∧
      ∃ x, (batchBody orderId depositWallet bumpAmount env s).1.db.findOne orderId = some x := by
  rcases batchBody_cases orderId depositWallet bumpAmount env s with
    ⟨-, h1, -, h3⟩ | ⟨h1, -, h3⟩
  · exact ⟨by rw [h1]; exact hid, stored, by rw [findOne_congr _ s.db _ h3]; exact hstored⟩
  · refine ⟨by rw [h1]; exact hid, ?_⟩
    rcases h3 with ⟨-, h3⟩ | ⟨-, h3⟩
    · exact ⟨stored, by rw [findOne_congr _ s.db _ h3]; exact hstored⟩
    · exact ⟨_, by
        rw [findOne_congr _ _ _ h3]
        exact findOne_saveOrder s.db orderId stored _ hstored hid⟩

/-- C14, amended: in an iteration of the loop, on an order document stored under `orderId`,
a write that throws (of the wallet batch in any of its statuses, or of the incremented
counter) ends the iteration by `break`; the loop stops there and, the final write succeeding,
the order is stored as `completed`; when it is the write of the incremented counter that
threw, the final write stores the incremented counter as well. A persistence failure
surfaces as `failed` when it is the final write that throws and the write of the `catch`
block succeeds. -/
theorem persistence_failure_status (orderId : String) (depositWallet : Wallet)
    (bumpAmount : Int) (envs : Nat → BatchEnv) (iter : Nat) (s : LoopState)
    (penv : ProcessEnv) (stored : BumpOrder)
    (hloop : s.currentBatch < s.order.totalBatches)
    (hid : s.order.orderId = orderId) (hstored : s.db.findOne orderId = some stored) :
    (((∃ e, (envs iter).saveCreated = .error e) ∨ (∃ e, (envs iter).saveFunded = .error e) ∨
        (∃ e, (envs iter).saveCompleted = .error e) ∨
        (∃ e, (envs iter).saveOrder = .error e)) →
      (batchBody orderId depositWallet bumpAmount (envs iter) s).2 = false) ∧
    ((batchBody orderId depositWallet bumpAmount (envs iter) s).2 = false →
      batchLoop orderId depositWallet bumpAmount envs iter s =
          (batchBody orderId depositWallet bumpAmount (envs iter) s).1 ∧
        (penv.finalSave = .ok () →
          (processFinish orderId penv
              (batchLoop orderId depositWallet bumpAmount envs iter s)).db.findOne orderId =
            some (finishedOrder
              (batchBody orderId depositWallet bumpAmount (envs iter) s).1.order penv.now) ∧
          (finishedOrder (batchBody orderId depositWallet bumpAmount (envs iter) s).1.order
            penv.now).status = .completed)) ∧
    (∀ B tx e, (envs iter).balance = .ok B →
      bumpAmount * batchSize + gasBuffer * batchSize ≤ B →
      (envs iter).saveCreated = .ok () →
      (fundWalletsWithDisperser depositWallet
        (generateWalletBatch batchSize (envs iter).createRandom) bumpAmount gasBuffer
        (envs iter).fund).2 = .ok tx →
      (envs iter).saveFunded = .ok () → (envs iter).saveCompleted = .ok () →
      (envs iter).saveOrder = .error e → penv.finalSave = .ok () →
      (processFinish orderId penv
          (batchLoop orderId depositWallet bumpAmount envs iter s)).db.findOne orderId =
        some (finishedOrder (withBatch s.order (s.currentBatch + 1)) penv.now)) ∧
    (∀ (s' : LoopState) (stored' : BumpOrder) (e : String),
      s'.db.findOne orderId = some stored' → penv.finalSave = .error e →
      penv.updateOne = .ok () →
      (processFinish orderId penv s').db.findOne orderId =
        some { stored' with status := .failed }) := by
  have hbreak : (batchBody orderId depositWallet bumpAmount (envs iter) s).2 = false →
      batchLoop orderId depositWallet bumpAmount envs iter s =
          (batchBody orderId depositWallet bumpAmount (envs iter) s).1 ∧
        (penv.finalSave = .ok () →
          (processFinish orderId penv
              (batchLoop orderId depositWallet bumpAmount envs iter s)).db.findOne orderId =
            some (finishedOrder
              (batchBody orderId depositWallet bumpAmount (envs iter) s).1.order penv.now) ∧
          (finishedOrder (batchBody orderId depositWallet bumpAmount (envs iter) s).1.order
            penv.now).status = .completed) := by
    intro hflag
    have hl := batchLoop_break orderId depositWallet bumpAmount envs iter s _ hloop
      (Prod.ext rfl hflag)
    refine ⟨hl, ?_⟩
    intro hfinal
    obtain ⟨hid', x, hx⟩ := batchBody_stored orderId depositWallet bumpAmount (envs iter) s
      stored hid hstored
    rw [hl, processFinish_ok orderId penv _ hfinal]
    exact ⟨findOne_saveOrder _ orderId x _ hx hid', rfl⟩
  have hwrite : ((∃ e, (envs iter).saveCreated = .error e) ∨
      (∃ e, (envs iter).saveFunded = .error e) ∨
      (∃ e, (envs iter).saveCompleted = .error e) ∨
      (∃ e, (envs iter).saveOrder = .error e)) →
      (batchBody orderId depositWallet bumpAmount (envs iter) s).2 = false := by
    intro hfail
    by_contra hne
    have htrue : (batchBody orderId depositWallet bumpAmount (envs iter) s).2 = true := by
      simpa using hne
    obtain ⟨B, tx, -, -, h1, -, h2, h3, h4⟩ :=
      batchBody_true orderId depositWallet bumpAmount (envs iter) s htrue
    rcases hfail with ⟨e, he⟩ | ⟨e, he⟩ | ⟨e, he⟩ | ⟨e, he⟩
    · rw [h1] at he; simp at he
    · rw [h2] at he; simp at he
    · rw [h3] at he; simp at he
    · rw [h4] at he; simp at he
  refine ⟨hwrite, hbreak, ?_, ?_⟩
  · intro B tx e hbal henough hcreated hfund hfunded hcompleted hso hfinal
    have hflag := hwrite (Or.inr (Or.inr (Or.inr ⟨e, hso⟩)))
    obtain ⟨-, hfin⟩ := hbreak hflag
    rw [(hfin hfinal).1]
    cases hf : fundWalletsWithDisperser depositWallet
      (generateWalletBatch batchSize (envs iter).createRandom) bumpAmount gasBuffer
      (envs iter).fund with
    | mk calls res =>
      rw [hf] at hfund
      simp only at hfund
      subst hfund
      rw [batchBody_swapped _ _ _ _ _ B tx calls hbal henough hcreated hf hfunded hcompleted,
        hso]
      rfl
  · intro s' stored' e hs' hfinal hupd
    simp only [processFinish, hfinal, processCatch, hupd]
    exact findOne_updateStatus_self s'.db orderId stored' .failed hs'

/-- C14, amended, on the started sample order: the write of the incremented counter throws
in the first iteration, and the final write stores the order `completed` at counter 1. -/
theorem persistence_failure_status_witness :
    (processFinish "o1" (exProcess fun _ => exBatchCounterWriteFails 60000000000000000)
        (batchLoop "o1" exDeposit 10000000000000000
          (fun _ => exBatchCounterWriteFails 60000000000000000) 0
          exLoopState)).db.findOne "o1" =
      some { exProcessing with
        status := .completed, completedAt := some 77, currentBatch := 1 } :=
  (persistence_failure_status "o1" exDeposit 10000000000000000
    (fun _ => exBatchCounterWriteFails 60000000000000000) 0 exLoopState
    (exProcess fun _ => exBatchCounterWriteFails 60000000000000000) exProcessing
    (by decide) rfl (by decide)).2.2.1 60000000000000000 "0xfund" "write failed" rfl
    (by decide) rfl rfl rfl rfl rfl rfl

/-! ## Two process requests on one order -/

theorem postBumpProcess_eq_plan (cfg : Config) (orderId : String) (env : BeginEnv) (db : Db) :
    postBumpProcess cfg orderId env db =
      (postBumpProcessPlan cfg orderId env (db.findOne orderId)).commit db := by
  unfold postBumpProcess postBumpProcessPlan
  cases env.findOne with
  | error e => rfl
  | ok u =>
    cases db.findOne orderId with
    | none => rfl
    | some order =>
      by_cases hst : order.status = .pending
      · cases env.balance with
        | error e => simp [hst, BeginPlan.commit]
        | ok B =>
          by_cases hlt : B < minBalance
          · simp [hst, hlt, BeginPlan.commit]
          · by_cases h2 : B - treasuryFee ≤ 0
            · simp [hst, hlt, h2, BeginPlan.commit]
            · simp only [hst, hlt, h2, ne_eq, not_true_eq_false, if_false]
              cases sendEthToWallet ⟨order.depositWallet, order.privateKey⟩
                cfg.treasuryAddress treasuryFee env.transfer with
              | mk calls res =>
                cases res with
                | error e => rfl
                | ok tx =>
                  cases cfg.bumpAmount with
                  | error e => rfl
                  | ok b =>
                    simp only
                    cases (bnDiv (B - treasuryFee) b).bind toNumber with
                    | error e => rfl
                    | ok totalBumps =>
                      simp only
                      cases env.save <;> rfl
      · simp [hst, BeginPlan.commit]

/-- C15, the claim as stated fails: two process requests on the pending sample order, the
second reading the order before the first has stored it (deposit 0.419 ETH, then 0.409 ETH
once the first fee is paid), both succeed: two fee transfers are sent and two background runs
are started; no request is rejected. -/
theorem concurrent_begin_both_succeed :
    (postBumpProcessRace (exCfg 20000000000000000) "o1" (exBegin 419000000000000000)
        (exBegin 409000000000000000) exDb).1.response =
      .started "Bump order processing started" "o1" 4 20 ∧
    (postBumpProcessRace (exCfg 20000000000000000) "o1" (exBegin 419000000000000000)
        (exBegin 409000000000000000) exDb).2.response =
      .started "Bump order processing started" "o1" 4 20 ∧
    (((postBumpProcessRace (exCfg 20000000000000000) "o1" (exBegin 419000000000000000)
          (exBegin 409000000000000000) exDb).1.trace ++
        (postBumpProcessRace (exCfg 20000000000000000) "o1" (exBegin 419000000000000000)
          (exBegin 409000000000000000) exDb).2.trace).filter Call.isTransfer).length = 2 ∧
    (((postBumpProcessRace (exCfg 20000000000000000) "o1" (exBegin 419000000000000000)
          (exBegin 409000000000000000) exDb).1.trace ++
        (postBumpProcessRace (exCfg 20000000000000000) "o1" (exBegin 419000000000000000)
          (exBegin 409000000000000000) exDb).2.trace).filter Call.isProcessStart).length =
      2 := by
  decide

/-- C15, amended: for a pending order with sufficient balance on which a process request
succeeds, a second process request that reads the order after the first has stored it is
answered 400 "Order is not in pending status" without any call but the read of the order, so
that one fee transfer is sent and one background run started in all. The handler holds no
lock: in the interleaving in which the second request reads the order before the first
stores it, the first request runs as it does alone and the second answers and issues the
calls it would on the store as it was before the first. -/
theorem begin_twice_one_succeeds (cfg : Config) (orderId : String) (envA envB : BeginEnv)
    (db : Db) (order : BumpOrder) (B b gasPrice : Int) (tx : String)
    (hfind : envA.findOne = .ok ()) (horder : db.findOne orderId = some order)
    (hpending : order.status = .pending)
    (hbal : envA.balance = .ok B) (hmin : minBalance ≤ B)
    (hgas : envA.transfer.gasPrice = .ok gasPrice)
    (hsend : envA.transfer.sendTransaction = .ok tx) (hwait : envA.transfer.wait = .ok ())
    (hcfg : cfg.bumpAmount = .ok b) (hb : 0 < b) (hfit : (B - treasuryFee) / b < 2 ^ 53)
    (hsave : envA.save = .ok ()) (hfindB : envB.findOne = .ok ()) :
    (postBumpProcess cfg orderId envA db).response =
      .started "Bump order processing started" orderId
        (mathCeilDiv ((B - treasuryFee) / b) batchSize) ((B - treasuryFee) / b) ∧
    (postBumpProcess cfg orderId envB (postBumpProcess cfg orderId envA db).db).response =
      .error 400 "Order is not in pending status" ∧
    (postBumpProcess cfg orderId envB (postBumpProcess cfg orderId envA db).db).trace =
      [.findOne orderId] ∧
    (((postBumpProcess cfg orderId envA db).trace ++
        (postBumpProcess cfg orderId envB (postBumpProcess cfg orderId envA db).db).trace).filter
      Call.isTransfer).length = 1 ∧
    (((postBumpProcess cfg orderId envA db).trace ++
        (postBumpProcess cfg orderId envB (postBumpProcess cfg orderId envA db).db).trace).filter
      Call.isProcessStart).length = 1 ∧
    (postBumpProcessRace cfg orderId envA envB db).1 = postBumpProcess cfg orderId envA db ∧
    (postBumpProcessRace cfg orderId envA envB db).2.response =
      (postBumpProcess cfg orderId envB db).response ∧
    (postBumpProcessRace cfg orderId envA envB db).2.trace =
      (postBumpProcess cfg orderId envB db).trace := by
  have hrem := remaining_pos B hmin
  have hplan := plan_bumps (B - treasuryFee) b (by omega) hb hfit
  have hrun := postBumpProcess_started cfg orderId envA db order B b gasPrice
    ((B - treasuryFee) / b) tx hfind horder hpending hbal hmin hgas hsend hwait hcfg hplan hsave
  have hnp : NonPending orderId (postBumpProcess cfg orderId envA db).db := by
    rw [hrun]
    exact ⟨_, findOne_saveOrder db orderId order _ horder (findOne_orderId db orderId order horder),
      by simp [startedOrder]⟩
  have hB := postBumpProcess_nonPending cfg orderId envB _ hnp
  rw [hfindB] at hB
  refine ⟨by rw [hrun], by rw [hB], by rw [hB], ?_, ?_, ?_, ?_, ?_⟩
  · rw [hB, hrun]
    simp [List.filter_cons, Call.isTransfer]
  · rw [hB, hrun]
    simp [List.filter_cons, Call.isProcessStart]
  · rw [postBumpProcess_eq_plan]
    rfl
  · rw [postBumpProcess_eq_plan]
    rfl
  · rw [postBumpProcess_eq_plan]
    rfl

/-- C15, amended, on the sample order: the second of two process requests in sequence is
rejected. -/
theorem begin_twice_one_succeeds_witness :
    (postBumpProcess (exCfg 20000000000000000) "o1" (exBegin 409000000000000000)
        (postBumpProcess (exCfg 20000000000000000) "o1" (exBegin 419000000000000000)
          exDb).db).response = .error 400 "Order is not in pending status" ∧
    (((postBumpProcess (exCfg 20000000000000000) "o1" (exBegin 419000000000000000)
          exDb).trace ++
        (postBumpProcess (exCfg 20000000000000000) "o1" (exBegin 409000000000000000)
          (postBumpProcess (exCfg 20000000000000000) "o1" (exBegin 419000000000000000)
            exDb).db).trace).filter Call.isTransfer).length = 1 := by
  have h := begin_twice_one_succeeds (exCfg 20000000000000000) "o1"
    (exBegin 419000000000000000) (exBegin 409000000000000000) exDb exOrder
    419000000000000000 20000000000000000 1 "0xfee" rfl rfl rfl rfl (by decide) rfl rfl rfl rfl
    (by decide) (by decide) rfl rfl
  exact ⟨h.2.1, h.2.2.2.1⟩

/-! ## The value sent to wallet batches -/

theorem fundedBatches_append (t1 t2 : List Call) :
    fundedBatches (t1 ++ t2) = fundedBatches t1 + fundedBatches t2 := by
  simp [fundedBatches, List.filter_append]

theorem fundedBatches_zero (t : List Call) (h : ∀ c ∈ t, c.isFundedMark = false) :
    fundedBatches t = 0 := by
  unfold fundedBatches
  rw [List.length_eq_zero, List.filter_eq_nil_iff]
  intro c hc
  simp [h c hc]

theorem fund_ok (fromWallet : Wallet) (wallets : List WalletInfo) (bumpAmount gas : Int)
    (env : FundEnv) (tx : String)
    (h : (fundWalletsWithDisperser fromWallet wallets bumpAmount gas env).2 = .ok tx) :
    env.disperseEth = .ok tx ∧ env.wait = .ok () := by
  unfold fundWalletsWithDisperser at h
  cases hd : env.disperseEth with
  | error e => rw [hd] at h; simp at h
  | ok tx' =>
    cases hw : env.wait with
    | error e => rw [hd, hw] at h; simp at h
    | ok u =>
      rw [hd, hw] at h
      simp only [Except.ok.injEq] at h
      subst h
      exact ⟨rfl, rfl⟩

theorem fund_no_mark (fromWallet : Wallet) (wallets : List WalletInfo) (bumpAmount gas : Int)
    (env : FundEnv) :
    fundedBatches (fundWalletsWithDisperser fromWallet wallets bumpAmount gas env).1 = 0 := by
  apply fundedBatches_zero
  intro c hc
  have h := (fund_trace_no_swap fromWallet wallets bumpAmount gas env c hc).2
  cases c <;> first | rfl | exact absurd rfl (h _)

theorem swapV3_no_mark (wallet : Wallet) (tokenAddress : String) (ethAmount : Int)
    (recipient : String) (env : V3Env) :
    ∀ c ∈ (swapETHForTokensV3 wallet tokenAddress ethAmount recipient env).1,
      c.isFundedMark = false := by
  have hv2 : ∀ c ∈ (swapETHForTokensV2 wallet tokenAddress ethAmount recipient env.v2).1,
      c.isFundedMark = false := by
    unfold swapETHForTokensV2
    cases env.v2.weth with
    | error e => simp [Call.isFundedMark]
    | ok w =>
      cases env.v2.gasPrice with
      | error e => simp [Call.isFundedMark]
      | ok g =>
        cases env.v2.swapExactETHForTokens with
        | error e => simp [Call.isFundedMark]
        | ok tx => cases env.v2.wait <;> simp [Call.isFundedMark]
  have hv3 : ∀ c ∈ (swapV3Try wallet tokenAddress ethAmount recipient env).1,
      c.isFundedMark = false := by
    unfold swapV3Try
    cases env.gasPrice with
    | error e => simp [Call.isFundedMark]
    | ok g =>
      cases env.exactInputSingle with
      | error e => simp [Call.isFundedMark]
      | ok tx => cases env.wait <;> simp [Call.isFundedMark]
  unfold swapETHForTokensV3
  cases hr : swapV3Try wallet tokenAddress ethAmount recipient env with
  | mk calls res =>
    rw [hr] at hv3
    cases res with
    | ok tx => exact hv3
    | error e =>
      intro c hc
      simp only [List.mem_append] at hc
      rcases hc with hc | hc
      · exact hv3 c hc
      · exact hv2 c hc

theorem swapPromises_no_mark (tokenAddress : String) (bumpAmount : Int)
    (wallets : List WalletInfo) (envs : Nat → V3Env) :
    fundedBatches (swapPromises tokenAddress bumpAmount wallets envs).1 = 0 := by
  apply fundedBatches_zero
  intro c hc
  simp only [swapPromises, List.mem_flatten, List.mem_map] at hc
  obtain ⟨l, ⟨r, ⟨⟨i, w⟩, -, rfl⟩, rfl⟩, hc⟩ := hc
  rw [swapPromise_calls] at hc
  exact swapV3_no_mark _ _ _ _ _ c hc

/-- What an iteration adds to the number of funded batches and to the counter: nothing, and
it ends by `break`; or one funded batch, the balance read having sufficed and the funding
having succeeded, the counter growing by one unless the iteration ends by `break` before. -/
theorem batchBody_funded (orderId : String) (depositWallet : Wallet) (bumpAmount : Int)
    (env : BatchEnv) (s : LoopState) :
    (fundedBatches (batchBody orderId depositWallet bumpAmount env s).1.trace =
        fundedBatches s.trace ∧
      (batchBody orderId depositWallet bumpAmount env s).1.currentBatch = s.currentBatch ∧
      (batchBody orderId depositWallet bumpAmount env s).2 = false) ∨
    (fundedBatches (batchBody orderId depositWallet bumpAmount env s).1.trace =
        fundedBatches s.trace + 1 ∧
      (∃ B tx, env.balance = .ok B ∧ bumpAmount * batchSize + gasBuffer * batchSize ≤ B ∧
        env.fund.disperseEth = .ok tx ∧ env.fund.wait = .ok ()) ∧
      (((batchBody orderId depositWallet bumpAmount env s).1.currentBatch = s.currentBatch ∧
          (batchBody orderId depositWallet bumpAmount env s).2 = false) ∨
        (batchBody orderId depositWallet bumpAmount env s).1.currentBatch =
          s.currentBatch + 1)) := by
  have hmark : ∀ st : BatchStatus, fundedBatches [.saveBatch (newBatch orderId s env st)] =
      if st = .funded then 1 else 0 := by
    intro st
    cases st <;> simp [fundedBatches, Call.isFundedMark, newBatch]
  have hbalance : fundedBatches [Call.getBalance depositWallet.address] = 0 := rfl
  cases hbal : env.balance with
  | error e => rw [batchBody_balance_error _ _ _ _ _ e hbal]; left; simp [fundedBatches_append, hbalance]
  | ok B =>
    by_cases hlow : B < bumpAmount * batchSize + gasBuffer * batchSize
    · rw [batchBody_insufficient _ _ _ _ _ B hbal hlow]; left
      simp [fundedBatches_append, hbalance]
    · have henough := not_lt.mp hlow
      cases hcreated : env.saveCreated with
      | error e =>
        rw [batchBody_saveCreated_error _ _ _ _ _ B e hbal henough hcreated]; left
        refine ⟨?_, rfl, rfl⟩
        simp only
        rw [fundedBatches_append]
        simp [fundedBatches, Call.isFundedMark, newBatch]
      | ok u =>
        have hnofund := fund_no_mark depositWallet
          (generateWalletBatch batchSize env.createRandom) bumpAmount gasBuffer env.fund
        cases hfund : fundWalletsWithDisperser depositWallet
          (generateWalletBatch batchSize env.createRandom) bumpAmount gasBuffer env.fund with
        | mk calls res =>
          rw [hfund] at hnofund
          simp only at hnofund
          have hpre : fundedBatches (s.trace ++ [Call.getBalance depositWallet.address,
              Call.saveBatch (newBatch orderId s env .created)] ++ calls) =
              fundedBatches s.trace := by
            rw [fundedBatches_append, fundedBatches_append, hnofund]
            simp [fundedBatches, Call.isFundedMark, newBatch]
          cases res with
          | error e =>
            rw [batchBody_fund_error _ _ _ _ _ B e calls hbal henough hcreated hfund]
            left
            exact ⟨hpre, rfl, rfl⟩
          | ok tx =>
            have hok := fund_ok depositWallet (generateWalletBatch batchSize env.createRandom)
              bumpAmount gasBuffer env.fund tx (by rw [hfund])
            have hfundedPre : fundedBatches (s.trace ++
                [Call.getBalance depositWallet.address,
                  Call.saveBatch (newBatch orderId s env .created)] ++ calls ++
                [Call.saveBatch (newBatch orderId s env .funded)]) =
                fundedBatches s.trace + 1 := by
              rw [fundedBatches_append, hpre, hmark]
              simp
            right
            refine ⟨?_, ⟨B, tx, rfl, henough, hok.1, hok.2⟩, ?_⟩
            · cases hfunded : env.saveFunded with
              | error e =>
                rw [batchBody_saveFunded_error _ _ _ _ _ B e tx calls hbal henough hcreated
                  hfund hfunded]
                exact hfundedPre
              | ok u =>
                have hsw := swapPromises_no_mark s.order.tokenAddress bumpAmount
                  (generateWalletBatch batchSize env.createRandom) env.swaps
                cases hcompleted : env.saveCompleted with
                | error e =>
                  rw [batchBody_saveCompleted_error _ _ _ _ _ B e tx calls hbal henough
                    hcreated hfund hfunded hcompleted]
                  simp only
                  rw [fundedBatches_append, fundedBatches_append, hfundedPre, hsw, hmark]
                  simp
                | ok u =>
                  rw [batchBody_swapped _ _ _ _ _ B tx calls hbal henough hcreated hfund
                    hfunded hcompleted]
                  have htr : fundedBatches (completedTrace orderId depositWallet bumpAmount s
                      env calls) = fundedBatches s.trace + 1 := by
                    unfold completedTrace
                    rw [fundedBatches_append, fundedBatches_append, hfundedPre, hsw]
                    simp [fundedBatches, Call.isFundedMark, newBatch]
                  cases env.saveOrder <;> exact htr
            · cases hfunded : env.saveFunded with
              | error e =>
                rw [batchBody_saveFunded_error _ _ _ _ _ B e tx calls hbal henough hcreated
                  hfund hfunded]
                exact Or.inl ⟨rfl, rfl⟩
              | ok u =>
                cases hcompleted : env.saveCompleted with
                | error e =>
                  rw [batchBody_saveCompleted_error _ _ _ _ _ B e tx calls hbal henough
                    hcreated hfund hfunded hcompleted]
                  exact Or.inl ⟨rfl, rfl⟩
                | ok u =>
                  rw [batchBody_swapped _ _ _ _ _ B tx calls hbal henough hcreated hfund
                    hfunded hcompleted]
                  cases env.saveOrder <;> exact Or.inr rfl

/-- The bound kept by the loop: when the iteration `iter` starts, `iter` batches have been
funded, the counter has grown by `iter`, and the balance read of the iteration, added to the
value of the `iter` fundings, is within `R`. When the loop ends, the value of the batches
funded is within `R` and the counter has grown by at most their number. -/
theorem batchLoop_funded (orderId : String) (depositWallet : Wallet) (bumpAmount : Int)
    (envs : Nat → BatchEnv) (R c0 : Int)
    (hspent : ∀ i B B' tx, (envs i).balance = .ok B → (envs i).fund.disperseEth = .ok tx →
      (envs i).fund.wait = .ok () → (envs (i + 1)).balance = .ok B' →
      B' ≤ B - (bumpAmount * batchSize + gasBuffer * batchSize)) :
    ∀ (n iter : Nat) (s : LoopState), (s.order.totalBatches - s.currentBatch).toNat ≤ n →
      fundedBatches s.trace = iter → s.currentBatch = c0 + iter →
      (iter : Int) * (bumpAmount * batchSize + gasBuffer * batchSize) ≤ R →
      (∀ B, (envs iter).balance = .ok B →
        B + (iter : Int) * (bumpAmount * batchSize + gasBuffer * batchSize) ≤ R) →
      ((fundedBatches (batchLoop orderId depositWallet bumpAmount envs iter s).trace : Int)) *
          (bumpAmount * batchSize + gasBuffer * batchSize) ≤ R ∧
        (batchLoop orderId depositWallet bumpAmount envs iter s).currentBatch ≤
          c0 + fundedBatches (batchLoop orderId depositWallet bumpAmount envs iter s).trace := by
  intro n
  induction n with
  | zero =>
    intro iter s hn hf hc hv _
    have hdone : ¬ s.currentBatch < s.order.totalBatches := by omega
    rw [batchLoop_done _ _ _ _ _ _ hdone, hf]
    exact ⟨hv, by omega⟩
  | succ n ih =>
    intro iter s hn hf hc hv hb
    by_cases hlt : s.currentBatch < s.order.totalBatches
    · have hsucc : ((iter + 1 : Nat) : Int) *
          (bumpAmount * batchSize + gasBuffer * batchSize) =
          (iter : Int) * (bumpAmount * batchSize + gasBuffer * batchSize) +
            (bumpAmount * batchSize + gasBuffer * batchSize) := by
        push_cast
        ring
      rcases batchBody_funded orderId depositWallet bumpAmount (envs iter) s with
        ⟨h1, h2, h3⟩ | ⟨h1, ⟨B, tx, hB, hVB, hd, hw⟩, h3⟩
      · rw [batchLoop_break orderId depositWallet bumpAmount envs iter s
          (batchBody orderId depositWallet bumpAmount (envs iter) s).1 hlt (Prod.ext rfl h3),
          h1, hf, h2]
        exact ⟨hv, by omega⟩
      · have hbound := hb B hB
        have hv' : ((iter + 1 : Nat) : Int) *
            (bumpAmount * batchSize + gasBuffer * batchSize) ≤ R := by
          rw [hsucc]; omega
        by_cases hflag : (batchBody orderId depositWallet bumpAmount (envs iter) s).2 = true
        · rw [batchLoop_continue orderId depositWallet bumpAmount envs iter s
            (batchBody orderId depositWallet bumpAmount (envs iter) s).1 hlt
            (Prod.ext rfl hflag)]
          have hcur : (batchBody orderId depositWallet bumpAmount (envs iter) s).1.currentBatch =
              s.currentBatch + 1 := by
            rcases h3 with ⟨-, h3⟩ | h3
            · rw [h3] at hflag; simp at hflag
            · exact h3
          have htot : (batchBody orderId depositWallet bumpAmount (envs iter)
              s).1.order.totalBatches = s.order.totalBatches := by
            rcases batchBody_cases orderId depositWallet bumpAmount (envs iter) s with
              ⟨-, h, -⟩ | ⟨h, -⟩ <;> rw [h]
          apply ih (iter + 1) _ (by rw [htot, hcur]; omega) (by rw [h1, hf])
            (by rw [hcur, hc]; push_cast; ring) hv'
          intro B' hB'
          have := hspent iter B B' tx hB hd hw hB'
          rw [hsucc]
          omega
        · have hflag' : (batchBody orderId depositWallet bumpAmount (envs iter) s).2 = false := by
            simpa using hflag
          rw [batchLoop_break orderId depositWallet bumpAmount envs iter s
            (batchBody orderId depositWallet bumpAmount (envs iter) s).1 hlt
            (Prod.ext rfl hflag'), h1, hf]
          refine ⟨hv', ?_⟩
          have hle : (batchBody orderId depositWallet bumpAmount (envs iter) s).1.currentBatch ≤
              s.currentBatch + 1 := by
            rcases h3 with ⟨h3, -⟩ | h3
            · rw [h3]; omega
            · rw [h3]
          rw [hc] at hle
          push_cast
          omega
    · rw [batchLoop_done _ _ _ _ _ _ hlt, hf]
      exact ⟨hv, by omega⟩

theorem processFinish_funded (orderId : String) (env : ProcessEnv) (s : LoopState) :
    fundedBatches (processFinish orderId env s).trace = fundedBatches s.trace := by
  unfold processFinish
  cases env.finalSave with
  | ok u => simp [fundedBatches_append, fundedBatches, Call.isFundedMark]
  | error e =>
    simp only [processCatch]
    cases env.updateOne <;>
      simp [fundedBatches_append, fundedBatches, Call.isFundedMark]

theorem reachable_pending_zero (cfg : Config) (db : Db) (hreach : Reachable cfg db) :
    ∀ orderId o, db.findOne orderId = some o → o.status = .pending → o.currentBatch = 0 := by
  unfold Reachable at hreach
  induction hreach with
  | refl =>
    intro orderId o ho
    simp [Db.findOne] at ho
  | @tail dbm db' _ hstep ih =>
    intro orderId o' ho' hp
    cases hprev : dbm.findOne orderId with
    | none =>
      rcases step_new_pending cfg _ _ hstep orderId hprev with h | ⟨x, hx, -, h0, -⟩
      · rw [h] at ho'; simp at ho'
      · rw [hx] at ho'
        simp only [Option.some.injEq] at ho'
        rw [← ho']; exact h0
    | some o =>
      obtain ⟨x, hx, hmove⟩ := step_orderMove cfg _ _ hstep orderId o hprev
      rw [hx] at ho'
      simp only [Option.some.injEq] at ho'
      subst ho'
      rcases hmove with rfl | ⟨-, B, tb, rfl⟩ | ⟨-, c, st, ca, rfl, hst⟩
      · exact ih orderId x hprev hp
      · simp [startedOrder] at hp
      · simp only at hp
        rcases hst with h | h | h <;> rw [h] at hp <;> simp at hp

theorem plan_value (r b totalBumps : Int)
    (hplan : (bnDiv r b).bind toNumber = .ok totalBumps) :
    b ≠ 0 ∧ totalBumps = Int.tdiv r b := by
  by_cases hne : b = 0
  · simp [bnDiv, hne, Except.bind] at hplan
  · refine ⟨hne, ?_⟩
    simp only [bnDiv, hne, if_false, Except.bind, toNumber] at hplan
    split at hplan
    · simp only [Except.ok.injEq] at hplan
      exact hplan.symm
    · simp at hplan

/-- With a bump amount that does not exceed minus the gas buffer, the value of the planned
batches is within the remaining amount. -/
theorem plan_value_nonpos (R b totalBumps : Int) (hR : 0 < R)
    (hplan : (bnDiv R b).bind toNumber = .ok totalBumps) (hV : b + gasBuffer ≤ 0) :
    mathCeilDiv totalBumps batchSize * (5 * (b + gasBuffer)) ≤ R := by
  obtain ⟨-, htb⟩ := plan_value R b totalBumps hplan
  have hg : 0 < gasBuffer := by decide
  have hb : b ≤ 0 := by omega
  have hq : Int.tdiv R b ≤ 0 := Int.tdiv_nonpos hR.le hb
  have hmod : 0 ≤ Int.tmod R b := Int.tmod_nonneg b hR.le
  have hdiv := Int.tmod_add_tdiv R b
  have h5 : totalBumps + 4 < 5 * ((totalBumps + 4) / 5) + 5 :=
    Int.lt_mul_ediv_self_add (by decide)
  have hT : mathCeilDiv totalBumps batchSize = (totalBumps + 4) / 5 := by
    simp [mathCeilDiv, batchSize]
  rw [hT]
  rw [← htb] at hq hdiv
  set T := (totalBumps + 4) / 5 with hTdef
  have h1 : 0 ≤ (5 * T - totalBumps) * (-(b + gasBuffer)) :=
    mul_nonneg (by omega) (by omega)
  have h2 : 0 ≤ (-totalBumps) * gasBuffer := mul_nonneg (by omega) hg.le
  nlinarith

/-- C16: for a process request that succeeds on an order of a reachable store, the deposit
reading `B0`, followed by its background run, under the assumption that the deposit balance
changes through the transfers of the run only, each costing at least its value: the stored
`remainingAmount` is `formatEther(B0 - fee)`, and the value sent to wallet batches, the
number of funded batches times `5 * (bumpAmount + gasBuffer)`, does not exceed `B0 - fee`.
Hence when `B0 - fee` is less than `totalBatches * 5 * (bumpAmount + gasBuffer)`, a run
whose read of the order and final write succeed ends with the order stored as `completed`
with `currentBatch < totalBatches`. -/
theorem funded_value_within_remaining (cfg : Config) (orderId : String) (env : BeginEnv)
    (penv : ProcessEnv) (db : Db) (B0 bumpAmount : Int) (msg : String)
    (totalBatches estimatedBumps : Int)
    (hreach : Reachable cfg db)
    (hbal : env.balance = .ok B0) (hcfg : cfg.bumpAmount = .ok bumpAmount)
    (hstarted : (postBumpProcess cfg orderId env db).response =
      .started msg orderId totalBatches estimatedBumps)
    (hspent : BalanceSpent B0 bumpAmount penv.batches) :
    (∃ o, (postBumpProcess cfg orderId env db).db.findOne orderId = some o ∧
      o.remainingAmount = formatEther (B0 - treasuryFee) ∧ o.totalBatches = totalBatches) ∧
    (fundedBatches (processBumpOrder cfg orderId penv
        (postBumpProcess cfg orderId env db).db).trace : Int) *
      (5 * (bumpAmount + gasBuffer)) ≤ B0 - treasuryFee ∧
    (B0 - treasuryFee < totalBatches * (5 * (bumpAmount + gasBuffer)) →
      penv.findOne = .ok () → penv.finalSave = .ok () →
      ∃ o', (processBumpOrder cfg orderId penv
          (postBumpProcess cfg orderId env db).db).db.findOne orderId = some o' ∧
        o'.status = .completed ∧ o'.totalBatches = totalBatches ∧
        o'.currentBatch < o'.totalBatches ∧
        o'.currentBatch ≤ fundedBatches (processBumpOrder cfg orderId penv
          (postBumpProcess cfg orderId env db).db).trace) := by
  rcases postBumpProcess_cases cfg orderId env db with
    ⟨-, ⟨code, err, herr⟩, -⟩ | ⟨order, B, b, tb, ho, hpend, -, hbalB, hmin, hcfgb, hplan, heq,
      hresp⟩
  · rw [herr] at hstarted
    exact absurd hstarted (by simp)
  rw [hbal] at hbalB
  simp only [Except.ok.injEq] at hbalB
  subst hbalB
  rw [hcfg] at hcfgb
  simp only [Except.ok.injEq] at hcfgb
  subst hcfgb
  rw [hresp] at hstarted
  simp only [Response.started.injEq] at hstarted
  obtain ⟨-, -, htb, -⟩ := hstarted
  have hzero : order.currentBatch = 0 := reachable_pending_zero cfg db hreach orderId order ho hpend
  have hrem := remaining_pos B0 hmin
  have hid := findOne_orderId db orderId order ho
  have ho1 : (postBumpProcess cfg orderId env db).db.findOne orderId =
      some (startedOrder order B0 tb) := by
    rw [heq]
    exact findOne_saveOrder db orderId order _ ho hid
  have hV : bumpAmount * batchSize + gasBuffer * batchSize = 5 * (bumpAmount + gasBuffer) := by
    simp only [batchSize]
    push_cast
    ring
  generalize (postBumpProcess cfg orderId env db).db = db1 at ho1 ⊢
  refine ⟨⟨_, ho1, rfl, htb⟩, ?_⟩
  have hst1 : (startedOrder order B0 tb).status = .processing := rfl
  cases hfind : penv.findOne with
  | error e =>
    have hrun : (processBumpOrder cfg orderId penv db1).trace =
        [.findOne orderId, .updateOne orderId .failed] := by
      simp only [processBumpOrder, hfind, processCatch]
      cases penv.updateOne <;> rfl
    refine ⟨?_, fun _ h => by simp at h⟩
    rw [hrun]
    simp only [fundedBatches, List.filter_cons, Call.isFundedMark, List.filter_nil]
    simp
    omega
  | ok u =>
    have hrun : processBumpOrder cfg orderId penv db1 =
        processFinish orderId penv
          (batchLoop orderId ⟨order.depositWallet, order.privateKey⟩ bumpAmount penv.batches 0
            ⟨startedOrder order B0 tb, 0, db1, [.findOne orderId]⟩) := by
      simp only [processBumpOrder, hfind, ho1, hst1, ne_eq, not_true_eq_false, if_false, hcfg]
      have : (startedOrder order B0 tb).currentBatch = 0 := hzero
      rw [this]
      rfl
    have hinv := loopInv_batchLoop (startedOrder order B0 tb) db1 orderId
      ⟨order.depositWallet, order.privateKey⟩ bumpAmount penv.batches 0 _
      (loopInv_init db1 orderId _ ho1 [.findOne orderId])
    have hcur0 : (startedOrder order B0 tb).currentBatch = 0 := hzero
    rw [hcur0] at hinv
    have hloop := batchLoop_funded orderId ⟨order.depositWallet, order.privateKey⟩ bumpAmount
      penv.batches (B0 - treasuryFee) 0 hspent.2 _ 0
      ⟨startedOrder order B0 tb, 0, db1, [.findOne orderId]⟩ (le_refl _) rfl (by simp)
      (by simp; omega)
      (by
        intro B hB
        have := hspent.1 B hB
        simp only [Nat.cast_zero, zero_mul, add_zero]
        exact this)
    rw [hrun, processFinish_funded]
    generalize batchLoop orderId ⟨order.depositWallet, order.privateKey⟩ bumpAmount
      penv.batches 0 ⟨startedOrder order B0 tb, 0, db1, [.findOne orderId]⟩ = sF at hinv hloop ⊢
    rw [hV] at hloop
    refine ⟨hloop.1, ?_⟩
    intro hless _ hfinal
    obtain ⟨hsid, -, hscur, hstot, c, hstored, -, -⟩ :=
      loopInv_stored (startedOrder order B0 tb) db1 orderId sF ho1 hinv
    rw [processFinish_ok orderId penv sF hfinal]
    refine ⟨_, findOne_saveOrder sF.db orderId _ _ hstored hsid, rfl, ?_, ?_, ?_⟩
    · show sF.order.totalBatches = totalBatches
      rw [hstot]; exact htb
    · show sF.order.currentBatch < sF.order.totalBatches
      rw [hscur, hstot]
      have htb' : (startedOrder order B0 tb).totalBatches = totalBatches := htb
      rw [htb']
      by_cases hpos : 0 < 5 * (bumpAmount + gasBuffer)
      · by_contra hge
        have hge' : totalBatches ≤ (fundedBatches sF.trace : Int) := by omega
        have := mul_le_mul_of_nonneg_right hge' hpos.le
        omega
      · exfalso
        have := plan_value_nonpos (B0 - treasuryFee) bumpAmount tb (by omega) hplan (by omega)
        rw [htb] at this
        omega
    · show sF.order.currentBatch ≤ _
      rw [hscur]
      have := hloop.2
      omega

theorem exDb_reachable (cfg : Config) : Reachable cfg exDb := by
  have hstep : Step cfg ⟨[], []⟩ (postBumpCreate (some "0xtoken") exCreate ⟨[], []⟩).db :=
    Step.create (some "0xtoken") exCreate ⟨[], []⟩
  have hdb: (postBumpCreate (some "0xtoken") exCreate ⟨[], []⟩).db = exDb := by
    simp [postBumpCreate, exCreate, getTokenPrice, addressZero, Db.findOne, Db.insertOrder,
      exDb, exOrder, exDeposit]
  rw [hdb] at hstep
  exact Relation.ReflTransGen.single hstep

/-- C16 on the sample order: with a deposit of 0.02 ETH and a bump amount of 0.01 ETH one
batch is planned, 0.011 ETH remain where a batch takes 0.0505 ETH, no batch is funded and the
run ends `completed` below the planned number of batches. -/
theorem funded_value_within_remaining_witness :
    fundedBatches (processBumpOrder (exCfg 10000000000000000) "o1"
        (exProcess fun _ => exBatchUnfunded 11000000000000000)
        (postBumpProcess (exCfg 10000000000000000) "o1" (exBegin 20000000000000000)
          exDb).db).trace = 0 ∧
    ((processBumpOrder (exCfg 10000000000000000) "o1"
        (exProcess fun _ => exBatchUnfunded 11000000000000000)
        (postBumpProcess (exCfg 10000000000000000) "o1" (exBegin 20000000000000000)
          exDb).db).db.findOne "o1").map
      (fun o => (o.status, o.totalBatches, decide (o.currentBatch < o.totalBatches))) =
      some (.completed, 1, true) := by
  have hspent : BalanceSpent 20000000000000000 10000000000000000
      (exProcess fun _ => exBatchUnfunded 11000000000000000).batches := by
    constructor
    · intro B hB
      simp only [exProcess, exBatchUnfunded, exBatch, Except.ok.injEq] at hB
      subst hB
      decide
    · intro i B B' tx _ hd
      simp [exProcess, exBatchUnfunded] at hd
  have h := funded_value_within_remaining (exCfg 10000000000000000) "o1"
    (exBegin 20000000000000000) (exProcess fun _ => exBatchUnfunded 11000000000000000) exDb
    20000000000000000 10000000000000000 "Bump order processing started" 1 1
    (exDb_reachable _) rfl rfl (by decide) hspent
  constructor
  · have h2 := h.2.1
    simp only [gasBuffer, treasuryFee] at h2
    omega
  · obtain ⟨o', h1, h2, h3, h4, -⟩ := h.2.2 (by decide) rfl rfl
    rw [h1, Option.map_some', h2, h3]
    simp [h3 ▸ h4]

end Bumper
